import Mathlib

/-!
# Inventory console: list normalisation and warehouse report

A shallow embedding of the functions of the front end that carry its logic,

* `extractDataFromResponse` (src/src/ProductView.js, lines 92-108),
* `generateReport` (src/src/WarehouseReports.js, lines 73-151),
* `exportToCSV` (src/src/WarehouseReports.js, lines 153-185),
* the unwrapping written inline in `fetchData` (src/src/WarehouseReports.js)
  and in the fetch functions of src/src/App.js, and
* from src/src/App.js: the stock quantity read by `Dashboard` and
  `InventoryView`, the payload of `handleAdjustStock`, `canModifyUser` and
  `canCreateRole` of `UsersView`, and the pagination of `InventoryView`,

together with the part of the JavaScript runtime they rely on: property reads,
truthiness, the two equalities, the relational operators, the conversion of a
value to a property key and the enumeration order of the keys of an object.

Values are JSON trees.  A run-time `TypeError` is an explicit error result.
The definitions come first; the lemmas and the theorems on the claims C1, C2,
... of the specification follow them.
-/

set_option autoImplicit false

/-! ## Values -/

/-- JavaScript values as produced by parsing a JSON response, plus `undefined`.
`num n` is the integer-valued number `n`; the embedding covers the safe range
`|n| ≤ 2^53 - 1`, where the number is exact and its string form is the plain
decimal numeral.  `obj props` lists the own properties of a plain object in
the order in which they were created, each key once; when a key is repeated
the first entry is the property. -/
inductive JsVal where
  | undefined
  | null
  | bool (b : Bool)
  | num (n : Int)
  | str (s : String)
  | arr (items : List JsVal)
  | obj (props : List (String × JsVal))

/-- The only exception the embedded code can raise. -/
inductive JsError where
  | typeError
  deriving DecidableEq, Repr

namespace JsVal

instance : Inhabited JsVal := ⟨undefined⟩

/-- Result of `Array.isArray(v)`. -/
def isArray : JsVal → Bool
  | arr _ => true
  | _ => false

/-- Result of `typeof v === 'object'`: plain objects, arrays and `null`. -/
def typeofObject : JsVal → Bool
  | obj _ => true
  | arr _ => true
  | null => true
  | _ => false

/-- Whether the value is a plain object, the shape of every record of the
data model. -/
def isRecord : JsVal → Bool
  | obj _ => true
  | _ => false

/-- The elements of an array value (no elements for any other value). -/
def elems : JsVal → List JsVal
  | arr items => items
  | _ => []

/-- ToBoolean: `undefined`, `null`, `false`, `0` and `""` are falsy. -/
def truthy : JsVal → Bool
  | undefined => false
  | null => false
  | bool b => b
  | num n => n != 0
  | str s => s != ""
  | arr _ => true
  | obj _ => true

/-- Own property `name` of a property table, `undefined` when it is absent. -/
def field (props : List (String × JsVal)) (name : String) : JsVal :=
  (props.lookup name).getD undefined

/-- The read `v.name` (or `v[name]`).  Reading a property of `undefined` or
`null` raises a TypeError.  On a plain object the own property is returned
(`undefined` when absent).  On an array or a primitive the result is
`undefined`: the names read by the embedded code (`data`, `content`, `id`,
`warehouse`, `product`, `supplier`, `stockLevel`, `name`, ...) are none of the
built-in properties (`length`, an index, a prototype method). -/
def getProp (v : JsVal) (name : String) : Except JsError JsVal :=
  match v with
  | undefined => .error .typeError
  | null => .error .typeError
  | obj props => .ok (field props name)
  | _ => .ok undefined

/-- The read `v.name` where it cannot raise; `undefined` stands in for the
TypeError case, so this agrees with `getProp` on every value other than
`undefined` and `null`. -/
def get (v : JsVal) (name : String) : JsVal :=
  match v with
  | obj props => field props name
  | _ => undefined

end JsVal

/-! ## Numeric strings and numbers -/

/-- Value of a digit character in bases up to sixteen. -/
def digitVal (c : Char) : Option Nat :=
  if '0' ≤ c ∧ c ≤ '9' then some (c.toNat - 48)
  else if 'a' ≤ c ∧ c ≤ 'f' then some (c.toNat - 87)
  else if 'A' ≤ c ∧ c ≤ 'F' then some (c.toNat - 55)
  else none

/-- Accumulate the digits of `cs` in the given base; `none` on a character that
is not a digit of that base. -/
def digitsFrom (base : Nat) : Nat → List Char → Option Nat
  | acc, [] => some acc
  | acc, c :: cs =>
    match digitVal c with
    | some d => if d < base then digitsFrom base (acc * base + d) cs else none
    | none => none

/-- The number written by a non-empty run of digits of the given base. -/
def natOfDigits (base : Nat) (cs : List Char) : Option Nat :=
  match cs with
  | [] => none
  | _ => digitsFrom base 0 cs

/-- An own property key that is an array index: the canonical decimal numeral
of an integer in `0 .. 2^32 - 2` (no sign, no leading zero). -/
def arrayIndex? (k : String) : Option Nat :=
  match k.data with
  | [] => none
  | ['0'] => some 0
  | '0' :: _ => none
  | cs =>
    match natOfDigits 10 cs with
    | some n => if n < 4294967295 then some n else none
    | none => none

/-- Numbers as the result of ToNumber.  A finite value is `mant * 10 ^ exp`;
every double-precision number can be written so, and the conversion of a
string and the operators `*` and `+` round their exact result to the nearest
double with `toDouble`.  The sign of a zero is not kept. -/
inductive JsNumber where
  | nan
  | negInf
  | fin (mant : Int) (exp : Int)
  | posInf

/-- The number of binary digits of `n`, counted with `fuel` halvings. -/
def bitLengthAux : Nat → Nat → Nat
  | 0, _ => 0
  | fuel + 1, n => if n = 0 then 0 else bitLengthAux fuel (n / 2) + 1

/-- The number of binary digits of `n`: 0 for 0, and `k + 1` when
`2 ^ k ≤ n < 2 ^ (k + 1)`. -/
def bitLength (n : Nat) : Nat :=
  bitLengthAux n n

/-- Whether `2 ^ k ≤ p / q`. -/
def twoPowLe (k : Int) (p q : Nat) : Bool :=
  if 0 ≤ k then decide (q * 2 ^ k.toNat ≤ p) else decide (q ≤ p * 2 ^ (-k).toNat)

/-- The integer nearest to `num / den`, the even one of the two when both are
equally near. -/
def roundHalfEven (num den : Nat) : Nat :=
  if 2 * (num % den) < den then num / den
  else if den < 2 * (num % den) then num / den + 1
  else if (num / den) % 2 = 0 then num / den else num / den + 1

/-- The binary exponent of the last place of the double nearest to `p / q`,
for positive `p` and `q`: 52 below the exponent of the leading binary digit of
`p / q`, and never below -1074, the last place of the subnormal numbers. -/
def lastPlace (p q : Nat) : Int :=
  let k : Int := Int.ofNat (bitLength p) - Int.ofNat (bitLength q)
  max ((if twoPowLe k p q then k else k - 1) - 52) (-1074)

namespace JsNumber

/-- Unary minus. -/
def neg : JsNumber → JsNumber
  | nan => nan
  | negInf => posInf
  | fin m e => fin (-m) e
  | posInf => negInf

/-- Both mantissas of two finite values scaled to their smaller exponent. -/
def align (m₁ e₁ m₂ e₂ : Int) : Int × Int :=
  let e := min e₁ e₂
  (m₁ * 10 ^ (e₁ - e).toNat, m₂ * 10 ^ (e₂ - e).toNat)

/-- Numeric equality; `NaN` equals nothing. -/
def eq : JsNumber → JsNumber → Bool
  | negInf, negInf => true
  | posInf, posInf => true
  | fin m₁ e₁, fin m₂ e₂ => (align m₁ e₁ m₂ e₂).1 == (align m₁ e₁ m₂ e₂).2
  | _, _ => false

/-- Numeric `<`; false as soon as one side is `NaN`. -/
def lt : JsNumber → JsNumber → Bool
  | nan, _ => false
  | _, nan => false
  | negInf, negInf => false
  | negInf, _ => true
  | _, negInf => false
  | posInf, _ => false
  | _, posInf => true
  | fin m₁ e₁, fin m₂ e₂ => decide ((align m₁ e₁ m₂ e₂).1 < (align m₁ e₁ m₂ e₂).2)

/-- Whether the value is `NaN`. -/
def isNaN : JsNumber → Bool
  | nan => true
  | _ => false

/-- The double-precision number nearest to a finite value `m * 10 ^ e`, ties
going to the even significand: with `E` the binary exponent of the last place,
the value is `M * 2 ^ E` for the integer `M` nearest to `|m * 10 ^ e| / 2 ^ E`;
a value that rounds to `2 ^ 1024` or more becomes infinite.  A value that is a
double already is returned as it is written. -/
def toDouble : JsNumber → JsNumber
  | fin m e =>
    let p := if 0 ≤ e then m.natAbs * 10 ^ e.toNat else m.natAbs
    let q := if 0 ≤ e then 1 else 10 ^ (-e).toNat
    let E := lastPlace p q
    let num := if 0 ≤ E then p else p * 2 ^ (-E).toNat
    let den := if 0 ≤ E then q * 2 ^ E.toNat else q
    let M := roundHalfEven num den
    if m = 0 then fin m e
    else if 971 < E ∨ (E = 971 ∧ 2 ^ 53 ≤ M) then (if m < 0 then negInf else posInf)
    else if num % den = 0 then fin m e
    else if 0 ≤ E then fin ((if m < 0 then -1 else 1) * Int.ofNat (M * 2 ^ E.toNat)) 0
    else fin ((if m < 0 then -1 else 1) * Int.ofNat (M * 5 ^ (-E).toNat)) E
  | x => x

end JsNumber

/-- StrWhiteSpaceChar: white space and line terminators. -/
def isStrWhiteSpace (c : Char) : Bool :=
  let n := c.toNat
  n == 9 || n == 10 || n == 11 || n == 12 || n == 13 || n == 32 || n == 160 ||
  n == 5760 || (8192 ≤ n && n ≤ 8202) || n == 8232 || n == 8233 || n == 8239 ||
  n == 8287 || n == 12288 || n == 65279

/-- ExponentPart of a decimal literal (`e`, optional sign, digits); the empty
rest is exponent zero, anything else is malformed. -/
def parseExponent : List Char → Option Int
  | [] => some 0
  | c :: rest =>
    if c = 'e' ∨ c = 'E' then
      match rest with
      | '+' :: ds => (natOfDigits 10 ds).map Int.ofNat
      | '-' :: ds => (natOfDigits 10 ds).map (fun n => -Int.ofNat n)
      | ds => (natOfDigits 10 ds).map Int.ofNat
    else none

/-- StrUnsignedDecimalLiteral: `Infinity`, or digits with an optional fraction
and exponent, at least one digit before or after the point. -/
def parseUnsignedDecimal (cs : List Char) : JsNumber :=
  if cs = "Infinity".data then JsNumber.posInf
  else
    let ip := cs.takeWhile Char.isDigit
    let r₁ := cs.dropWhile Char.isDigit
    let fp := match r₁ with
      | '.' :: r => r.takeWhile Char.isDigit
      | _ => []
    let r₂ := match r₁ with
      | '.' :: r => r.dropWhile Char.isDigit
      | _ => r₁
    if ip.isEmpty && fp.isEmpty then JsNumber.nan
    else
      match parseExponent r₂, digitsFrom 10 0 (ip ++ fp) with
      | some e, some m => JsNumber.fin (Int.ofNat m) (e - Int.ofNat fp.length)
      | _, _ => JsNumber.nan

/-- StrNumericLiteral: a binary, octal or hexadecimal integer, or a signed
decimal literal. -/
def parseNumericLiteral : List Char → JsNumber
  | '0' :: p :: ds =>
    if p = 'x' ∨ p = 'X' then
      match natOfDigits 16 ds with
      | some n => JsNumber.fin (Int.ofNat n) 0
      | none => JsNumber.nan
    else if p = 'o' ∨ p = 'O' then
      match natOfDigits 8 ds with
      | some n => JsNumber.fin (Int.ofNat n) 0
      | none => JsNumber.nan
    else if p = 'b' ∨ p = 'B' then
      match natOfDigits 2 ds with
      | some n => JsNumber.fin (Int.ofNat n) 0
      | none => JsNumber.nan
    else parseUnsignedDecimal ('0' :: p :: ds)
  | '+' :: cs => parseUnsignedDecimal cs
  | '-' :: cs => (parseUnsignedDecimal cs).neg
  | cs => parseUnsignedDecimal cs

/-- StringToNumber: surrounding white space is dropped, the empty string is 0,
a malformed literal is `NaN`, and the value of a literal is rounded to the
nearest double. -/
def stringToNumber (s : String) : JsNumber :=
  let cs := ((s.data.dropWhile isStrWhiteSpace).reverse.dropWhile isStrWhiteSpace).reverse
  match cs with
  | [] => JsNumber.fin 0 0
  | _ => (parseNumericLiteral cs).toDouble

/-! ## Conversions, equality and comparison -/

namespace JsVal

mutual
/-- ToString, as applied to a value used as a property key or compared with a
string: an array is its elements joined by commas, a plain object is the fixed
text of `Object.prototype.toString`. -/
def toStr : JsVal → String
  | undefined => "undefined"
  | null => "null"
  | bool b => if b then "true" else "false"
  | num n => toString n
  | str s => s
  | arr items => joinItems items
  | obj _ => "[object Object]"
/-- Result of `Array.prototype.join` with the default separator. -/
def joinItems : List JsVal → String
  | [] => ""
  | [x] => itemStr x
  | x :: y :: rest => itemStr x ++ "," ++ joinItems (y :: rest)
/-- One element inside `join`: `undefined` and `null` give the empty string. -/
def itemStr : JsVal → String
  | undefined => ""
  | null => ""
  | bool b => if b then "true" else "false"
  | num n => toString n
  | str s => s
  | arr items => joinItems items
  | obj _ => "[object Object]"
end

/-- ToPrimitive: arrays and plain objects become their string form. -/
def toPrimitive : JsVal → JsVal
  | arr items => str (joinItems items)
  | obj _ => str "[object Object]"
  | v => v

/-- ToNumber. -/
def toNumber : JsVal → JsNumber
  | undefined => JsNumber.nan
  | null => JsNumber.fin 0 0
  | bool b => JsNumber.fin (if b then 1 else 0) 0
  | num n => JsNumber.fin n 0
  | str s => stringToNumber s
  | arr items => stringToNumber (joinItems items)
  | obj _ => JsNumber.nan

/-- Strict equality `===`.  Two primitives are equal when they have the same
type and value.  Two objects (or arrays) are equal only when they are the same
reference; every comparison in the embedded code takes its operands from two
different places of the JSON input (a record against the selection, an
inventory record against a product, a supplier against a product), so for
objects the answer is `false`. -/
def strictEq : JsVal → JsVal → Bool
  | undefined, undefined => true
  | null, null => true
  | bool a, bool b => a == b
  | num a, num b => a == b
  | str a, str b => a == b
  | _, _ => false

/-- Loose equality `==` on primitives of different or equal type, after the
objects have been converted: booleans count as numbers, a number and a string
are compared as numbers. -/
def looseEqPrim : JsVal → JsVal → Bool
  | bool a, bool b => a == b
  | num a, num b => a == b
  | str a, str b => a == b
  | str a, num b => (stringToNumber a).eq (JsNumber.fin b 0)
  | num a, str b => (JsNumber.fin a 0).eq (stringToNumber b)
  | str a, bool b => (stringToNumber a).eq (JsNumber.fin (if b then 1 else 0) 0)
  | bool a, str b => (JsNumber.fin (if a then 1 else 0) 0).eq (stringToNumber b)
  | bool a, num b => (if a then 1 else 0) == b
  | num a, bool b => a == (if b then 1 else 0)
  | _, _ => false

/-- Loose equality `==`.  `undefined` and `null` equal each other and nothing
else; two objects are never the same reference (see `strictEq`); an object
against a primitive is converted with ToPrimitive first. -/
def looseEq : JsVal → JsVal → Bool
  | undefined, undefined => true
  | undefined, null => true
  | null, undefined => true
  | null, null => true
  | undefined, _ => false
  | null, _ => false
  | _, undefined => false
  | _, null => false
  | arr _, arr _ => false
  | arr _, obj _ => false
  | obj _, arr _ => false
  | obj _, obj _ => false
  | x, y => looseEqPrim x.toPrimitive y.toPrimitive

end JsVal

/-- UTF-16 code units of a character. -/
def utf16Units (c : Char) : List Nat :=
  if c.toNat < 65536 then [c.toNat]
  else [55296 + (c.toNat - 65536) / 1024, 56320 + (c.toNat - 65536) % 1024]

/-- UTF-16 code units of a string. -/
def codeUnits (s : String) : List Nat :=
  (s.data.map utf16Units).flatten

/-- Lexicographic `<` on code-unit sequences. -/
def codeUnitsLt : List Nat → List Nat → Bool
  | _, [] => false
  | [], _ :: _ => true
  | a :: as, b :: bs => decide (a < b) || (a == b && codeUnitsLt as bs)

namespace JsVal

/-- The abstract relational comparison `x < y`: `none` is the undefined result
obtained when one side converts to `NaN`.  Two strings (after ToPrimitive) are
compared by code units, anything else as numbers. -/
def lessThan (x y : JsVal) : Option Bool :=
  match x.toPrimitive, y.toPrimitive with
  | str a, str b => some (codeUnitsLt (codeUnits a) (codeUnits b))
  | px, py =>
    if px.toNumber.isNaN || py.toNumber.isNaN then none
    else some (px.toNumber.lt py.toNumber)

/-- The operator `x > y`. -/
def gt (x y : JsVal) : Bool :=
  lessThan y x == some true

/-- The operator `x <= y`. -/
def le (x y : JsVal) : Bool :=
  lessThan y x == some false

end JsVal

/-! ## Enumeration order of own properties -/

/-- The array-index keys of a property table, each with its numeric value. -/
def indexedKeys {α : Type} (props : List (String × α)) : List (Nat × String) :=
  props.filterMap (fun p => (arrayIndex? p.1).map (fun i => (i, p.1)))

/-- The keys that are not array indices, in creation order. -/
def namedKeys {α : Type} (props : List (String × α)) : List String :=
  (props.map Prod.fst).filter (fun k => (arrayIndex? k).isNone)

/-- OrdinaryOwnPropertyKeys, the order followed by `for ... in`,
`Object.values` and object spread: array-index keys in ascending numeric
order first, then every other key in creation order. -/
def ownKeys {α : Type} (props : List (String × α)) : List String :=
  ((indexedKeys props).insertionSort (fun a b => a.1 ≤ b.1)).map Prod.snd ++ namedKeys props

/-! ## extractDataFromResponse (src/src/ProductView.js) -/

/-- The loop `for (const key in data) if (Array.isArray(data[key])) return data[key]`
over the given keys; falling out of the loop reaches the final `return []`. -/
def firstArrayField (data : JsVal) : List String → List JsVal
  | [] => []
  | key :: keys =>
    if (data.get key).isArray then (data.get key).elems
    else firstArrayField data keys

/-- Keys visited by `for (const key in v)` for the values that reach the loop:
a plain object parsed from JSON has its own keys and no inherited enumerable
one. -/
def forInKeys : JsVal → List String
  | JsVal.obj props => ownKeys props
  | _ => []

/-- The function `extractDataFromResponse(response)`.  Only the first read
`response.data` can raise; every later read is guarded by `response.data &&`. -/
def extractDataFromResponse (response : JsVal) : Except JsError (List JsVal) :=
  match response.getProp "data" with
  | .error e => .error e
  | .ok data =>
    if data.isArray then .ok data.elems
    else if data.truthy && (data.get "content").isArray then .ok (data.get "content").elems
    else if data.truthy && (data.get "data").isArray then .ok (data.get "data").elems
    else if data.truthy && data.typeofObject then .ok (firstArrayField data (forInKeys data))
    else .ok []

/-- An HTTP response object whose body is `body`. -/
def responseWith (body : JsVal) : JsVal :=
  JsVal.obj [("status", JsVal.num 200), ("data", body)]

/-- The spec's step 4, read literally: scan the fields in the order in which
the body declares them and return the first value that is an array, the empty
sequence when there is none. -/
def declaredFirstArray (props : List (String × JsVal)) : List JsVal :=
  match props.find? (fun p => p.2.isArray) with
  | some p => p.2.elems
  | none => []

/-- A body with two array-valued fields whose keys are the numerals 10 and 2,
declared in that order. -/
def numeralKeyProps : List (String × JsVal) :=
  [("10", JsVal.arr [JsVal.str "ten"]), ("2", JsVal.arr [JsVal.str "two"])]

/-! ## generateReport (src/src/WarehouseReports.js) -/

namespace JsNumber

/-- Whether a finite or infinite value is zero. -/
def isZero : JsNumber → Bool
  | fin m _ => m == 0
  | _ => false

/-- Whether the value is below zero. -/
def isNeg : JsNumber → Bool
  | negInf => true
  | fin m _ => decide (m < 0)
  | _ => false

/-- The operator `*` on numbers: `NaN` is absorbing, infinity times zero is
`NaN`, the sign of an infinite product is the product of the signs, and the
product of two finite numbers is rounded to the nearest double. -/
def mul : JsNumber → JsNumber → JsNumber
  | nan, _ => nan
  | _, nan => nan
  | fin m₁ e₁, fin m₂ e₂ => (fin (m₁ * m₂) (e₁ + e₂)).toDouble
  | x, y =>
    if x.isZero || y.isZero then nan
    else if x.isNeg == y.isNeg then posInf
    else negInf

/-- The operator `+` on numbers; the sum of two finite numbers is rounded to
the nearest double. -/
def add : JsNumber → JsNumber → JsNumber
  | nan, _ => nan
  | _, nan => nan
  | posInf, negInf => nan
  | negInf, posInf => nan
  | posInf, _ => posInf
  | _, posInf => posInf
  | negInf, _ => negInf
  | _, negInf => negInf
  | fin m₁ e₁, fin m₂ e₂ =>
    (fin ((align m₁ e₁ m₂ e₂).1 + (align m₁ e₁ m₂ e₂).2) (min e₁ e₂)).toDouble

end JsNumber

/-- A method call `xs.find(...)`, `xs.filter(...)` or `xs.map(...)` needs `xs`
to be an array: on `undefined` and `null` the property read raises, on any
other JSON value the method is `undefined` and calling it raises. -/
def asArray : JsVal → Except JsError (List JsVal)
  | JsVal.arr items => .ok items
  | _ => .error .typeError

/-- The call `xs.find(p)` for a callback that may raise: the first element on
which the callback is true, `undefined` when there is none. -/
def arrayFind (p : JsVal → Except JsError Bool) : List JsVal → Except JsError JsVal
  | [] => .ok JsVal.undefined
  | x :: xs =>
    match p x with
    | .error e => .error e
    | .ok true => .ok x
    | .ok false => arrayFind p xs

/-- The call `xs.filter(p)` for a callback that may raise. -/
def arrayFilter (p : JsVal → Except JsError Bool) : List JsVal → Except JsError (List JsVal)
  | [] => .ok []
  | x :: xs =>
    match p x with
    | .error e => .error e
    | .ok b =>
      match arrayFilter p xs with
      | .error e => .error e
      | .ok ys => .ok (if b then x :: ys else ys)

/-- The call `xs.map(f)` for a callback that may raise. -/
def arrayMap (f : JsVal → Except JsError JsVal) : List JsVal → Except JsError (List JsVal)
  | [] => .ok []
  | x :: xs =>
    match f x with
    | .error e => .error e
    | .ok y =>
      match arrayMap f xs with
      | .error e => .error e
      | .ok ys => .ok (y :: ys)

/-- The call `xs.find(p)` for a callback that cannot raise. -/
def findPure (p : JsVal → Bool) (xs : List JsVal) : JsVal :=
  (xs.find? p).getD JsVal.undefined

/-- The callback `w => w.id == warehouseId`. -/
def hasId (warehouseId : JsVal) (w : JsVal) : Except JsError Bool :=
  match w.getProp "id" with
  | .error e => .error e
  | .ok id => .ok (id.looseEq warehouseId)

/-- The callback `record => record.warehouse && record.warehouse.id == warehouseId`
used on products and on inventory records. -/
def inWarehouse (warehouseId : JsVal) (record : JsVal) : Except JsError Bool :=
  match record.getProp "warehouse" with
  | .error e => .error e
  | .ok w => .ok (w.truthy && (w.get "id").looseEq warehouseId)

/-- The local `warehouseProducts`. -/
def warehouseProducts (products warehouseId : JsVal) : Except JsError (List JsVal) :=
  match asArray products with
  | .error e => .error e
  | .ok ps => arrayFilter (inWarehouse warehouseId) ps

/-- The local `warehouseInventory`. -/
def warehouseInventory (inventory warehouseId : JsVal) : Except JsError (List JsVal) :=
  match asArray inventory with
  | .error e => .error e
  | .ok items => arrayFilter (inWarehouse warehouseId) items

/-- The properties copied by the spread `{...v}`: the own properties in key
enumeration order.  Only plain objects are ever spread by the embedded code
(a product that passed the warehouse filter has a truthy `warehouse`). -/
def spreadProps : JsVal → List (String × JsVal)
  | JsVal.obj props => (ownKeys props).map (fun k => (k, JsVal.field props k))
  | _ => []

/-- Defining the property `name` in an object literal: an existing property
keeps its place and takes the new value, a new one goes last. -/
def setProp (props : List (String × JsVal)) (name : String) (v : JsVal) :
    List (String × JsVal) :=
  if (props.lookup name).isSome then
    props.map (fun p => if p.1 = name then (p.1, v) else p)
  else props ++ [(name, v)]

/-- The callback `item => item.product && item.product.id === product.id`. -/
def stockOf (product : JsVal) (item : JsVal) : Bool :=
  (item.get "product").truthy && ((item.get "product").get "id").strictEq (product.get "id")

/-- The callback `s => s.id === product.supplier.id`. -/
def suppliedBy (product : JsVal) (s : JsVal) : Except JsError Bool :=
  match s.getProp "id" with
  | .error e => .error e
  | .ok id => .ok (id.strictEq ((product.get "supplier").get "id"))

/-- The local `productSupplier`. -/
def productSupplier (suppliers product : JsVal) : Except JsError JsVal :=
  if (product.get "supplier").truthy then
    match asArray suppliers with
    | .error e => .error e
    | .ok sups => arrayFind (suppliedBy product) sups
  else .ok JsVal.null

/-- The body of the `map` callback that builds one enriched product.  The
reads on `product` and on the inventory records cannot raise: each of them
passed a filter that read its `warehouse` property. -/
def enrichProduct (inv : List JsVal) (suppliers product : JsVal) : Except JsError JsVal :=
  let inventoryItem := findPure (stockOf product) inv
  match productSupplier suppliers product with
  | .error e => .error e
  | .ok sup =>
    .ok (JsVal.obj
      (setProp
        (setProp (spreadProps product) "currentStock"
          (if inventoryItem.truthy then inventoryItem.get "stockLevel" else JsVal.num 0))
        "supplier" (if sup.truthy then sup else JsVal.null)))

/-- The local `enrichedProducts`. -/
def enrichedProducts (products inventory suppliers warehouseId : JsVal) :
    Except JsError (List JsVal) :=
  match warehouseProducts products warehouseId with
  | .error e => .error e
  | .ok ps =>
    match warehouseInventory inventory warehouseId with
    | .error e => .error e
    | .ok inv => arrayMap (enrichProduct inv suppliers) ps

/-- One entry of `productsBySupplier`. -/
structure SupplierGroup where
  supplier : JsVal
  products : List JsVal

/-- The property names every plain object inherits from `Object.prototype`;
all of them hold a truthy value without a `products` property. -/
def objectPrototypeKeys : List String :=
  ["constructor", "__defineGetter__", "__defineSetter__", "hasOwnProperty",
   "__lookupGetter__", "__lookupSetter__", "isPrototypeOf", "propertyIsEnumerable",
   "toString", "valueOf", "__proto__", "toLocaleString"]

/-- The property key `supplierId` under which an enriched product is filed. -/
def supplierKey (product : JsVal) : String :=
  JsVal.toStr
    (if (product.get "supplier").truthy then (product.get "supplier").get "id"
     else JsVal.str "no-supplier")

/-- The label of a group created by `product`:
`product.supplier || { name: 'No Supplier' }`. -/
def supplierLabel (product : JsVal) : JsVal :=
  if (product.get "supplier").truthy then product.get "supplier"
  else JsVal.obj [("name", JsVal.str "No Supplier")]

/-- The call `productsBySupplier[key].products.push(product)` on an existing
group. -/
def pushProduct (key : String) (product : JsVal) (groups : List (String × SupplierGroup)) :
    List (String × SupplierGroup) :=
  groups.map (fun kg =>
    if kg.1 = key then (kg.1, { kg.2 with products := kg.2.products ++ [product] }) else kg)

/-- One round of the `forEach` that fills `productsBySupplier`.  When the key
is an own property the product is pushed on that group.  When it is not, but is
inherited from `Object.prototype`, the test `!productsBySupplier[key]` is false,
no group is created, and `.products.push` raises on `undefined`.  Otherwise
the group is created, last in creation order, and the product pushed on it. -/
def fileProduct (groups : List (String × SupplierGroup)) (product : JsVal) :
    Except JsError (List (String × SupplierGroup)) :=
  match groups.lookup (supplierKey product) with
  | some _ => .ok (pushProduct (supplierKey product) product groups)
  | none =>
    if supplierKey product ∈ objectPrototypeKeys then .error .typeError
    else .ok (groups ++ [(supplierKey product, ⟨supplierLabel product, [product]⟩)])

/-- The `forEach` over the enriched products, from the groups built so far. -/
def fileProducts : List (String × SupplierGroup) → List JsVal →
    Except JsError (List (String × SupplierGroup))
  | groups, [] => .ok groups
  | groups, product :: rest =>
    match fileProduct groups product with
    | .error e => .error e
    | .ok groups' => fileProducts groups' rest

/-- The local `productsBySupplier`, starting from the empty object. -/
def productsBySupplier (enriched : List JsVal) : Except JsError (List (String × SupplierGroup)) :=
  fileProducts [] enriched

/-- The `reduce` callback of `totalStockValue`:
`sum + (product.price || 0) * (product.currentStock || 0)`. -/
def addStockValue (sum : JsNumber) (product : JsVal) : JsNumber :=
  let price := if (product.get "price").truthy then product.get "price" else JsVal.num 0
  let stock :=
    if (product.get "currentStock").truthy then product.get "currentStock" else JsVal.num 0
  sum.add (price.toNumber.mul stock.toNumber)

/-- The local `totalStockValue`. -/
def totalStockValue (enriched : List JsVal) : JsNumber :=
  enriched.foldl addStockValue (JsNumber.fin 0 0)

/-- The filter callback of `lowStockProducts`:
`product.minStockLevel > 0 && product.currentStock <= product.minStockLevel`. -/
def isLowStock (product : JsVal) : Bool :=
  (product.get "minStockLevel").gt (JsVal.num 0) &&
    (product.get "currentStock").le (product.get "minStockLevel")

/-- The local `lowStockProducts`. -/
def lowStockProducts (enriched : List JsVal) : List JsVal :=
  enriched.filter isLowStock

/-- The value passed to `setReportData`. -/
structure Report where
  warehouse : JsVal
  productsBySupplier : List (String × SupplierGroup)
  totalProducts : Nat
  totalStockValue : JsNumber
  lowStockProducts : Nat
  generatedAt : String

/-- The function `generateReport(warehouseId)` over the component state
`warehouses`, `products`, `inventory`, `suppliers`.  The result is the value
handed to `setReportData`: `none` for `null`.  The clock reading
`new Date().toLocaleString()` is the parameter `generatedAt`. -/
def generateReport (generatedAt : String)
    (warehouses products inventory suppliers warehouseId : JsVal) :
    Except JsError (Option Report) :=
  match asArray warehouses with
  | .error e => .error e
  | .ok ws =>
    match arrayFind (hasId warehouseId) ws with
    | .error e => .error e
    | .ok warehouse =>
      if !warehouse.truthy then .ok none
      else
        match enrichedProducts products inventory suppliers warehouseId with
        | .error e => .error e
        | .ok enriched =>
          match productsBySupplier enriched with
          | .error e => .error e
          | .ok groups =>
            .ok (some
              { warehouse := warehouse
                productsBySupplier := groups
                totalProducts := enriched.length
                totalStockValue := totalStockValue enriched
                lowStockProducts := (lowStockProducts enriched).length
                generatedAt := generatedAt })

/-- The products of the spec's worked example. -/
def exampleProducts : JsVal :=
  JsVal.arr [JsVal.obj [("id", JsVal.num 1), ("warehouse", JsVal.obj [("id", JsVal.num 5)]),
    ("minStockLevel", JsVal.num 10)]]

/-- The inventory of the spec's worked example. -/
def exampleInventory : JsVal :=
  JsVal.arr [JsVal.obj [("id", JsVal.num 1), ("product", JsVal.obj [("id", JsVal.num 1)]),
    ("warehouse", JsVal.obj [("id", JsVal.num 5)]), ("stockLevel", JsVal.num 3)]]

/-- The warehouses of the spec's worked example. -/
def exampleWarehouses : JsVal :=
  JsVal.arr [JsVal.obj [("id", JsVal.num 5), ("name", JsVal.str "W1")]]

/-- The report of the spec's worked example, for the selected id 5 and no
supplier at all. -/
def exampleReport (generatedAt : String) : Report :=
  { warehouse := JsVal.obj [("id", JsVal.num 5), ("name", JsVal.str "W1")]
    productsBySupplier :=
      [("no-supplier",
        ⟨JsVal.obj [("name", JsVal.str "No Supplier")],
         [JsVal.obj [("id", JsVal.num 1), ("warehouse", JsVal.obj [("id", JsVal.num 5)]),
            ("minStockLevel", JsVal.num 10), ("currentStock", JsVal.num 3),
            ("supplier", JsVal.null)]]⟩)]
    totalProducts := 1
    totalStockValue := JsNumber.fin 0 0
    lowStockProducts := 1
    generatedAt := generatedAt }

/-- A second sample: two warehouses. -/
def sampleWarehouses : JsVal :=
  JsVal.arr
    [JsVal.obj [("id", JsVal.num 5), ("name", JsVal.str "W1"), ("location", JsVal.str "North")],
     JsVal.obj [("id", JsVal.num 6), ("name", JsVal.str "W2")]]

/-- Six products: four in warehouse 5, one in warehouse 6, one without a
warehouse; three refer to supplier 7, one to the unknown supplier 9. -/
def sampleProducts : JsVal :=
  JsVal.arr
    [JsVal.obj [("id", JsVal.num 1), ("name", JsVal.str "Bolt"),
       ("warehouse", JsVal.obj [("id", JsVal.num 5)]),
       ("supplier", JsVal.obj [("id", JsVal.num 7)]), ("minStockLevel", JsVal.num 10)],
     JsVal.obj [("id", JsVal.num 2), ("name", JsVal.str "Nut"),
       ("warehouse", JsVal.obj [("id", JsVal.num 6)]),
       ("supplier", JsVal.obj [("id", JsVal.num 7)])],
     JsVal.obj [("id", JsVal.num 3), ("name", JsVal.str "Gear")],
     JsVal.obj [("id", JsVal.num 4), ("name", JsVal.str "Cog"),
       ("warehouse", JsVal.obj [("id", JsVal.num 5)])],
     JsVal.obj [("id", JsVal.num 5), ("name", JsVal.str "Pin"),
       ("warehouse", JsVal.obj [("id", JsVal.num 5)]),
       ("supplier", JsVal.obj [("id", JsVal.num 7)])],
     JsVal.obj [("id", JsVal.num 6), ("name", JsVal.str "Rod"),
       ("warehouse", JsVal.obj [("id", JsVal.num 5)]),
       ("supplier", JsVal.obj [("id", JsVal.num 9)])]]

/-- Four inventory records: product 1 has one record in warehouse 6 and then
two in warehouse 5, product 5 has one in warehouse 5. -/
def sampleInventory : JsVal :=
  JsVal.arr
    [JsVal.obj [("id", JsVal.num 1), ("product", JsVal.obj [("id", JsVal.num 1)]),
       ("warehouse", JsVal.obj [("id", JsVal.num 6)]), ("stockLevel", JsVal.num 99)],
     JsVal.obj [("id", JsVal.num 2), ("product", JsVal.obj [("id", JsVal.num 1)]),
       ("warehouse", JsVal.obj [("id", JsVal.num 5)]), ("stockLevel", JsVal.num 3)],
     JsVal.obj [("id", JsVal.num 3), ("product", JsVal.obj [("id", JsVal.num 1)]),
       ("warehouse", JsVal.obj [("id", JsVal.num 5)]), ("stockLevel", JsVal.num 4)],
     JsVal.obj [("id", JsVal.num 4), ("product", JsVal.obj [("id", JsVal.num 5)]),
       ("warehouse", JsVal.obj [("id", JsVal.num 5)]), ("stockLevel", JsVal.num 8)]]

/-- Three suppliers, two of them with the id 7. -/
def sampleSupplierList : List JsVal :=
  [JsVal.obj [("id", JsVal.num 8), ("name", JsVal.str "Other")],
   JsVal.obj [("id", JsVal.num 7), ("name", JsVal.str "Acme")],
   JsVal.obj [("id", JsVal.num 7), ("name", JsVal.str "Shadow")]]

/-- The supplier collection of the sample. -/
def sampleSuppliers : JsVal :=
  JsVal.arr sampleSupplierList

/-- The enriched product built from the sample product 1. -/
def sampleBolt : JsVal :=
  JsVal.obj [("id", JsVal.num 1), ("name", JsVal.str "Bolt"),
    ("warehouse", JsVal.obj [("id", JsVal.num 5)]),
    ("supplier", JsVal.obj [("id", JsVal.num 7), ("name", JsVal.str "Acme")]),
    ("minStockLevel", JsVal.num 10), ("currentStock", JsVal.num 3)]

/-- The enriched product built from the sample product 4. -/
def sampleCog : JsVal :=
  JsVal.obj [("id", JsVal.num 4), ("name", JsVal.str "Cog"),
    ("warehouse", JsVal.obj [("id", JsVal.num 5)]),
    ("currentStock", JsVal.num 0), ("supplier", JsVal.null)]

/-- The enriched product built from the sample product 5. -/
def samplePin : JsVal :=
  JsVal.obj [("id", JsVal.num 5), ("name", JsVal.str "Pin"),
    ("warehouse", JsVal.obj [("id", JsVal.num 5)]),
    ("supplier", JsVal.obj [("id", JsVal.num 7), ("name", JsVal.str "Acme")]),
    ("currentStock", JsVal.num 8)]

/-- The enriched product built from the sample product 6. -/
def sampleRod : JsVal :=
  JsVal.obj [("id", JsVal.num 6), ("name", JsVal.str "Rod"),
    ("warehouse", JsVal.obj [("id", JsVal.num 5)]),
    ("supplier", JsVal.null), ("currentStock", JsVal.num 0)]

/-- The report of the sample when the string `"5"` is selected. -/
def sampleReport (generatedAt : String) : Report :=
  { warehouse :=
      JsVal.obj [("id", JsVal.num 5), ("name", JsVal.str "W1"), ("location", JsVal.str "North")]
    productsBySupplier :=
      [("7", ⟨JsVal.obj [("id", JsVal.num 7), ("name", JsVal.str "Acme")],
          [sampleBolt, samplePin]⟩),
       ("no-supplier", ⟨JsVal.obj [("name", JsVal.str "No Supplier")],
          [sampleCog, sampleRod]⟩)]
    totalProducts := 4
    totalStockValue := JsNumber.fin 0 0
    lowStockProducts := 1
    generatedAt := generatedAt }

/-! ## Vocabulary of the report claims -/

/-- A record belongs to the selected warehouse: its warehouse reference exists
and the id of that reference is loosely equal to the selected id. -/
def belongsTo (warehouseId record : JsVal) : Bool :=
  (record.get "warehouse").truthy && ((record.get "warehouse").get "id").looseEq warehouseId

/-- The first inventory record, in collection order, that belongs to the
selected warehouse and whose product reference has the id of `product`. -/
def firstStockRecord (warehouseId : JsVal) (items : List JsVal) (product : JsVal) :
    Option JsVal :=
  items.find? (fun item => belongsTo warehouseId item && stockOf product item)

/-- The first supplier of the collection whose id is the id of the supplier
reference of `product`. -/
def firstSupplier (sups : List JsVal) (product : JsVal) : Option JsVal :=
  sups.find? (fun s => (s.get "id").strictEq ((product.get "supplier").get "id"))

/-- The supplier ids of a collection are unambiguous as group keys: two ids
that give the same property key are strictly equal, and no id gives the
sentinel key. -/
def UnambiguousIds (sups : List JsVal) : Prop :=
  (∀ s ∈ sups, ∀ s' ∈ sups, (s.get "id").toStr = (s'.get "id").toStr →
    (s.get "id").strictEq (s'.get "id") = true) ∧
  ∀ s ∈ sups, (s.get "id").toStr ≠ "no-supplier"

/-- The groups filed so far are the classes of the products seen so far under
`supplierKey`: every key occurs once, every product seen has its key among the
groups, and every group lists, in order, the products seen under its key and
carries the label of the first of them. -/
def GroupsOf (groups : List (String × SupplierGroup)) (seen : List JsVal) : Prop :=
  (groups.map Prod.fst).Nodup ∧
  (∀ e ∈ seen, supplierKey e ∈ groups.map Prod.fst) ∧
  ∀ kg ∈ groups,
    kg.2.products = seen.filter (fun e => supplierKey e == kg.1) ∧
    ∃ e₀ rest, kg.2.products = e₀ :: rest ∧ kg.2.supplier = supplierLabel e₀

/-! ## exportToCSV (src/src/WarehouseReports.js) -/

/-- The values `Object.values(obj)` of an object: the own properties in key
enumeration order. -/
def objectValues {α : Type} (props : List (String × α)) : List α :=
  (ownKeys props).filterMap (fun k => props.lookup k)

/-- The text `x.toFixed(2)` for a non-negative number of hundredths `n`. -/
def hundredthsText (n : Nat) : String :=
  toString (n / 100) ++ "." ++ (if n % 100 < 10 then "0" else "") ++ toString (n % 100)

/-- The integer `n` for which `n / 100` is closest to `a * 10 ^ e`, the larger
one when two are equally close. -/
def roundedHundredths (a : Nat) (e : Int) : Nat :=
  if 0 ≤ e + 2 then a * 10 ^ (e + 2).toNat
  else (2 * a + 10 ^ (-(e + 2)).toNat) / (2 * 10 ^ (-(e + 2)).toNat)

/-- Whether `a * 10 ^ e` is at least `10 ^ 21`. -/
def atLeastTenPow21 (a : Nat) (e : Int) : Bool :=
  if 0 ≤ e then decide (10 ^ 21 ≤ a * 10 ^ e.toNat)
  else decide (10 ^ 21 * 10 ^ (-e).toNat ≤ a)

/-- The exponent form that ToString gives a number `a * 10 ^ e` of at least
`10 ^ 21`: the significant digits, a point after the first one, and the decimal
exponent. -/
def exponentText (a : Nat) (e : Int) : String :=
  let ds := (toString a).data
  let sig := (ds.reverse.dropWhile (fun c => c == '0')).reverse
  let n : Int := Int.ofNat ds.length + e
  match sig with
  | [] => "0"
  | [d] => String.mk [d] ++ "e+" ++ toString (n - 1)
  | d :: rest => String.mk (d :: '.' :: rest) ++ "e+" ++ toString (n - 1)

namespace JsNumber

/-- The method call `x.toFixed(2)`: a number that is not finite gives its
name; otherwise the sign, and either the exponent form (from `10 ^ 21` on) or
the value rounded to hundredths, written with two digits after the point.  The
number is a double (the operators and conversions that produce it round with
`toDouble`), and it is the exact value of that double that is rounded to
hundredths. -/
def toFixed2 : JsNumber → String
  | nan => "NaN"
  | posInf => "Infinity"
  | negInf => "-Infinity"
  | fin m e =>
    (if m < 0 then "-" else "") ++
      (if atLeastTenPow21 m.natAbs e then exponentText m.natAbs e
       else hundredthsText (roundedHundredths m.natAbs e))

end JsNumber

/-- The `status` of a product row:
`product.minStockLevel > 0 && product.currentStock <= product.minStockLevel ? "LOW STOCK" : "OK"`. -/
def csvStatus (product : JsVal) : String :=
  if (product.get "minStockLevel").gt (JsVal.num 0) &&
      (product.get "currentStock").le (product.get "minStockLevel")
  then "LOW STOCK" else "OK"

/-- The text appended for one product: the template literal
`"${name}",${sku},"${description || ''}",${currentStock},${minStockLevel || 0},${status}\n`. -/
def productRow (product : JsVal) : String :=
  "\"" ++ (product.get "name").toStr ++ "\"," ++ (product.get "sku").toStr ++ ",\"" ++
    (if (product.get "description").truthy then product.get "description"
      else JsVal.str "").toStr ++ "\"," ++
    (product.get "currentStock").toStr ++ "," ++
    (if (product.get "minStockLevel").truthy then product.get "minStockLevel"
      else JsVal.num 0).toStr ++ "," ++
    csvStatus product ++ "\n"

/-- The fixed line of column titles that opens the product rows of a block. -/
def columnTitles : String :=
  "Product Name,SKU,Description,Current Stock,Min Stock,Status\n"

/-- The callback of `Object.values(reportData.productsBySupplier).forEach`:
the supplier lines, the column titles, and one row per product, appended to
`csvContent`. -/
def appendSupplierBlock (csvContent : String) (group : SupplierGroup) : String :=
  let c₁ := csvContent ++ ("\nSupplier: " ++ (group.supplier.get "name").toStr ++ "\n")
  let c₂ :=
    if (group.supplier.get "contactPerson").truthy then
      c₁ ++ ("Contact Person: " ++ (group.supplier.get "contactPerson").toStr ++ "\n")
    else c₁
  let c₃ :=
    if (group.supplier.get "email").truthy then
      c₂ ++ ("Email: " ++ (group.supplier.get "email").toStr ++ "\n")
    else c₂
  let c₄ :=
    if (group.supplier.get "phone").truthy then
      c₃ ++ ("Phone: " ++ (group.supplier.get "phone").toStr ++ "\n")
    else c₃
  group.products.foldl (fun c product => c ++ productRow product) (c₄ ++ columnTitles)

/-- The text `csvContent` before the supplier blocks: the data-URI prefix, the
header and the summary. -/
def csvPreamble (reportData : Report) : String :=
  "data:text/csv;charset=utf-8," ++
    ("Warehouse Report: " ++ (reportData.warehouse.get "name").toStr ++ " (" ++
      (reportData.warehouse.get "location").toStr ++ ")\n") ++
    ("Generated on: " ++ reportData.generatedAt ++ "\n\n") ++
    "SUMMARY\n" ++
    ("Total Products," ++ toString reportData.totalProducts ++ "\n") ++
    ("Low Stock Items," ++ toString reportData.lowStockProducts ++ "\n") ++
    ("Estimated Total Value," ++ reportData.totalStockValue.toFixed2 ++ "\n\n") ++
    "PRODUCTS BY SUPPLIER\n"

/-- The local `csvContent` of `exportToCSV` once every block is appended. -/
def csvContent (reportData : Report) : String :=
  (objectValues reportData.productsBySupplier).foldl appendSupplierBlock (csvPreamble reportData)

/-- The function `exportToCSV()`: nothing when there is no report, otherwise
the text `csvContent` that is handed to the download link. -/
def exportToCSV (reportData : Option Report) : Option String :=
  reportData.map csvContent

/-! ## The component state around generateReport -/

/-- The state of the `WarehouseReports` component that `generateReport` reads
and writes. -/
structure ReportsState where
  warehouses : JsVal
  products : JsVal
  inventory : JsVal
  suppliers : JsVal
  reportData : Option Report
  loading : Bool

/-- The state after a call `generateReport(warehouseId)` that does not raise:
`setReportData` receives the report (or `null`) and `setLoading(false)` ends the
call; no other setter is called. -/
def runGenerateReport (generatedAt : String) (s : ReportsState) (warehouseId : JsVal) :
    Except JsError ReportsState :=
  match generateReport generatedAt s.warehouses s.products s.inventory s.suppliers
      warehouseId with
  | .error e => .error e
  | .ok result => .ok { s with reportData := result, loading := false }

/-! ## Vocabulary of the export claims -/

/-- Keys in the order of their first occurrence. -/
def firstEncounters (keys : List String) : List String :=
  keys.foldl (fun seen k => if k ∈ seen then seen else seen ++ [k]) []

/-- The number of line breaks of a text. -/
def lineBreaks (text : String) : Nat :=
  text.data.count '\n'

/-- The number of pieces of `text.split("\n")`. -/
def rowCount (text : String) : Nat :=
  lineBreaks text + 1

/-- The commas of a row that are outside double quotes; the flag tells whether
a quote is open. -/
def unquotedCommas : Bool → List Char → Nat
  | _, [] => 0
  | quoted, c :: cs =>
    if c = '"' then unquotedCommas (!quoted) cs
    else if c = ',' ∧ quoted = false then unquotedCommas quoted cs + 1
    else unquotedCommas quoted cs

/-- The number of columns obtained by splitting a row on its unquoted commas. -/
def csvColumns (row : String) : Nat :=
  unquotedCommas false row.data + 1

/-- The number of optional contact lines of a supplier block. -/
def contactLines (supplier : JsVal) : Nat :=
  (if (supplier.get "contactPerson").truthy then 1 else 0) +
  (if (supplier.get "email").truthy then 1 else 0) +
  (if (supplier.get "phone").truthy then 1 else 0)

/-- The text of one supplier block, put together from its parts: an empty
line, the supplier line, the contact lines that are present, the column titles
and the product rows. -/
def supplierBlock (group : SupplierGroup) : String :=
  ("\nSupplier: " ++ (group.supplier.get "name").toStr ++ "\n") ++
    (if (group.supplier.get "contactPerson").truthy then
      "Contact Person: " ++ (group.supplier.get "contactPerson").toStr ++ "\n" else "") ++
    (if (group.supplier.get "email").truthy then
      "Email: " ++ (group.supplier.get "email").toStr ++ "\n" else "") ++
    (if (group.supplier.get "phone").truthy then
      "Phone: " ++ (group.supplier.get "phone").toStr ++ "\n" else "") ++
    columnTitles ++
    (group.products.map productRow).foldr (fun row text => row ++ text) ""

/-- No text written for a product contains a line break. -/
def ProductOnOneLine (product : JsVal) : Prop :=
  lineBreaks (product.get "name").toStr = 0 ∧
  lineBreaks (product.get "sku").toStr = 0 ∧
  lineBreaks (product.get "description").toStr = 0 ∧
  lineBreaks (product.get "currentStock").toStr = 0 ∧
  lineBreaks (product.get "minStockLevel").toStr = 0

/-- No text written for a supplier contains a line break. -/
def SupplierOnOneLine (supplier : JsVal) : Prop :=
  lineBreaks (supplier.get "name").toStr = 0 ∧
  lineBreaks (supplier.get "contactPerson").toStr = 0 ∧
  lineBreaks (supplier.get "email").toStr = 0 ∧
  lineBreaks (supplier.get "phone").toStr = 0

/-- No value written into the CSV text of the report contains a line break. -/
def ReportOnSingleLines (r : Report) : Prop :=
  lineBreaks (r.warehouse.get "name").toStr = 0 ∧
  lineBreaks (r.warehouse.get "location").toStr = 0 ∧
  lineBreaks r.generatedAt = 0 ∧
  ∀ kg ∈ r.productsBySupplier,
    SupplierOnOneLine kg.2.supplier ∧ ∀ p ∈ kg.2.products, ProductOnOneLine p

/-- The value of the stock of one product: its price times its current stock
as numbers, an absent (falsy) price or stock counting as 0. -/
def lineValue (product : JsVal) : JsNumber :=
  (if (product.get "price").truthy then product.get "price" else JsVal.num 0).toNumber.mul
    (if (product.get "currentStock").truthy then product.get "currentStock"
      else JsVal.num 0).toNumber

/-- A price or a quantity as an integer amount: the number itself, and 0 for
an absent (or otherwise non-numeric) value. -/
def amount : JsVal → Int
  | JsVal.num n => n
  | _ => 0

/-- A value of the data model that is an integer or is absent. -/
def JsVal.isCount : JsVal → Bool
  | JsVal.num _ => true
  | JsVal.undefined => true
  | _ => false

/-! ## A catalogue sample -/

/-- One warehouse. -/
def catalogWarehouses : JsVal :=
  JsVal.arr [JsVal.obj [("id", JsVal.num 5), ("name", JsVal.str "Main"),
    ("location", JsVal.str "Pune")]]

/-- Four products of warehouse 5: the first without supplier, then suppliers
9, 7 and 9 again. -/
def catalogProducts : JsVal :=
  JsVal.arr
    [JsVal.obj [("id", JsVal.num 3), ("name", JsVal.str "Gear"), ("sku", JsVal.str "G-1"),
       ("warehouse", JsVal.obj [("id", JsVal.num 5)])],
     JsVal.obj [("id", JsVal.num 1), ("name", JsVal.str "Bolt"), ("sku", JsVal.str "B-1"),
       ("description", JsVal.str "Steel, M8"), ("minStockLevel", JsVal.num 10),
       ("price", JsVal.num 2), ("warehouse", JsVal.obj [("id", JsVal.num 5)]),
       ("supplier", JsVal.obj [("id", JsVal.num 9)])],
     JsVal.obj [("id", JsVal.num 2), ("name", JsVal.str "Nut"), ("sku", JsVal.str "N-1"),
       ("minStockLevel", JsVal.num 0), ("price", JsVal.num 3),
       ("warehouse", JsVal.obj [("id", JsVal.num 5)]),
       ("supplier", JsVal.obj [("id", JsVal.num 7)])],
     JsVal.obj [("id", JsVal.num 4), ("name", JsVal.str "Cog"), ("sku", JsVal.str "C-1"),
       ("minStockLevel", JsVal.num 5), ("price", JsVal.num 4),
       ("warehouse", JsVal.obj [("id", JsVal.num 5)]),
       ("supplier", JsVal.obj [("id", JsVal.num 9)])]]

/-- Stock of 3, 20 and 9 for the products 1, 2 and 4. -/
def catalogInventory : JsVal :=
  JsVal.arr
    [JsVal.obj [("id", JsVal.num 1), ("product", JsVal.obj [("id", JsVal.num 1)]),
       ("warehouse", JsVal.obj [("id", JsVal.num 5)]), ("stockLevel", JsVal.num 3)],
     JsVal.obj [("id", JsVal.num 2), ("product", JsVal.obj [("id", JsVal.num 2)]),
       ("warehouse", JsVal.obj [("id", JsVal.num 5)]), ("stockLevel", JsVal.num 20)],
     JsVal.obj [("id", JsVal.num 3), ("product", JsVal.obj [("id", JsVal.num 4)]),
       ("warehouse", JsVal.obj [("id", JsVal.num 5)]), ("stockLevel", JsVal.num 9)]]

/-- The supplier 7. -/
def catalogAcme : JsVal :=
  JsVal.obj [("id", JsVal.num 7), ("name", JsVal.str "Acme"), ("email", JsVal.str "a@x.io")]

/-- The supplier 9. -/
def catalogZenith : JsVal :=
  JsVal.obj [("id", JsVal.num 9), ("name", JsVal.str "Zenith"),
    ("contactPerson", JsVal.str "Zed"), ("email", JsVal.str "z@x.io"),
    ("phone", JsVal.str "555")]

/-- The suppliers 7 and 9. -/
def catalogSuppliers : JsVal :=
  JsVal.arr [catalogAcme, catalogZenith]

/-- The enriched product Gear. -/
def catalogGear : JsVal :=
  JsVal.obj [("id", JsVal.num 3), ("name", JsVal.str "Gear"), ("sku", JsVal.str "G-1"),
    ("warehouse", JsVal.obj [("id", JsVal.num 5)]), ("currentStock", JsVal.num 0),
    ("supplier", JsVal.null)]

/-- The enriched product Bolt. -/
def catalogBolt : JsVal :=
  JsVal.obj [("id", JsVal.num 1), ("name", JsVal.str "Bolt"), ("sku", JsVal.str "B-1"),
    ("description", JsVal.str "Steel, M8"), ("minStockLevel", JsVal.num 10),
    ("price", JsVal.num 2), ("warehouse", JsVal.obj [("id", JsVal.num 5)]),
    ("supplier", catalogZenith), ("currentStock", JsVal.num 3)]

/-- The enriched product Nut. -/
def catalogNut : JsVal :=
  JsVal.obj [("id", JsVal.num 2), ("name", JsVal.str "Nut"), ("sku", JsVal.str "N-1"),
    ("minStockLevel", JsVal.num 0), ("price", JsVal.num 3),
    ("warehouse", JsVal.obj [("id", JsVal.num 5)]),
    ("supplier", catalogAcme), ("currentStock", JsVal.num 20)]

/-- The enriched product Cog. -/
def catalogCog : JsVal :=
  JsVal.obj [("id", JsVal.num 4), ("name", JsVal.str "Cog"), ("sku", JsVal.str "C-1"),
    ("minStockLevel", JsVal.num 5), ("price", JsVal.num 4),
    ("warehouse", JsVal.obj [("id", JsVal.num 5)]),
    ("supplier", catalogZenith), ("currentStock", JsVal.num 9)]

/-- The enriched products of the catalogue, in encounter order. -/
def catalogEnriched : List JsVal :=
  [catalogGear, catalogBolt, catalogNut, catalogCog]

/-- The report of the catalogue for the selection `"5"`; the groups are listed
in creation order. -/
def catalogReport (generatedAt : String) : Report :=
  { warehouse := JsVal.obj [("id", JsVal.num 5), ("name", JsVal.str "Main"),
      ("location", JsVal.str "Pune")]
    productsBySupplier :=
      [("no-supplier", ⟨JsVal.obj [("name", JsVal.str "No Supplier")], [catalogGear]⟩),
       ("9", ⟨catalogZenith, [catalogBolt, catalogCog]⟩),
       ("7", ⟨catalogAcme, [catalogNut]⟩)]
    totalProducts := 4
    totalStockValue := JsNumber.fin 102 0
    lowStockProducts := 1
    generatedAt := generatedAt }

/-- A product whose SKU contains a comma. -/
def commaSkuProducts : JsVal :=
  JsVal.arr [JsVal.obj [("id", JsVal.num 1), ("name", JsVal.str "Bolt"),
    ("sku", JsVal.str "B,1"), ("description", JsVal.str "Steel, M8"),
    ("minStockLevel", JsVal.num 10), ("warehouse", JsVal.obj [("id", JsVal.num 5)])]]

/-- The enriched product of `commaSkuProducts`, with the stock of the catalogue
inventory. -/
def commaSkuBolt : JsVal :=
  JsVal.obj [("id", JsVal.num 1), ("name", JsVal.str "Bolt"),
    ("sku", JsVal.str "B,1"), ("description", JsVal.str "Steel, M8"),
    ("minStockLevel", JsVal.num 10), ("warehouse", JsVal.obj [("id", JsVal.num 5)]),
    ("currentStock", JsVal.num 3), ("supplier", JsVal.null)]

/-! ## Vocabulary of the summary and row claims -/

/-- Whether a text is an optional minus sign, one or more digits, a point and
exactly two digits. -/
def twoDecimalPlaces (text : String) : Bool :=
  match text.data.reverse with
  | d₂ :: d₁ :: '.' :: whole =>
    d₂.isDigit && d₁.isDigit &&
      (match whole.reverse with
       | '-' :: ds => !ds.isEmpty && ds.all Char.isDigit
       | ds => !ds.isEmpty && ds.all Char.isDigit)
  | _ => false

/-- A finite number of magnitude below `10 ^ 21`, the range in which `toFixed`
writes plain decimal digits. -/
def JsNumber.belowTenPow21 : JsNumber → Bool
  | JsNumber.fin m e => !atLeastTenPow21 m.natAbs e
  | _ => false

/-- One optional line of a supplier block: the label and the value when the
value is truthy, nothing otherwise. -/
def contactLine (label : String) (v : JsVal) : String :=
  if v.truthy then label ++ v.toStr ++ "\n" else ""

/-- The products of a report in the order in which `exportToCSV` appends their
rows: group after group in the order of `Object.values`, each group in its own
order. -/
def exportedProducts (r : Report) : List JsVal :=
  (objectValues r.productsBySupplier).flatMap (fun g => g.products)

/-- The three key/value lines of the summary, as the claim lists them: total
products, low-stock count, total value. -/
def summaryLines (r : Report) : List String :=
  ["Total Products," ++ toString r.totalProducts,
   "Low Stock Items," ++ toString r.lowStockProducts,
   "Estimated Total Value," ++ r.totalStockValue.toFixed2]

/-- The header of the CSV text: the data-URI prefix, the warehouse line, the
line of the generation time and an empty line. -/
def csvHeader (r : Report) : String :=
  "data:text/csv;charset=utf-8," ++
    ("Warehouse Report: " ++ (r.warehouse.get "name").toStr ++ " (" ++
      (r.warehouse.get "location").toStr ++ ")\n") ++
    ("Generated on: " ++ r.generatedAt ++ "\n\n")

/-! ## Stock quantity of an inventory record (src/src/App.js) -/

namespace JsVal

/-- The operator `x < y` as a condition: the undefined result counts as
false. -/
def ltOp (x y : JsVal) : Bool :=
  lessThan x y == some true

/-- The operator `x >= y`. -/
def ge (x y : JsVal) : Bool :=
  lessThan x y == some false

end JsVal

/-- The expression `item?.stockLevel || item?.stock_level || item?.quantity || 0`
of the total on the dashboard (line 508): each read of a missing item gives
`undefined`. -/
def stockQuantity (item : JsVal) : JsVal :=
  if (item.get "stockLevel").truthy then item.get "stockLevel"
  else if (item.get "stock_level").truthy then item.get "stock_level"
  else if (item.get "quantity").truthy then item.get "quantity"
  else JsVal.num 0

/-- The expression `item.stockLevel || item.stock_level || item.quantity || 0`
of the dashboard filters (lines 480, 481) and of `InventoryView` (sort value,
filter, table cell): the first read raises on a missing item. -/
def stockLevel (item : JsVal) : Except JsError JsVal :=
  match item.getProp "stockLevel" with
  | .error e => .error e
  | .ok a =>
    if a.truthy then .ok a
    else
      match item.getProp "stock_level" with
      | .error e => .error e
      | .ok b =>
        if b.truthy then .ok b
        else
          match item.getProp "quantity" with
          | .error e => .error e
          | .ok c => if c.truthy then .ok c else .ok (JsVal.num 0)

/-- The filter callback `item => item && stockLevel < limit` of the dashboard,
for the limits 10 (`lowStockItems`) and 5 (`criticalStockItems`). -/
def belowLimit (limit : Int) (item : JsVal) : Except JsError Bool :=
  if item.truthy then
    match stockLevel item with
    | .error e => .error e
    | .ok level => .ok (level.ltOp (JsVal.num limit))
  else .ok false

/-- The local `lowStockItems` of `Dashboard`. -/
def lowStockItems (inventory : List JsVal) : Except JsError (List JsVal) :=
  arrayFilter (belowLimit 10) inventory

/-- The local `criticalStockItems` of `Dashboard`. -/
def criticalStockItems (inventory : List JsVal) : Except JsError (List JsVal) :=
  arrayFilter (belowLimit 5) inventory

/-- The warehouse name shown for an inventory record:
`item.warehouse?.name || item.warehouseName || item.Warehouse?.Name ||
(item.warehouseId ? "Warehouse " + item.warehouseId : 'Unknown Warehouse')`. -/
def warehouseName (item : JsVal) : Except JsError JsVal :=
  match item.getProp "warehouse" with
  | .error e => .error e
  | .ok w =>
    if (w.get "name").truthy then .ok (w.get "name")
    else if (item.get "warehouseName").truthy then .ok (item.get "warehouseName")
    else if ((item.get "Warehouse").get "Name").truthy then .ok ((item.get "Warehouse").get "Name")
    else if (item.get "warehouseId").truthy then
      .ok (JsVal.str ("Warehouse " ++ (item.get "warehouseId").toStr))
    else .ok (JsVal.str "Unknown Warehouse")

/-- The helper `getSortValue(item, field)` of `InventoryView`. -/
def getSortValue (item : JsVal) (field : String) : Except JsError JsVal :=
  if field = "warehouse" then warehouseName item
  else if field = "stock" then stockLevel item
  else if field = "status" then
    match stockLevel item with
    | .error e => .error e
    | .ok level =>
      if level.ltOp (JsVal.num 5) then .ok (JsVal.num 0)
      else if level.ltOp (JsVal.num 10) then .ok (JsVal.num 1)
      else .ok (JsVal.num 2)
  else .ok (JsVal.str "")

/-- The local `matchesStockFilter` of the `filteredInventory` callback, for the
selected `stockFilter`. -/
def matchesStockFilter (stockFilter : String) (item : JsVal) : Except JsError Bool :=
  match stockLevel item with
  | .error e => .error e
  | .ok level =>
    if stockFilter = "low" then
      .ok (level.ltOp (JsVal.num 10) && level.ge (JsVal.num 5))
    else if stockFilter = "critical" then .ok (level.ltOp (JsVal.num 5))
    else if stockFilter = "ok" then .ok (level.ge (JsVal.num 10))
    else .ok true

/-- The claim's reading of the fallback list: the value of the first of
`stockLevel`, `stock_level`, `quantity` that is present on the record, and 0
when none is present. -/
def firstPresentStock : JsVal → JsVal
  | JsVal.obj props =>
    match props.lookup "stockLevel", props.lookup "stock_level", props.lookup "quantity" with
    | some v, _, _ => v
    | none, some v, _ => v
    | none, none, some v => v
    | none, none, none => JsVal.num 0
  | _ => JsVal.num 0

/-- An inventory record whose `stockLevel` is 0 and that still carries the
older `quantity` field. -/
def soldOutRecord : JsVal :=
  JsVal.obj [("id", JsVal.num 1), ("stockLevel", JsVal.num 0), ("quantity", JsVal.num 7)]

/-- An inventory record with all three names of the stock quantity. -/
def threeNamesRecord : JsVal :=
  JsVal.obj [("id", JsVal.num 2), ("quantity", JsVal.num 7), ("stock_level", JsVal.num 5),
    ("stockLevel", JsVal.num 12)]

/-- The inventory of the worked example with the stock of the record under the
older name `quantity`. -/
def legacyInventory : JsVal :=
  JsVal.arr [JsVal.obj [("id", JsVal.num 1), ("product", JsVal.obj [("id", JsVal.num 1)]),
    ("warehouse", JsVal.obj [("id", JsVal.num 5)]), ("quantity", JsVal.num 3)]]

/-- The enriched product that `generateReport` builds from `legacyInventory`. -/
def legacyEnriched : JsVal :=
  JsVal.obj [("id", JsVal.num 1), ("warehouse", JsVal.obj [("id", JsVal.num 5)]),
    ("minStockLevel", JsVal.num 10), ("currentStock", JsVal.undefined),
    ("supplier", JsVal.null)]

/-- The report built from `legacyInventory`. -/
def legacyReport (generatedAt : String) : Report :=
  { warehouse := JsVal.obj [("id", JsVal.num 5), ("name", JsVal.str "W1")]
    productsBySupplier :=
      [("no-supplier", ⟨JsVal.obj [("name", JsVal.str "No Supplier")], [legacyEnriched]⟩)]
    totalProducts := 1
    totalStockValue := JsNumber.fin 0 0
    lowStockProducts := 0
    generatedAt := generatedAt }

/-! ## The unwrapping written inline in the fetch functions -/

/-- The expression
`Array.isArray(response.data) ? response.data :
 Array.isArray(response.data.content) ? response.data.content : []`
used four times in `fetchData` (src/src/WarehouseReports.js, lines 23-54) and
in `fetchStockHistory`, `fetchSuppliers` and `fetchUsers` (src/src/App.js).
The read `response.data.content` is not guarded. -/
def inlineUnwrap (response : JsVal) : Except JsError (List JsVal) :=
  match response.getProp "data" with
  | .error e => .error e
  | .ok data =>
    if data.isArray then .ok data.elems
    else
      match data.getProp "content" with
      | .error e => .error e
      | .ok content => if content.isArray then .ok content.elems else .ok []

/-- The statements of `fetchWarehouses` (src/src/App.js, lines 133-138): the
same two shapes, the second read guarded by `response.data &&`. -/
def guardedUnwrap (response : JsVal) : Except JsError (List JsVal) :=
  match response.getProp "data" with
  | .error e => .error e
  | .ok data =>
    if data.isArray then .ok data.elems
    else if data.truthy && (data.get "content").isArray then .ok (data.get "content").elems
    else .ok []

/-- A response whose body wraps the list under `data`. -/
def dataEnvelope : JsVal :=
  responseWith (JsVal.obj [("data", JsVal.arr [JsVal.obj [("id", JsVal.num 1)]])])

/-- A response whose body wraps the list under `products`. -/
def productsEnvelope : JsVal :=
  responseWith (JsVal.obj [("products", JsVal.arr [JsVal.obj [("id", JsVal.num 1)]])])

/-- A response whose body wraps the list under `content`. -/
def contentEnvelope : JsVal :=
  responseWith (JsVal.obj [("content", JsVal.arr [JsVal.obj [("id", JsVal.num 1)]]),
    ("totalElements", JsVal.num 1)])

/-! ## handleAdjustStock (src/src/App.js) -/

/-- Whether a character is a digit of the given radix. -/
def isDigitOf (base : Nat) (c : Char) : Bool :=
  match digitVal c with
  | some d => decide (d < base)
  | none => false

/-- The call `parseInt(v)` without a radix: the argument is converted to a
string, leading white space and one sign are dropped, a prefix `0x` selects
radix 16 (otherwise 10), and the longest run of digits of the radix that
follows is the value, rounded to the nearest double; without any digit the
result is `NaN`. -/
def parseInt (v : JsVal) : JsNumber :=
  let s := v.toStr.data.dropWhile isStrWhiteSpace
  let negative := match s with
    | '-' :: _ => true
    | _ => false
  let unsigned := match s with
    | '-' :: r => r
    | '+' :: r => r
    | _ => s
  let hex := match unsigned with
    | '0' :: 'x' :: _ => true
    | '0' :: 'X' :: _ => true
    | _ => false
  let base := if hex then 16 else 10
  let body := if hex then unsigned.drop 2 else unsigned
  match natOfDigits base (body.takeWhile (isDigitOf base)) with
  | none => JsNumber.nan
  | some n => (JsNumber.fin (if negative then -(Int.ofNat n) else Int.ofNat n) 0).toDouble

/-- A property value of the payload: a value copied from the form state by the
spread, or a number made by `parseInt`. -/
inductive PayloadValue where
  | copied (v : JsVal)
  | parsed (n : JsNumber)

/-- Defining a property of the payload literal: an existing property keeps its
place and takes the new value, a new one goes last. -/
def definePayloadProp (props : List (String × PayloadValue)) (name : String)
    (v : PayloadValue) : List (String × PayloadValue) :=
  if (props.lookup name).isSome then
    props.map (fun p => if p.1 = name then (p.1, v) else p)
  else props ++ [(name, v)]

/-- The local `payload` of `handleAdjustStock`:
`{...adjustmentData, product_id: parseInt(adjustmentData.product_id),
warehouse_id: parseInt(adjustmentData.warehouse_id),
adjustment_quantity: parseInt(adjustmentData.adjustment_quantity)}`. -/
def payload (adjustmentData : JsVal) : List (String × PayloadValue) :=
  definePayloadProp
    (definePayloadProp
      (definePayloadProp
        ((spreadProps adjustmentData).map (fun p => (p.1, PayloadValue.copied p.2)))
        "product_id" (PayloadValue.parsed (parseInt (adjustmentData.get "product_id"))))
      "warehouse_id" (PayloadValue.parsed (parseInt (adjustmentData.get "warehouse_id"))))
    "adjustment_quantity"
    (PayloadValue.parsed (parseInt (adjustmentData.get "adjustment_quantity")))

/-- The initial state `adjustmentData` of the form (lines 66-71), to which a
submitted form is reset. -/
def initialAdjustmentData : JsVal :=
  JsVal.obj [("product_id", JsVal.str ""), ("warehouse_id", JsVal.str ""),
    ("adjustment_quantity", JsVal.str ""), ("adjustment_type", JsVal.str "STOCK_IN")]

/-- An `onChange` handler of the form:
`setAdjustmentData({...adjustmentData, [name]: e.target.value})`. -/
def changeField (adjustmentData : JsVal) (name value : String) : JsVal :=
  JsVal.obj (setProp (spreadProps adjustmentData) name (JsVal.str value))

/-- The states of the form that its controls can produce: the form has a
warehouse selector, a quantity input and the two radio buttons of the
adjustment type, and no control that sets `product_id`. -/
inductive FormState : JsVal → Prop where
  | initial : FormState initialAdjustmentData
  | warehouse (s : JsVal) (value : String) :
      FormState s → FormState (changeField s "warehouse_id" value)
  | quantity (s : JsVal) (value : String) :
      FormState s → FormState (changeField s "adjustment_quantity" value)
  | adjustmentType (s : JsVal) (value : String) :
      FormState s → FormState (changeField s "adjustment_type" value)

/-- The form filled in for warehouse 5, quantity 3 and a stock-in. -/
def filledAdjustmentData : JsVal :=
  changeField (changeField initialAdjustmentData "warehouse_id" "5") "adjustment_quantity" "3"

/-! ## Identifiers of mixed type -/

/-- One product of warehouse 5 whose supplier reference carries the id as the
string `"7"`. -/
def mixedIdProducts : JsVal :=
  JsVal.arr [JsVal.obj [("id", JsVal.num 1), ("name", JsVal.str "Bolt"),
    ("sku", JsVal.str "B-1"), ("warehouse", JsVal.obj [("id", JsVal.num 5)]),
    ("supplier", JsVal.obj [("id", JsVal.str "7")])]]

/-- The inventory record of that product in warehouse 5; its product reference
carries the id as the string `"1"`. -/
def mixedIdRecord : JsVal :=
  JsVal.obj [("id", JsVal.num 1), ("product", JsVal.obj [("id", JsVal.str "1")]),
    ("warehouse", JsVal.obj [("id", JsVal.num 5)]), ("stockLevel", JsVal.num 4)]

/-- The inventory that holds `mixedIdRecord`. -/
def mixedIdInventory : JsVal :=
  JsVal.arr [mixedIdRecord]

/-- The enriched product built from the collections above. -/
def mixedIdBolt : JsVal :=
  JsVal.obj [("id", JsVal.num 1), ("name", JsVal.str "Bolt"), ("sku", JsVal.str "B-1"),
    ("warehouse", JsVal.obj [("id", JsVal.num 5)]), ("supplier", JsVal.null),
    ("currentStock", JsVal.num 0)]

/-- The report built from the collections above for the selection `"5"`. -/
def mixedIdReport (generatedAt : String) : Report :=
  { warehouse := JsVal.obj [("id", JsVal.num 5), ("name", JsVal.str "Main"),
      ("location", JsVal.str "Pune")]
    productsBySupplier :=
      [("no-supplier", ⟨JsVal.obj [("name", JsVal.str "No Supplier")], [mixedIdBolt]⟩)]
    totalProducts := 1
    totalStockValue := JsNumber.fin 0 0
    lowStockProducts := 0
    generatedAt := generatedAt }

/-! ## UsersView: who may modify or create a user (src/src/App.js) -/

/-- The function `canModifyUser(targetUser)` of `UsersView`, for the session
user `user`:
`if (user.role === 'ADMIN' && targetUser.id !== user.id) return true;
 if (user.role === 'MANAGER' && targetUser.role === 'EMPLOYEE') return true;
 return false;`. -/
def canModifyUser (user targetUser : JsVal) : Except JsError Bool :=
  match user.getProp "role" with
  | .error e => .error e
  | .ok role =>
    let adminOfOther : Except JsError Bool :=
      if role.strictEq (JsVal.str "ADMIN") then
        match targetUser.getProp "id" with
        | .error e => .error e
        | .ok id => .ok (!(id.strictEq (user.get "id")))
      else .ok false
    match adminOfOther with
    | .error e => .error e
    | .ok true => .ok true
    | .ok false =>
      if role.strictEq (JsVal.str "MANAGER") then
        match targetUser.getProp "role" with
        | .error e => .error e
        | .ok targetRole => .ok (targetRole.strictEq (JsVal.str "EMPLOYEE"))
      else .ok false

/-- The function `canCreateRole(role)` of `UsersView`:
`if (user.role === 'ADMIN') return true;
 if (user.role === 'MANAGER' && role === 'EMPLOYEE') return true;
 return false;`. -/
def canCreateRole (user role : JsVal) : Except JsError Bool :=
  match user.getProp "role" with
  | .error e => .error e
  | .ok userRole =>
    if userRole.strictEq (JsVal.str "ADMIN") then .ok true
    else if userRole.strictEq (JsVal.str "MANAGER") && role.strictEq (JsVal.str "EMPLOYEE")
      then .ok true
    else .ok false

/-- A user record. -/
def userRecord (id : Int) (role : String) : JsVal :=
  JsVal.obj [("id", JsVal.num id), ("name", JsVal.str "U"), ("role", JsVal.str role)]

/-! ## InventoryView: pagination (src/src/App.js) -/

/-- The local `totalPages`, `Math.ceil(sortedInventory.length / itemsPerPage)`,
for a page size of at least 1: the quotient rounded up, computed on the natural
numbers. -/
def totalPages (length itemsPerPage : Nat) : Nat :=
  (length + itemsPerPage - 1) / itemsPerPage

/-- The call `xs.slice(start, stop)` with integer arguments: a negative index
counts from the end, and both ends are clamped to the list. -/
def arraySlice {α : Type} (xs : List α) (start stop : Int) : List α :=
  let len : Int := Int.ofNat xs.length
  let lo := if start < 0 then max (len + start) 0 else min start len
  let hi := if stop < 0 then max (len + stop) 0 else min stop len
  (xs.drop lo.toNat).take (hi - lo).toNat

/-- The local `startIndex`, `(currentPage - 1) * itemsPerPage`. -/
def startIndex (currentPage : Int) (itemsPerPage : Nat) : Int :=
  (currentPage - 1) * Int.ofNat itemsPerPage

/-- The local `paginatedInventory`,
`sortedInventory.slice(startIndex, startIndex + itemsPerPage)`. -/
def paginatedInventory (sortedInventory : List JsVal) (currentPage : Int)
    (itemsPerPage : Nat) : List JsVal :=
  arraySlice sortedInventory (startIndex currentPage itemsPerPage)
    (startIndex currentPage itemsPerPage + Int.ofNat itemsPerPage)

/-- The update of the Previous button, `prev => Math.max(prev - 1, 1)`. -/
def previousPage (prev : Int) : Int :=
  max (prev - 1) 1

/-- The update of the Next button, `prev => Math.min(prev + 1, totalPages)`. -/
def nextPage (pages : Nat) (prev : Int) : Int :=
  min (prev + 1) (Int.ofNat pages)

/-- Seven inventory records, numbered 1 to 7. -/
def sevenRecords : List JsVal :=
  (List.range 7).map (fun i => JsVal.obj [("id", JsVal.num (Int.ofNat i + 1))])

/-! ## Vocabulary of the value claims -/

/-- The claim's reading of the total: the sum of price times current stock in
exact integer arithmetic. -/
def exactStockValue (enriched : List JsVal) : Int :=
  (enriched.map (fun e => amount (e.get "price") * amount (e.get "currentStock"))).sum

/-- The magnitudes of the products price times current stock, added up. -/
def stockMagnitude (enriched : List JsVal) : Nat :=
  (enriched.map (fun e => (amount (e.get "price") * amount (e.get "currentStock")).natAbs)).sum

/-- One product of warehouse 5 with the price 94906267. -/
def bigPriceProducts : JsVal :=
  JsVal.arr [JsVal.obj [("id", JsVal.num 1), ("name", JsVal.str "Ingot"),
    ("sku", JsVal.str "I-1"), ("price", JsVal.num 94906267),
    ("warehouse", JsVal.obj [("id", JsVal.num 5)])]]

/-- A stock of 94906267 of that product in warehouse 5. -/
def bigPriceInventory : JsVal :=
  JsVal.arr [JsVal.obj [("id", JsVal.num 1), ("product", JsVal.obj [("id", JsVal.num 1)]),
    ("warehouse", JsVal.obj [("id", JsVal.num 5)]), ("stockLevel", JsVal.num 94906267)]]

/-- The enriched product built from `bigPriceProducts` and `bigPriceInventory`. -/
def bigPriceEnriched : JsVal :=
  JsVal.obj [("id", JsVal.num 1), ("name", JsVal.str "Ingot"), ("sku", JsVal.str "I-1"),
    ("price", JsVal.num 94906267), ("warehouse", JsVal.obj [("id", JsVal.num 5)]),
    ("currentStock", JsVal.num 94906267), ("supplier", JsVal.null)]

/-- The report built from `bigPriceProducts` and `bigPriceInventory`. -/
def bigPriceReport (generatedAt : String) : Report :=
  { warehouse := JsVal.obj [("id", JsVal.num 5), ("name", JsVal.str "W1")]
    productsBySupplier :=
      [("no-supplier", ⟨JsVal.obj [("name", JsVal.str "No Supplier")], [bigPriceEnriched]⟩)]
    totalProducts := 1
    totalStockValue := JsNumber.fin 9007199515875288 0
    lowStockProducts := 0
    generatedAt := generatedAt }

/-- One product of warehouse 5 with the price 100000000000. -/
def hugeValueProducts : JsVal :=
  JsVal.arr [JsVal.obj [("id", JsVal.num 1), ("name", JsVal.str "Ingot"),
    ("sku", JsVal.str "I-1"), ("price", JsVal.num 100000000000),
    ("warehouse", JsVal.obj [("id", JsVal.num 5)])]]

/-- A stock of 100000000000 of that product in warehouse 5. -/
def hugeValueInventory : JsVal :=
  JsVal.arr [JsVal.obj [("id", JsVal.num 1), ("product", JsVal.obj [("id", JsVal.num 1)]),
    ("warehouse", JsVal.obj [("id", JsVal.num 5)]), ("stockLevel", JsVal.num 100000000000)]]

/-- The report built from `hugeValueProducts` and `hugeValueInventory`. -/
def hugeValueReport (generatedAt : String) : Report :=
  { warehouse := JsVal.obj [("id", JsVal.num 5), ("name", JsVal.str "W1")]
    productsBySupplier :=
      [("no-supplier", ⟨JsVal.obj [("name", JsVal.str "No Supplier")],
        [JsVal.obj [("id", JsVal.num 1), ("name", JsVal.str "Ingot"), ("sku", JsVal.str "I-1"),
          ("price", JsVal.num 100000000000), ("warehouse", JsVal.obj [("id", JsVal.num 5)]),
          ("currentStock", JsVal.num 100000000000), ("supplier", JsVal.null)]]⟩)]
    totalProducts := 1
    totalStockValue := JsNumber.fin 10000000000000000000000 0
    lowStockProducts := 0
    generatedAt := generatedAt }

/-- One product of warehouse 5 whose price is the text `N/A`. -/
def unpricedProducts : JsVal :=
  JsVal.arr [JsVal.obj [("id", JsVal.num 1), ("name", JsVal.str "Ingot"),
    ("sku", JsVal.str "I-1"), ("price", JsVal.str "N/A"),
    ("warehouse", JsVal.obj [("id", JsVal.num 5)])]]

/-- The report built from `unpricedProducts` and the inventory of the worked
example. -/
def unpricedReport (generatedAt : String) : Report :=
  { warehouse := JsVal.obj [("id", JsVal.num 5), ("name", JsVal.str "W1")]
    productsBySupplier :=
      [("no-supplier", ⟨JsVal.obj [("name", JsVal.str "No Supplier")],
        [JsVal.obj [("id", JsVal.num 1), ("name", JsVal.str "Ingot"), ("sku", JsVal.str "I-1"),
          ("price", JsVal.str "N/A"), ("warehouse", JsVal.obj [("id", JsVal.num 5)]),
          ("currentStock", JsVal.num 3), ("supplier", JsVal.null)]]⟩)]
    totalProducts := 1
    totalStockValue := JsNumber.nan
    lowStockProducts := 0
    generatedAt := generatedAt }

/-- A product whose price is the text `1.005`, with a stock of 1. -/
def decimalPriceProduct : JsVal :=
  JsVal.obj [("id", JsVal.num 1), ("price", JsVal.str "1.005"), ("currentStock", JsVal.num 1)]

/-! ## Supplier ids that are ambiguous as group keys -/

/-- Two suppliers whose ids, the number 1 and the string `"1"`, give the same
property key. -/
def twinSuppliers : JsVal :=
  JsVal.arr [JsVal.obj [("id", JsVal.num 1), ("name", JsVal.str "A")],
    JsVal.obj [("id", JsVal.str "1"), ("name", JsVal.str "B")]]

/-- Two products of warehouse 5, the first supplied by the supplier 1, the
second by the supplier `"1"`. -/
def twinProducts : JsVal :=
  JsVal.arr [JsVal.obj [("id", JsVal.num 1), ("name", JsVal.str "P1"),
      ("warehouse", JsVal.obj [("id", JsVal.num 5)]),
      ("supplier", JsVal.obj [("id", JsVal.num 1)])],
    JsVal.obj [("id", JsVal.num 2), ("name", JsVal.str "P2"),
      ("warehouse", JsVal.obj [("id", JsVal.num 5)]),
      ("supplier", JsVal.obj [("id", JsVal.str "1")])]]

/-- The enriched second product of `twinProducts`: its resolved supplier is
B. -/
def twinSecond : JsVal :=
  JsVal.obj [("id", JsVal.num 2), ("name", JsVal.str "P2"),
    ("warehouse", JsVal.obj [("id", JsVal.num 5)]),
    ("supplier", JsVal.obj [("id", JsVal.str "1"), ("name", JsVal.str "B")]),
    ("currentStock", JsVal.num 0)]

/-- The groups built from `twinProducts` and `twinSuppliers`: one group, under
the key `"1"`, labelled A. -/
def twinGroups : List (String × SupplierGroup) :=
  [("1", ⟨JsVal.obj [("id", JsVal.num 1), ("name", JsVal.str "A")],
    [JsVal.obj [("id", JsVal.num 1), ("name", JsVal.str "P1"),
      ("warehouse", JsVal.obj [("id", JsVal.num 5)]),
      ("supplier", JsVal.obj [("id", JsVal.num 1), ("name", JsVal.str "A")]),
      ("currentStock", JsVal.num 0)],
     twinSecond]⟩)]

/-- A supplier whose id is the text of the sentinel key. -/
def sentinelSuppliers : JsVal :=
  JsVal.arr [JsVal.obj [("id", JsVal.str "no-supplier"), ("name", JsVal.str "Real Ltd")]]

/-- Two products of warehouse 5, the first supplied by the supplier of
`sentinelSuppliers`, the second without a supplier. -/
def sentinelProducts : JsVal :=
  JsVal.arr [JsVal.obj [("id", JsVal.num 1), ("name", JsVal.str "Q1"),
      ("warehouse", JsVal.obj [("id", JsVal.num 5)]),
      ("supplier", JsVal.obj [("id", JsVal.str "no-supplier")])],
    JsVal.obj [("id", JsVal.num 2), ("name", JsVal.str "Q2"),
      ("warehouse", JsVal.obj [("id", JsVal.num 5)])]]

/-- The enriched second product of `sentinelProducts`: its supplier is
`null`. -/
def sentinelSecond : JsVal :=
  JsVal.obj [("id", JsVal.num 2), ("name", JsVal.str "Q2"),
    ("warehouse", JsVal.obj [("id", JsVal.num 5)]), ("currentStock", JsVal.num 0),
    ("supplier", JsVal.null)]

/-- The groups built from `sentinelProducts` and `sentinelSuppliers`: one
group, under the sentinel key, labelled Real Ltd. -/
def sentinelGroups : List (String × SupplierGroup) :=
  [("no-supplier", ⟨JsVal.obj [("id", JsVal.str "no-supplier"), ("name", JsVal.str "Real Ltd")],
    [JsVal.obj [("id", JsVal.num 1), ("name", JsVal.str "Q1"),
      ("warehouse", JsVal.obj [("id", JsVal.num 5)]),
      ("supplier", JsVal.obj [("id", JsVal.str "no-supplier"), ("name", JsVal.str "Real Ltd")]),
      ("currentStock", JsVal.num 0)],
     sentinelSecond]⟩)]

/-- A report with the given groups, for the warehouse of the worked example
and two products without price or minimum. -/
def reportOfGroups (generatedAt : String) (groups : List (String × SupplierGroup)) : Report :=
  { warehouse := JsVal.obj [("id", JsVal.num 5), ("name", JsVal.str "W1")]
    productsBySupplier := groups
    totalProducts := 2
    totalStockValue := JsNumber.fin 0 0
    lowStockProducts := 0
    generatedAt := generatedAt }

/-! ## Vocabulary of the row counts -/

/-- The last column of a row of text: what stands between the last comma and
the line break that ends the row. -/
def statusColumn (row : String) : String :=
  String.mk ((row.data.reverse.drop 1).takeWhile (fun c => c != ',')).reverse

/-- The lines that open the block of a group in the CSV text: an empty line,
the supplier line, the contact lines that are written, and the column
titles. -/
def blockHead (group : SupplierGroup) : String :=
  ("\nSupplier: " ++ (group.supplier.get "name").toStr ++ "\n") ++
    (if (group.supplier.get "contactPerson").truthy then
      "Contact Person: " ++ (group.supplier.get "contactPerson").toStr ++ "\n" else "") ++
    (if (group.supplier.get "email").truthy then
      "Email: " ++ (group.supplier.get "email").toStr ++ "\n" else "") ++
    (if (group.supplier.get "phone").truthy then
      "Phone: " ++ (group.supplier.get "phone").toStr ++ "\n" else "") ++
    columnTitles

/-- The product rows of the CSV text of a report, in the order of the text:
the rows of each block, block after block. -/
def csvRows (r : Report) : List String :=
  (objectValues r.productsBySupplier).flatMap (fun g => g.products.map productRow)

/-! ## Lemmas on property tables and key order -/

@[simp] theorem isArray_arr (A : List JsVal) : (JsVal.arr A).isArray = true := rfl

@[simp] theorem elems_arr (A : List JsVal) : (JsVal.arr A).elems = A := rfl

theorem field_cons (k : String) (v : JsVal) (rest : List (String × JsVal)) (name : String) :
    JsVal.field ((k, v) :: rest) name = if name = k then v else JsVal.field rest name := by
  unfold JsVal.field
  by_cases h : name = k
  · subst h; simp [List.lookup]
  · have hb : (name == k) = false := by simpa using h
    simp [List.lookup, hb, h]

theorem field_nil (name : String) : JsVal.field [] name = JsVal.undefined := rfl

theorem mem_keys_of_field_isArray (props : List (String × JsVal)) (name : String)
    (h : (JsVal.field props name).isArray = true) : name ∈ props.map Prod.fst := by
  induction props with
  | nil => simp [field_nil, JsVal.isArray] at h
  | cons p rest ih =>
    obtain ⟨k, v⟩ := p
    rw [field_cons] at h
    by_cases hk : name = k
    · simp [hk]
    · simp only [hk, if_false] at h
      simp [ih h]

theorem field_eq_of_mem_nodup (props : List (String × JsVal)) (k : String) (v : JsVal)
    (hnd : (props.map Prod.fst).Nodup) (hm : (k, v) ∈ props) : JsVal.field props k = v := by
  induction props with
  | nil => simp at hm
  | cons p rest ih =>
    obtain ⟨k', v'⟩ := p
    rw [field_cons]
    simp only [List.map_cons, List.nodup_cons] at hnd
    rcases List.mem_cons.mp hm with h | h
    · cases h; simp
    · have hne : k ≠ k' := by
        intro he
        apply hnd.1
        rw [← he]
        exact List.mem_map.mpr ⟨(k, v), h, rfl⟩
      simp [hne, ih hnd.2 h]

theorem mem_ownKeys {α : Type} (props : List (String × α)) (k : String) :
    k ∈ ownKeys props ↔ k ∈ props.map Prod.fst := by
  have hperm : ∀ x : Nat × String,
      x ∈ (indexedKeys props).insertionSort (fun a b => a.1 ≤ b.1) ↔ x ∈ indexedKeys props :=
    fun x => (List.perm_insertionSort _ _).mem_iff
  unfold ownKeys namedKeys
  simp only [List.mem_append, List.mem_map, List.mem_filter, hperm]
  unfold indexedKeys
  simp only [List.mem_filterMap, Option.map_eq_some']
  constructor
  · rintro (⟨⟨i, k'⟩, ⟨p, hp, j, _, hj⟩, rfl⟩ | ⟨⟨p, hp, rfl⟩, _⟩)
    · cases hj; exact ⟨p, hp, rfl⟩
    · exact ⟨p, hp, rfl⟩
  · rintro ⟨p, hp, rfl⟩
    cases hi : arrayIndex? p.1 with
    | none => exact Or.inr ⟨⟨p, hp, rfl⟩, by simp [hi]⟩
    | some i => exact Or.inl ⟨(i, p.1), ⟨p, hp, i, hi, rfl⟩, rfl⟩

theorem ownKeys_of_no_index {α : Type} (props : List (String × α))
    (h : ∀ p ∈ props, arrayIndex? p.1 = none) : ownKeys props = props.map Prod.fst := by
  have h₁ : indexedKeys props = [] := by
    unfold indexedKeys
    rw [List.filterMap_eq_nil_iff]
    intro p hp
    simp [h p hp]
  have h₂ : namedKeys props = props.map Prod.fst := by
    unfold namedKeys
    rw [List.filter_eq_self]
    intro k hk
    obtain ⟨p, hp, rfl⟩ := List.mem_map.mp hk
    simp [h p hp]
  simp [ownKeys, h₁, h₂]

theorem firstArrayField_eq_find (data : JsVal) (keys : List String) :
    firstArrayField data keys =
      match keys.find? (fun k => (data.get k).isArray) with
      | some k => (data.get k).elems
      | none => [] := by
  induction keys with
  | nil => rfl
  | cons k rest ih =>
    unfold firstArrayField
    by_cases h : (data.get k).isArray = true
    · simp [h, List.find?]
    · simp only [h, List.find?]
      simpa using ih

/-! ## The normaliser: envelope shapes -/

theorem extract_of_object (response : JsVal) (props : List (String × JsVal))
    (h : response.getProp "data" = .ok (JsVal.obj props)) :
    extractDataFromResponse response =
      if (JsVal.field props "content").isArray then .ok (JsVal.field props "content").elems
      else if (JsVal.field props "data").isArray then .ok (JsVal.field props "data").elems
      else .ok (firstArrayField (JsVal.obj props) (ownKeys props)) := by
  simp [extractDataFromResponse, h, JsVal.isArray, JsVal.truthy, JsVal.get, JsVal.typeofObject,
    forInKeys]

theorem firstArrayField_unique (props : List (String × JsVal)) (key : String) (A : List JsVal)
    (hA : JsVal.field props key = JsVal.arr A)
    (huniq : ∀ k, (JsVal.field props k).isArray = true → k = key) :
    firstArrayField (JsVal.obj props) (ownKeys props) = A := by
  rw [firstArrayField_eq_find]
  have hmem : key ∈ ownKeys props :=
    (mem_ownKeys props key).mpr (mem_keys_of_field_isArray props key (by simp [hA, JsVal.isArray]))
  cases hf : (ownKeys props).find? (fun k => ((JsVal.obj props).get k).isArray) with
  | none =>
    have := List.find?_eq_none.mp hf key hmem
    simp [JsVal.get, hA, JsVal.isArray] at this
  | some k =>
    have hk := List.find?_some hf
    have : k = key := huniq k (by simpa [JsVal.get] using hk)
    subst this
    simp [JsVal.get, hA, JsVal.elems]

theorem firstArrayField_none (props : List (String × JsVal)) (keys : List String)
    (h : ∀ k, (JsVal.field props k).isArray = false) :
    firstArrayField (JsVal.obj props) keys = [] := by
  induction keys with
  | nil => rfl
  | cons k rest ih => simp [firstArrayField, JsVal.get, h k, ih]

theorem firstArrayField_spec (props : List (String × JsVal)) (keys : List String) :
    (∃ k, k ∈ keys ∧ JsVal.field props k = JsVal.arr (firstArrayField (JsVal.obj props) keys)) ∨
    (firstArrayField (JsVal.obj props) keys = [] ∧
      ∀ k ∈ keys, (JsVal.field props k).isArray = false) := by
  induction keys with
  | nil => right; simp [firstArrayField]
  | cons k rest ih =>
    unfold firstArrayField
    by_cases h : ((JsVal.obj props).get k).isArray = true
    · left
      refine ⟨k, List.mem_cons_self _ _, ?_⟩
      simp only [h, if_true]
      simp only [JsVal.get] at h ⊢
      cases hv : JsVal.field props k <;> simp [hv, JsVal.isArray, JsVal.elems] at h ⊢
    · simp only [h]
      rcases ih with ⟨k', hk', he⟩ | ⟨he, hall⟩
      · exact Or.inl ⟨k', List.mem_cons_of_mem _ hk', he⟩
      · right
        refine ⟨he, ?_⟩
        intro k' hk'
        rcases List.mem_cons.mp hk' with rfl | hk'
        · simpa [JsVal.get] using h
        · exact hall k' hk'

/-- C1: for every array `A` the normaliser returns exactly `A` when the
response body is (i) `A` itself, (ii) an object whose `content` is `A`,
(iii) an object whose `data` is `A` and whose `content` is not an array, or
(iv) an object whose only array-valued field is `A`, under whatever key. -/
theorem extractDataFromResponse_envelope (response body : JsVal) (A : List JsVal)
    (h : response.getProp "data" = .ok body) :
    (body = JsVal.arr A → extractDataFromResponse response = .ok A) ∧
    (∀ props, body = JsVal.obj props → JsVal.field props "content" = JsVal.arr A →
      extractDataFromResponse response = .ok A) ∧
    (∀ props, body = JsVal.obj props → (JsVal.field props "content").isArray = false →
      JsVal.field props "data" = JsVal.arr A → extractDataFromResponse response = .ok A) ∧
    (∀ props key, body = JsVal.obj props → JsVal.field props key = JsVal.arr A →
      (∀ k, (JsVal.field props k).isArray = true → k = key) →
      extractDataFromResponse response = .ok A) := by
  refine ⟨?_, ?_, ?_, ?_⟩
  · intro hb
    subst hb
    simp [extractDataFromResponse, h]
  · intro props hb hc
    subst hb
    rw [extract_of_object response props h]
    simp [hc]
  · intro props hb hc hd
    subst hb
    rw [extract_of_object response props h]
    simp [hc, hd]
  · intro props key hb hA huniq
    subst hb
    rw [extract_of_object response props h]
    by_cases hc : (JsVal.field props "content").isArray = true
    · have := huniq _ hc
      subst this
      simp [hA]
    · by_cases hd : (JsVal.field props "data").isArray = true
      · have := huniq _ hd
        subst this
        simp [hc, hA]
      · simp only [hc, hd]
        simp [firstArrayField_unique props key A hA huniq]

/-- C1 at concrete bodies: a bare array, `{content: A}`, `{content: 7, data: A}`
and `{total: 2, items: A}` all give `A`. -/
theorem extractDataFromResponse_envelope_witness :
    extractDataFromResponse (responseWith (JsVal.arr [JsVal.num 1, JsVal.num 2]))
      = .ok [JsVal.num 1, JsVal.num 2] ∧
    extractDataFromResponse (responseWith (JsVal.obj [("content", JsVal.arr [JsVal.num 1, JsVal.num 2])]))
      = .ok [JsVal.num 1, JsVal.num 2] ∧
    extractDataFromResponse (responseWith (JsVal.obj [("content", JsVal.num 7),
        ("data", JsVal.arr [JsVal.num 1, JsVal.num 2])]))
      = .ok [JsVal.num 1, JsVal.num 2] ∧
    extractDataFromResponse (responseWith (JsVal.obj [("total", JsVal.num 2),
        ("items", JsVal.arr [JsVal.num 1, JsVal.num 2])]))
      = .ok [JsVal.num 1, JsVal.num 2] :=
  ⟨(extractDataFromResponse_envelope (responseWith (JsVal.arr [JsVal.num 1, JsVal.num 2]))
      (JsVal.arr [JsVal.num 1, JsVal.num 2]) [JsVal.num 1, JsVal.num 2] rfl).1 rfl,
   (extractDataFromResponse_envelope
      (responseWith (JsVal.obj [("content", JsVal.arr [JsVal.num 1, JsVal.num 2])]))
      (JsVal.obj [("content", JsVal.arr [JsVal.num 1, JsVal.num 2])])
      [JsVal.num 1, JsVal.num 2] rfl).2.1 _ rfl rfl,
   (extractDataFromResponse_envelope
      (responseWith (JsVal.obj [("content", JsVal.num 7),
        ("data", JsVal.arr [JsVal.num 1, JsVal.num 2])]))
      (JsVal.obj [("content", JsVal.num 7), ("data", JsVal.arr [JsVal.num 1, JsVal.num 2])])
      [JsVal.num 1, JsVal.num 2] rfl).2.2.1 _ rfl rfl rfl,
   (extractDataFromResponse_envelope
      (responseWith (JsVal.obj [("total", JsVal.num 2),
        ("items", JsVal.arr [JsVal.num 1, JsVal.num 2])]))
      (JsVal.obj [("total", JsVal.num 2), ("items", JsVal.arr [JsVal.num 1, JsVal.num 2])])
      [JsVal.num 1, JsVal.num 2] rfl).2.2.2 _ "items" rfl rfl
     (by
       intro k hk
       by_cases h₁ : k = "total"
       · subst h₁; exact absurd hk (by decide)
       · by_cases h₂ : k = "items"
         · exact h₂
         · rw [field_cons, if_neg h₁, field_cons, if_neg h₂, field_nil] at hk
           exact absurd hk (by decide))⟩

theorem extract_of_non_object (response body : JsVal)
    (h : response.getProp "data" = .ok body) (ha : body.isArray = false)
    (ho : ∀ props, body ≠ JsVal.obj props) : extractDataFromResponse response = .ok [] := by
  cases body with
  | obj props => exact absurd rfl (ho props)
  | arr items => simp at ha
  | undefined => simp [extractDataFromResponse, h, JsVal.isArray, JsVal.truthy]
  | null => simp [extractDataFromResponse, h, JsVal.isArray, JsVal.truthy]
  | bool b => simp [extractDataFromResponse, h, JsVal.isArray, JsVal.get, JsVal.typeofObject]
  | num n => simp [extractDataFromResponse, h, JsVal.isArray, JsVal.get, JsVal.typeofObject]
  | str s => simp [extractDataFromResponse, h, JsVal.isArray, JsVal.get, JsVal.typeofObject]

/-- C2: a body that is none of the four envelope shapes (`null`, `undefined`,
a number, a boolean, a string, or an object none of whose fields holds an
array) gives the empty sequence; and whatever the body is, the normaliser
returns a sequence and does not raise. -/
theorem extractDataFromResponse_fallback (response body : JsVal)
    (h : response.getProp "data" = .ok body) :
    (body.isArray = false →
      (∀ props, body = JsVal.obj props → ∀ k, (JsVal.field props k).isArray = false) →
      extractDataFromResponse response = .ok []) ∧
    (∃ xs, extractDataFromResponse response = .ok xs) := by
  constructor
  · intro ha hf
    by_cases ho : ∃ props, body = JsVal.obj props
    · obtain ⟨props, rfl⟩ := ho
      rw [extract_of_object response props h]
      simp [hf props rfl, firstArrayField_none props _ (hf props rfl)]
    · exact extract_of_non_object response body h ha (fun props hb => ho ⟨props, hb⟩)
  · cases hb : body with
    | obj props =>
      subst hb
      rw [extract_of_object response props h]
      split
      · exact ⟨_, rfl⟩
      · split <;> exact ⟨_, rfl⟩
    | arr items =>
      subst hb
      exact ⟨items, by simp [extractDataFromResponse, h]⟩
    | undefined =>
      subst hb
      exact ⟨[], extract_of_non_object response _ h rfl (fun _ hc => by cases hc)⟩
    | null =>
      subst hb
      exact ⟨[], extract_of_non_object response _ h rfl (fun _ hc => by cases hc)⟩
    | bool b =>
      subst hb
      exact ⟨[], extract_of_non_object response _ h rfl (fun _ hc => by cases hc)⟩
    | num n =>
      subst hb
      exact ⟨[], extract_of_non_object response _ h rfl (fun _ hc => by cases hc)⟩
    | str s =>
      subst hb
      exact ⟨[], extract_of_non_object response _ h rfl (fun _ hc => by cases hc)⟩

/-- C2 at concrete bodies: `null`, a string and an object without any array. -/
theorem extractDataFromResponse_fallback_witness :
    extractDataFromResponse (responseWith JsVal.null) = .ok [] ∧
    extractDataFromResponse (responseWith (JsVal.str "oops")) = .ok [] ∧
    extractDataFromResponse (responseWith (JsVal.obj [("message", JsVal.str "none")])) = .ok [] :=
  ⟨(extractDataFromResponse_fallback (responseWith JsVal.null) JsVal.null rfl).1 rfl
      (fun _ hb => by cases hb),
   (extractDataFromResponse_fallback (responseWith (JsVal.str "oops")) (JsVal.str "oops") rfl).1 rfl
      (fun _ hb => by cases hb),
   (extractDataFromResponse_fallback (responseWith (JsVal.obj [("message", JsVal.str "none")]))
      (JsVal.obj [("message", JsVal.str "none")]) rfl).1 rfl
      (fun props hb k => by
        cases hb
        rw [field_cons]
        split
        · rfl
        · rfl)⟩

/-- C3: the shape checks have a fixed priority.  For an object body, an array
under `content` is returned whatever else the object holds and wherever it is
declared; otherwise an array under `data` is returned; and only when neither is
an array does the result come from another key (or is empty when no field
holds an array). -/
theorem extractDataFromResponse_priority (response : JsVal) (props : List (String × JsVal))
    (h : response.getProp "data" = .ok (JsVal.obj props)) :
    (∀ A, JsVal.field props "content" = JsVal.arr A →
      extractDataFromResponse response = .ok A) ∧
    (∀ B, (JsVal.field props "content").isArray = false →
      JsVal.field props "data" = JsVal.arr B → extractDataFromResponse response = .ok B) ∧
    ((JsVal.field props "content").isArray = false → (JsVal.field props "data").isArray = false →
      ∃ C, extractDataFromResponse response = .ok C ∧
        ((∃ k, k ≠ "content" ∧ k ≠ "data" ∧ k ∈ props.map Prod.fst ∧
            JsVal.field props k = JsVal.arr C) ∨
         (C = [] ∧ ∀ k, (JsVal.field props k).isArray = false))) := by
  rw [extract_of_object response props h]
  refine ⟨?_, ?_, ?_⟩
  · intro A hc
    simp [hc]
  · intro B hc hd
    simp [hc, hd]
  · intro hc hd
    refine ⟨firstArrayField (JsVal.obj props) (ownKeys props), by simp [hc, hd], ?_⟩
    rcases firstArrayField_spec props (ownKeys props) with ⟨k, hk, he⟩ | ⟨he, hall⟩
    · left
      refine ⟨k, ?_, ?_, (mem_ownKeys props k).mp hk, he⟩
      · rintro rfl
        simp [he] at hc
      · rintro rfl
        simp [he] at hd
    · right
      refine ⟨he, ?_⟩
      intro k
      by_cases hk : k ∈ ownKeys props
      · exact hall k hk
      · cases hv : (JsVal.field props k).isArray with
        | false => rfl
        | true =>
          exact absurd ((mem_ownKeys props k).mpr (mem_keys_of_field_isArray props k hv)) hk

/-- C3 at a body that declares `items`, then `data`, then `content`, all three
arrays: `content` wins; without `content`, `data` wins over the earlier
`items`. -/
theorem extractDataFromResponse_priority_witness :
    extractDataFromResponse (responseWith (JsVal.obj [("items", JsVal.arr [JsVal.num 1]),
        ("data", JsVal.arr [JsVal.num 2]), ("content", JsVal.arr [JsVal.num 3])]))
      = .ok [JsVal.num 3] ∧
    extractDataFromResponse (responseWith (JsVal.obj [("items", JsVal.arr [JsVal.num 1]),
        ("data", JsVal.arr [JsVal.num 2])]))
      = .ok [JsVal.num 2] :=
  ⟨(extractDataFromResponse_priority
      (responseWith (JsVal.obj [("items", JsVal.arr [JsVal.num 1]),
        ("data", JsVal.arr [JsVal.num 2]), ("content", JsVal.arr [JsVal.num 3])]))
      [("items", JsVal.arr [JsVal.num 1]), ("data", JsVal.arr [JsVal.num 2]),
        ("content", JsVal.arr [JsVal.num 3])] rfl).1 [JsVal.num 3] rfl,
   (extractDataFromResponse_priority
      (responseWith (JsVal.obj [("items", JsVal.arr [JsVal.num 1]),
        ("data", JsVal.arr [JsVal.num 2])]))
      [("items", JsVal.arr [JsVal.num 1]), ("data", JsVal.arr [JsVal.num 2])] rfl).2.1
      [JsVal.num 2] rfl rfl⟩

theorem firstArrayField_declared (props l : List (String × JsVal))
    (hl : ∀ p ∈ l, JsVal.field props p.1 = p.2) :
    firstArrayField (JsVal.obj props) (l.map Prod.fst) =
      match l.find? (fun p => p.2.isArray) with
      | some p => p.2.elems
      | none => [] := by
  induction l with
  | nil => rfl
  | cons p rest ih =>
    have hp : JsVal.field props p.1 = p.2 := hl p (List.mem_cons_self _ _)
    have ih' := ih (fun q hq => hl q (List.mem_cons_of_mem _ hq))
    simp only [List.map_cons, firstArrayField, JsVal.get, hp, List.find?]
    cases hv : p.2.isArray with
    | true => simp
    | false => simpa using ih'

/-- C4, counterexample: the body declares the field `"10"` before the field
`"2"`, both arrays.  The first array in declaration order is the one under
`"10"`, but the loop visits `"2"` first and the normaliser returns that one. -/
theorem extractDataFromResponse_declaration_order_fails :
    (JsVal.field numeralKeyProps "content").isArray = false ∧
    (JsVal.field numeralKeyProps "data").isArray = false ∧
    declaredFirstArray numeralKeyProps = [JsVal.str "ten"] ∧
    extractDataFromResponse (responseWith (JsVal.obj numeralKeyProps)) = .ok [JsVal.str "two"] ∧
    extractDataFromResponse (responseWith (JsVal.obj numeralKeyProps))
      ≠ .ok (declaredFirstArray numeralKeyProps) := by
  have h₁ : declaredFirstArray numeralKeyProps = [JsVal.str "ten"] := rfl
  have h₂ : extractDataFromResponse (responseWith (JsVal.obj numeralKeyProps))
      = .ok [JsVal.str "two"] := rfl
  refine ⟨rfl, rfl, h₁, h₂, ?_⟩
  rw [h₁, h₂]
  intro he
  injection he with he
  injection he with he _
  injection he with he
  exact absurd he (by decide)

/-- C4, amended: for an object body with no array under `content` or `data`
the normaliser returns the array held by the first array-valued field in the
enumeration order of `for ... in`: the keys that are array indices (such as
`"2"` and `"10"`) in ascending numeric order, then the other keys in declaration
order.  When no key of the body is an array index this is the first
array-valued field in declaration order. -/
theorem extractDataFromResponse_enumeration_order (response : JsVal)
    (props : List (String × JsVal))
    (h : response.getProp "data" = .ok (JsVal.obj props))
    (hc : (JsVal.field props "content").isArray = false)
    (hd : (JsVal.field props "data").isArray = false) :
    extractDataFromResponse response =
      .ok (match (ownKeys props).find? (fun k => (JsVal.field props k).isArray) with
        | some k => (JsVal.field props k).elems
        | none => []) ∧
    ((∀ p ∈ props, arrayIndex? p.1 = none) → (props.map Prod.fst).Nodup →
      extractDataFromResponse response = .ok (declaredFirstArray props)) := by
  rw [extract_of_object response props h]
  simp only [hc, hd]
  refine ⟨?_, ?_⟩
  · have := firstArrayField_eq_find (JsVal.obj props) (ownKeys props)
    simp only [JsVal.get] at this
    simp [this]
  · intro hidx hnd
    rw [ownKeys_of_no_index props hidx]
    rw [firstArrayField_declared props props
      (fun p hp => field_eq_of_mem_nodup props p.1 p.2 hnd hp)]
    simp [declaredFirstArray]

/-- C4 amended, at concrete bodies: with the keys `"10"` and `"2"` the array
under `"2"` is returned; with the keys `total`, `rows`, `items` the first
declared array, under `rows`, is returned. -/
theorem extractDataFromResponse_enumeration_order_witness :
    extractDataFromResponse (responseWith (JsVal.obj numeralKeyProps)) = .ok [JsVal.str "two"] ∧
    extractDataFromResponse (responseWith (JsVal.obj [("total", JsVal.num 2),
        ("rows", JsVal.arr [JsVal.num 1]), ("items", JsVal.arr [JsVal.num 2])]))
      = .ok [JsVal.num 1] :=
  ⟨(extractDataFromResponse_enumeration_order (responseWith (JsVal.obj numeralKeyProps))
      numeralKeyProps rfl rfl rfl).1,
   (extractDataFromResponse_enumeration_order
      (responseWith (JsVal.obj [("total", JsVal.num 2),
        ("rows", JsVal.arr [JsVal.num 1]), ("items", JsVal.arr [JsVal.num 2])]))
      [("total", JsVal.num 2), ("rows", JsVal.arr [JsVal.num 1]),
        ("items", JsVal.arr [JsVal.num 2])] rfl rfl rfl).2
      (by decide) (by decide)⟩

/-! ## Array methods with callbacks that may raise -/

theorem getProp_ok (v : JsVal) (name : String) (x : JsVal) (h : v.getProp name = .ok x) :
    x = v.get name := by
  cases v <;> simp [JsVal.getProp, JsVal.get] at h ⊢ <;> exact h.symm

theorem getProp_of_record (v : JsVal) (name : String) (h : v.isRecord = true) :
    v.getProp name = .ok (v.get name) := by
  cases v <;> simp [JsVal.isRecord] at h
  rfl

theorem truthy_of_record (v : JsVal) (h : v.isRecord = true) : v.truthy = true := by
  cases v <;> simp [JsVal.isRecord] at h
  rfl

theorem arrayFind_pure (p : JsVal → Except JsError Bool) (q : JsVal → Bool) (xs : List JsVal)
    (h : ∀ x ∈ xs, p x = .ok (q x)) : arrayFind p xs = .ok (findPure q xs) := by
  induction xs with
  | nil => rfl
  | cons x rest ih =>
    have hx := h x (List.mem_cons_self _ _)
    have ih' := ih (fun y hy => h y (List.mem_cons_of_mem _ hy))
    unfold arrayFind
    rw [hx]
    cases hq : q x with
    | true => simp [findPure, List.find?, hq]
    | false => simp [findPure, List.find?, hq, ih']

theorem arrayFilter_ok (p : JsVal → Except JsError Bool) (q : JsVal → Bool) (xs ys : List JsVal)
    (hq : ∀ x b, p x = .ok b → b = q x) (h : arrayFilter p xs = .ok ys) :
    ys = xs.filter q := by
  induction xs generalizing ys with
  | nil =>
    simp [arrayFilter] at h
    simp [h]
  | cons x rest ih =>
    unfold arrayFilter at h
    cases hp : p x with
    | error e => simp [hp] at h
    | ok b =>
      cases hr : arrayFilter p rest with
      | error e => simp [hp, hr] at h
      | ok zs =>
        simp only [hp, hr, Except.ok.injEq] at h
        have hb := hq x b hp
        have hz := ih zs hr
        subst hb hz
        rw [← h]
        cases hqx : q x <;> simp [List.filter, hqx]

theorem arrayMap_ok (f : JsVal → Except JsError JsVal) (xs ys : List JsVal)
    (h : arrayMap f xs = .ok ys) : List.Forall₂ (fun x y => f x = .ok y) xs ys := by
  induction xs generalizing ys with
  | nil =>
    simp [arrayMap] at h
    subst h
    exact List.Forall₂.nil
  | cons x rest ih =>
    unfold arrayMap at h
    cases hf : f x with
    | error e => simp [hf] at h
    | ok y =>
      cases hr : arrayMap f rest with
      | error e => simp [hf, hr] at h
      | ok zs =>
        simp only [hf, hr, Except.ok.injEq] at h
        subst h
        exact List.Forall₂.cons hf (ih zs hr)

theorem hasId_of_record (warehouseId w : JsVal) (h : w.isRecord = true) :
    hasId warehouseId w = .ok ((w.get "id").looseEq warehouseId) := by
  simp [hasId, getProp_of_record w "id" h]

theorem inWarehouse_ok (warehouseId record : JsVal) (b : Bool)
    (h : inWarehouse warehouseId record = .ok b) :
    b = ((record.get "warehouse").truthy &&
      ((record.get "warehouse").get "id").looseEq warehouseId) := by
  unfold inWarehouse at h
  cases hg : record.getProp "warehouse" with
  | error e => simp [hg] at h
  | ok w =>
    simp only [hg, Except.ok.injEq] at h
    rw [← getProp_ok record "warehouse" w hg, h]

theorem generateReport_of_found (generatedAt : String) (ws : List JsVal)
    (products inventory suppliers warehouseId warehouse : JsVal)
    (hf : arrayFind (hasId warehouseId) ws = .ok warehouse) (ht : warehouse.truthy = true) :
    generateReport generatedAt (JsVal.arr ws) products inventory suppliers warehouseId =
      match enrichedProducts products inventory suppliers warehouseId with
      | .error e => .error e
      | .ok enriched =>
        match productsBySupplier enriched with
        | .error e => .error e
        | .ok groups =>
          .ok (some
            { warehouse := warehouse
              productsBySupplier := groups
              totalProducts := enriched.length
              totalStockValue := totalStockValue enriched
              lowStockProducts := (lowStockProducts enriched).length
              generatedAt := generatedAt }) := by
  simp [generateReport, asArray, hf, ht]

/-- C5: with a warehouses collection of records, the report is `null` exactly
when no warehouse has an id loosely equal to the selected id.  Selecting 999
against the ids 1 and 2 gives `null`; selecting the string `"5"` resolves the
warehouse whose id is the number 5. -/
theorem generateReport_null_iff (generatedAt : String) (ws : List JsVal)
    (products inventory suppliers warehouseId : JsVal)
    (hrec : ∀ w ∈ ws, w.isRecord = true) :
    (generateReport generatedAt (JsVal.arr ws) products inventory suppliers warehouseId = .ok none
      ↔ ∀ w ∈ ws, (w.get "id").looseEq warehouseId = false) ∧
    generateReport generatedAt
      (JsVal.arr [JsVal.obj [("id", JsVal.num 1)], JsVal.obj [("id", JsVal.num 2)]])
      products inventory suppliers (JsVal.num 999) = .ok none ∧
    (∃ r, generateReport generatedAt
        (JsVal.arr [JsVal.obj [("id", JsVal.num 1), ("name", JsVal.str "W0")],
          JsVal.obj [("id", JsVal.num 5), ("name", JsVal.str "W1")]])
        exampleProducts exampleInventory (JsVal.arr []) (JsVal.str "5") = .ok (some r) ∧
      r.warehouse = JsVal.obj [("id", JsVal.num 5), ("name", JsVal.str "W1")]) := by
  refine ⟨?_, rfl, ⟨_, rfl, rfl⟩⟩
  have hfind := arrayFind_pure (hasId warehouseId)
    (fun w => (w.get "id").looseEq warehouseId) ws
    (fun w hw => hasId_of_record warehouseId w (hrec w hw))
  cases hq : ws.find? (fun w => (w.get "id").looseEq warehouseId) with
  | none =>
    have hall := List.find?_eq_none.mp hq
    have : generateReport generatedAt (JsVal.arr ws) products inventory suppliers warehouseId
        = .ok none := by
      simp [generateReport, asArray, hfind, findPure, hq, JsVal.truthy]
    simp only [this, true_iff]
    intro w hw
    simpa using hall w hw
  | some w =>
    have hw : w ∈ ws := List.mem_of_find?_eq_some hq
    have hwq := List.find?_some hq
    have hfw : arrayFind (hasId warehouseId) ws = .ok w := by
      rw [hfind]; simp [findPure, hq]
    rw [generateReport_of_found generatedAt ws products inventory suppliers warehouseId w hfw
      (truthy_of_record w (hrec w hw))]
    constructor
    · intro h
      exfalso
      cases he : enrichedProducts products inventory suppliers warehouseId with
      | error e => simp [he] at h
      | ok enriched =>
        cases hg : productsBySupplier enriched with
        | error e => simp [he, hg] at h
        | ok groups => simp [he, hg] at h
    · intro h
      have := h w hw
      simp [this] at hwq

/-- C5 at the ids 1 and 2 with 999 selected: no warehouse matches and the
report is `null`. -/
theorem generateReport_null_iff_witness :
    generateReport "t"
      (JsVal.arr [JsVal.obj [("id", JsVal.num 1)], JsVal.obj [("id", JsVal.num 2)]])
      exampleProducts exampleInventory (JsVal.arr []) (JsVal.num 999) = .ok none :=
  (generateReport_null_iff "t" [JsVal.obj [("id", JsVal.num 1)], JsVal.obj [("id", JsVal.num 2)]]
    exampleProducts exampleInventory (JsVal.arr []) (JsVal.num 999) (by decide)).1.mpr (by decide)

/-! ## Object literals: spread and property definition -/

theorem lookup_cons_ne {β : Type} (name k : String) (w : β) (rest : List (String × β))
    (h : name ≠ k) : List.lookup name ((k, w) :: rest) = List.lookup name rest := by
  have hb : (name == k) = false := by simpa using h
  simp only [List.lookup, hb]

theorem lookup_cons_self {β : Type} (k : String) (w : β) (rest : List (String × β)) :
    List.lookup k ((k, w) :: rest) = some w := by
  simp [List.lookup]

theorem lookup_isSome_iff {β : Type} (props : List (String × β)) (name : String) :
    (props.lookup name).isSome = true ↔ name ∈ props.map Prod.fst := by
  induction props with
  | nil => simp
  | cons p rest ih =>
    obtain ⟨k, v⟩ := p
    by_cases h : name = k
    · subst h; simp [List.lookup]
    · have hb : (name == k) = false := by simpa using h
      simp [List.lookup, hb, h, ih]

theorem field_of_not_mem (props : List (String × JsVal)) (name : String)
    (h : name ∉ props.map Prod.fst) : JsVal.field props name = JsVal.undefined := by
  have : (props.lookup name).isSome = false := by
    cases hs : (props.lookup name).isSome with
    | false => rfl
    | true => exact absurd ((lookup_isSome_iff props name).mp hs) h
  unfold JsVal.field
  cases hl : props.lookup name with
  | none => rfl
  | some v => simp [hl] at this

theorem field_keyed (keys : List String) (f : String → JsVal) (name : String) :
    JsVal.field (keys.map (fun k => (k, f k))) name =
      if name ∈ keys then f name else JsVal.undefined := by
  induction keys with
  | nil => simp [field_nil]
  | cons k rest ih =>
    simp only [List.map_cons, field_cons, ih, List.mem_cons]
    by_cases h : name = k
    · subst h; simp
    · simp [h]

theorem field_spreadProps (product : JsVal) (name : String) :
    JsVal.field (spreadProps product) name = product.get name := by
  cases product with
  | obj props =>
    simp only [spreadProps, JsVal.get, field_keyed]
    by_cases h : name ∈ ownKeys props
    · simp [h]
    · simp only [h, if_false]
      exact (field_of_not_mem props name (fun hm => h ((mem_ownKeys props name).mpr hm))).symm
  | _ => simp [spreadProps, JsVal.get, field_nil]

theorem field_replace (props : List (String × JsVal)) (name : String) (v : JsVal)
    (other : String) :
    JsVal.field (props.map (fun p => if p.1 = name then (p.1, v) else p)) other =
      if other = name then (if (props.lookup name).isSome then v else JsVal.undefined)
      else JsVal.field props other := by
  induction props with
  | nil => simp [field_nil]
  | cons p rest ih =>
    obtain ⟨k, w⟩ := p
    by_cases hk : k = name
    · subst hk
      by_cases ho : other = k
      · subst ho; simp [field_cons, List.lookup]
      · simp [field_cons, ho, ih]
    · by_cases ho : other = name
      · subst ho
        rw [lookup_cons_ne other k w rest (Ne.symm hk)]
        simp [hk, field_cons, Ne.symm hk, ih]
      · simp [hk, field_cons, ho, ih]

theorem field_append_single (props : List (String × JsVal)) (name : String) (v : JsVal)
    (other : String) :
    JsVal.field (props ++ [(name, v)]) other =
      if (props.lookup other).isSome then JsVal.field props other
      else if other = name then v else JsVal.undefined := by
  induction props with
  | nil => simp [field_cons, field_nil]
  | cons p rest ih =>
    obtain ⟨k, w⟩ := p
    by_cases ho : other = k
    · subst ho; simp [field_cons, List.lookup]
    · rw [lookup_cons_ne other k w rest ho]
      simp [field_cons, ho, ih]

theorem field_setProp_same (props : List (String × JsVal)) (name : String) (v : JsVal) :
    JsVal.field (setProp props name v) name = v := by
  unfold setProp
  cases h : (props.lookup name).isSome with
  | true => simp [field_replace, h]
  | false => simp [field_append_single, h]

theorem field_setProp_other (props : List (String × JsVal)) (name : String) (v : JsVal)
    (other : String) (hne : other ≠ name) :
    JsVal.field (setProp props name v) other = JsVal.field props other := by
  unfold setProp
  cases h : (props.lookup name).isSome with
  | true => simp [field_replace, hne]
  | false =>
    simp only [Bool.false_eq_true, if_false, field_append_single, hne]
    cases ho : (props.lookup other).isSome with
    | true => simp
    | false =>
      simp only [Bool.false_eq_true, if_false]
      cases hl : props.lookup other with
      | none => simp [JsVal.field, hl]
      | some w => simp [hl] at ho

/-! ## Grouping by supplier: the invariant of the loop -/

theorem lookup_none_iff {β : Type} (props : List (String × β)) (name : String) :
    props.lookup name = none ↔ name ∉ props.map Prod.fst := by
  rw [← lookup_isSome_iff]
  cases props.lookup name <;> simp

theorem lookup_of_mem_nodup {β : Type} (props : List (String × β)) (k : String) (v : β)
    (hnd : (props.map Prod.fst).Nodup) (hm : (k, v) ∈ props) : props.lookup k = some v := by
  induction props with
  | nil => simp at hm
  | cons p rest ih =>
    obtain ⟨k', v'⟩ := p
    simp only [List.map_cons, List.nodup_cons] at hnd
    rcases List.mem_cons.mp hm with h | h
    · cases h; exact lookup_cons_self k v rest
    · have hne : k ≠ k' := by
        intro he
        apply hnd.1
        rw [← he]
        exact List.mem_map.mpr ⟨(k, v), h, rfl⟩
      rw [lookup_cons_ne k k' v' rest hne]
      exact ih hnd.2 h

theorem pushProduct_keys (key : String) (product : JsVal)
    (groups : List (String × SupplierGroup)) :
    (pushProduct key product groups).map Prod.fst = groups.map Prod.fst := by
  induction groups with
  | nil => rfl
  | cons kg rest ih =>
    simp only [pushProduct, List.map_cons] at ih ⊢
    rw [ih]
    by_cases h : kg.1 = key <;> simp [h]

theorem groupsOf_nil : GroupsOf [] [] := by
  refine ⟨by simp, ?_, ?_⟩
  · intro e he; simp at he
  · intro kg hkg; simp at hkg

theorem fileProduct_groupsOf (groups groups' : List (String × SupplierGroup))
    (seen : List JsVal) (product : JsVal)
    (h : fileProduct groups product = .ok groups') (hI : GroupsOf groups seen) :
    GroupsOf groups' (seen ++ [product]) := by
  obtain ⟨hnd, hcov, hgrp⟩ := hI
  unfold fileProduct at h
  cases hl : groups.lookup (supplierKey product) with
  | some g₀ =>
    simp only [hl, Except.ok.injEq] at h
    subst h
    have hkey : supplierKey product ∈ groups.map Prod.fst :=
      (lookup_isSome_iff groups _).mp (by simp [hl])
    refine ⟨by rw [pushProduct_keys]; exact hnd, ?_, ?_⟩
    · intro e he
      rw [pushProduct_keys]
      rcases List.mem_append.mp he with he | he
      · exact hcov e he
      · simp only [List.mem_singleton] at he
        subst he
        exact hkey
    · intro kg' hkg'
      obtain ⟨kg, hkg, rfl⟩ := List.mem_map.mp hkg'
      obtain ⟨hprod, e₀, rest, hfirst, hlabel⟩ := hgrp kg hkg
      by_cases hk : kg.1 = supplierKey product
      · simp only [hk, if_true]
        refine ⟨?_, e₀, rest ++ [product], ?_, hlabel⟩
        · simp only [List.filter_append, hprod, hk]
          simp [List.filter]
        · simp [hfirst]
      · simp only [hk, if_false]
        refine ⟨?_, e₀, rest, hfirst, hlabel⟩
        have hne : (supplierKey product == kg.1) = false := by
          simpa using (Ne.symm hk)
        simp [List.filter_append, hprod, List.filter, hne]
  | none =>
    simp only [hl] at h
    by_cases hp : supplierKey product ∈ objectPrototypeKeys
    · simp [hp] at h
    · simp only [hp, if_false, Except.ok.injEq] at h
      subst h
      have hkey : supplierKey product ∉ groups.map Prod.fst := (lookup_none_iff groups _).mp hl
      refine ⟨?_, ?_, ?_⟩
      · simp only [List.map_append, List.map_cons, List.map_nil]
        rw [List.nodup_append]
        refine ⟨hnd, by simp, ?_⟩
        intro k hk hk'
        simp only [List.mem_singleton] at hk'
        subst hk'
        exact hkey hk
      · intro e he
        simp only [List.map_append, List.map_cons, List.map_nil, List.mem_append,
          List.mem_singleton]
        rcases List.mem_append.mp he with he | he
        · exact Or.inl (hcov e he)
        · simp only [List.mem_singleton] at he
          subst he
          exact Or.inr rfl
      · intro kg hkg
        rcases List.mem_append.mp hkg with hkg | hkg
        · obtain ⟨hprod, e₀, rest, hfirst, hlabel⟩ := hgrp kg hkg
          refine ⟨?_, e₀, rest, hfirst, hlabel⟩
          have hne : (supplierKey product == kg.1) = false := by
            have : supplierKey product ≠ kg.1 := by
              intro he
              apply hkey
              rw [he]
              exact List.mem_map.mpr ⟨kg, hkg, rfl⟩
            simpa using this
          simp [List.filter_append, hprod, List.filter, hne]
        · simp only [List.mem_singleton] at hkg
          subst hkg
          refine ⟨?_, product, [], rfl, rfl⟩
          have hnone : seen.filter (fun e => supplierKey e == supplierKey product) = [] := by
            rw [List.filter_eq_nil_iff]
            intro e he hq
            apply hkey
            have : supplierKey e = supplierKey product := by simpa using hq
            rw [← this]
            exact hcov e he
          simp [List.filter_append, hnone, List.filter]

theorem fileProducts_groupsOf (es : List JsVal) :
    ∀ (groups groups' : List (String × SupplierGroup)) (seen : List JsVal),
      fileProducts groups es = .ok groups' → GroupsOf groups seen →
      GroupsOf groups' (seen ++ es) := by
  induction es with
  | nil =>
    intro groups groups' seen h hI
    simp only [fileProducts, Except.ok.injEq] at h
    subst h
    simpa using hI
  | cons e rest ih =>
    intro groups groups' seen h hI
    unfold fileProducts at h
    cases hf : fileProduct groups e with
    | error err => simp [hf] at h
    | ok mid =>
      simp only [hf] at h
      have := ih mid groups' (seen ++ [e]) h (fileProduct_groupsOf groups mid seen e hf hI)
      simpa using this

theorem productsBySupplier_groupsOf (enriched : List JsVal)
    (groups : List (String × SupplierGroup)) (h : productsBySupplier enriched = .ok groups) :
    GroupsOf groups enriched := by
  have := fileProducts_groupsOf enriched [] groups [] h groupsOf_nil
  simpa using this

/-! ## What a produced report is made of -/

theorem arrayFind_ok (p : JsVal → Except JsError Bool) (q : JsVal → Bool) (xs : List JsVal)
    (y : JsVal) (hq : ∀ x b, p x = .ok b → b = q x) (h : arrayFind p xs = .ok y) :
    y = findPure q xs := by
  induction xs with
  | nil =>
    simp only [arrayFind, Except.ok.injEq] at h
    simp [findPure, ← h]
  | cons x rest ih =>
    unfold arrayFind at h
    cases hp : p x with
    | error e => simp [hp] at h
    | ok b =>
      have hb := hq x b hp
      cases b with
      | true =>
        simp only [hp, Except.ok.injEq] at h
        subst h
        simp [findPure, List.find?, ← hb]
      | false =>
        simp only [hp] at h
        simp [findPure, List.find?, ← hb, ih h]

theorem asArray_ok (v : JsVal) (xs : List JsVal) (h : asArray v = .ok xs) : v = JsVal.arr xs := by
  cases v <;> simp [asArray] at h
  rw [h]

theorem warehouseProducts_ok (products warehouseId : JsVal) (sel : List JsVal)
    (h : warehouseProducts products warehouseId = .ok sel) :
    ∃ ps, products = JsVal.arr ps ∧ sel = ps.filter (belongsTo warehouseId) := by
  unfold warehouseProducts at h
  cases ha : asArray products with
  | error e => simp [ha] at h
  | ok ps =>
    simp only [ha] at h
    exact ⟨ps, asArray_ok products ps ha,
      arrayFilter_ok _ (belongsTo warehouseId) ps sel (inWarehouse_ok warehouseId) h⟩

theorem warehouseInventory_ok (inventory warehouseId : JsVal) (inv : List JsVal)
    (h : warehouseInventory inventory warehouseId = .ok inv) :
    ∃ items, inventory = JsVal.arr items ∧ inv = items.filter (belongsTo warehouseId) := by
  unfold warehouseInventory at h
  cases ha : asArray inventory with
  | error e => simp [ha] at h
  | ok items =>
    simp only [ha] at h
    exact ⟨items, asArray_ok inventory items ha,
      arrayFilter_ok _ (belongsTo warehouseId) items inv (inWarehouse_ok warehouseId) h⟩

theorem enrichedProducts_ok (products inventory suppliers warehouseId : JsVal)
    (enriched : List JsVal)
    (h : enrichedProducts products inventory suppliers warehouseId = .ok enriched) :
    ∃ ps items, products = JsVal.arr ps ∧ inventory = JsVal.arr items ∧
      List.Forall₂
        (fun p e => enrichProduct (items.filter (belongsTo warehouseId)) suppliers p = .ok e)
        (ps.filter (belongsTo warehouseId)) enriched := by
  unfold enrichedProducts at h
  cases hp : warehouseProducts products warehouseId with
  | error e => simp [hp] at h
  | ok sel =>
    cases hi : warehouseInventory inventory warehouseId with
    | error e => simp [hp, hi] at h
    | ok inv =>
      simp only [hp, hi] at h
      obtain ⟨ps, hps, rfl⟩ := warehouseProducts_ok products warehouseId sel hp
      obtain ⟨items, hitems, rfl⟩ := warehouseInventory_ok inventory warehouseId inv hi
      exact ⟨ps, items, hps, hitems, arrayMap_ok _ _ _ h⟩

theorem generateReport_some (generatedAt : String)
    (warehouses products inventory suppliers warehouseId : JsVal) (r : Report)
    (hr : generateReport generatedAt warehouses products inventory suppliers warehouseId
      = .ok (some r)) :
    ∃ ws enriched,
      warehouses = JsVal.arr ws ∧
      arrayFind (hasId warehouseId) ws = .ok r.warehouse ∧
      r.warehouse.truthy = true ∧
      enrichedProducts products inventory suppliers warehouseId = .ok enriched ∧
      productsBySupplier enriched = .ok r.productsBySupplier ∧
      r.totalProducts = enriched.length ∧
      r.totalStockValue = totalStockValue enriched ∧
      r.lowStockProducts = (lowStockProducts enriched).length ∧
      r.generatedAt = generatedAt := by
  unfold generateReport at hr
  cases ha : asArray warehouses with
  | error e => simp [ha] at hr
  | ok ws =>
    cases hf : arrayFind (hasId warehouseId) ws with
    | error e => simp [ha, hf] at hr
    | ok warehouse =>
      cases ht : warehouse.truthy with
      | false => simp [ha, hf, ht] at hr
      | true =>
        cases he : enrichedProducts products inventory suppliers warehouseId with
        | error e => simp [ha, hf, ht, he] at hr
        | ok enriched =>
          cases hg : productsBySupplier enriched with
          | error e => simp [ha, hf, ht, he, hg] at hr
          | ok groups =>
            simp only [ha, hf, ht, he, hg, Bool.not_true, Bool.false_eq_true, if_false,
              Except.ok.injEq, Option.some.injEq] at hr
            subst hr
            exact ⟨ws, enriched, asArray_ok warehouses ws ha, hf, ht, rfl, hg, rfl, rfl, rfl, rfl⟩

theorem enrichProduct_fields (inv : List JsVal) (suppliers product e : JsVal)
    (h : enrichProduct inv suppliers product = .ok e) :
    ∃ sup, productSupplier suppliers product = .ok sup ∧
      e.get "currentStock" =
        (if (findPure (stockOf product) inv).truthy
          then (findPure (stockOf product) inv).get "stockLevel" else JsVal.num 0) ∧
      e.get "supplier" = (if sup.truthy then sup else JsVal.null) ∧
      ∀ name, name ≠ "currentStock" → name ≠ "supplier" → e.get name = product.get name := by
  unfold enrichProduct at h
  cases hs : productSupplier suppliers product with
  | error err => simp [hs] at h
  | ok sup =>
    simp only [hs, Except.ok.injEq] at h
    subst h
    refine ⟨sup, rfl, ?_, ?_, ?_⟩
    · simp only [JsVal.get]
      rw [field_setProp_other _ _ _ _ (by decide), field_setProp_same]
    · simp only [JsVal.get]
      rw [field_setProp_same]
    · intro name h₁ h₂
      show JsVal.field _ name = product.get name
      rw [field_setProp_other _ _ _ _ h₂, field_setProp_other _ _ _ _ h₁, field_spreadProps]

theorem mem_of_group (groups : List (String × SupplierGroup)) (enriched : List JsVal)
    (hI : GroupsOf groups enriched) :
    ∀ kg ∈ groups, ∀ e ∈ kg.2.products, e ∈ enriched := by
  intro kg hkg e he
  rw [(hI.2.2 kg hkg).1] at he
  exact (List.mem_filter.mp he).1

/-- C6: in a produced report the enriched products are, one for one and in
the original order, the products whose warehouse reference exists and has an id
loosely equal to the selected id: each enriched product carries the fields of
its source product (all but `currentStock` and `supplier`), `totalProducts` is
the number of those products, and no other product is listed in a group. -/
theorem enrichedProducts_of_selected_warehouse (generatedAt : String)
    (warehouses products inventory suppliers warehouseId : JsVal) (r : Report)
    (hr : generateReport generatedAt warehouses products inventory suppliers warehouseId
      = .ok (some r)) :
    ∃ ps enriched,
      products = JsVal.arr ps ∧
      enrichedProducts products inventory suppliers warehouseId = .ok enriched ∧
      List.Forall₂
        (fun p e => ∀ name, name ≠ "currentStock" → name ≠ "supplier" → e.get name = p.get name)
        (ps.filter (belongsTo warehouseId)) enriched ∧
      r.totalProducts = (ps.filter (belongsTo warehouseId)).length ∧
      (∀ kg ∈ r.productsBySupplier, ∀ e ∈ kg.2.products, e ∈ enriched) := by
  obtain ⟨ws, enriched, _, _, _, he, hg, htot, _, _, _⟩ :=
    generateReport_some generatedAt warehouses products inventory suppliers warehouseId r hr
  obtain ⟨ps, items, hps, _, hall⟩ :=
    enrichedProducts_ok products inventory suppliers warehouseId enriched he
  refine ⟨ps, enriched, hps, he, ?_, ?_, ?_⟩
  · refine hall.imp ?_
    intro p e hpe
    obtain ⟨_, _, _, _, hrest⟩ := enrichProduct_fields _ suppliers p e hpe
    exact hrest
  · rw [htot, hall.length_eq]
  · exact mem_of_group _ _ (productsBySupplier_groupsOf enriched _ hg)

/-- C6 on the sample: of the six products the four of warehouse 5 are
enriched, in their order, and `totalProducts` is 4. -/
theorem enrichedProducts_of_selected_warehouse_witness :
    ∃ ps enriched,
      sampleProducts = JsVal.arr ps ∧
      enrichedProducts sampleProducts sampleInventory sampleSuppliers (JsVal.str "5")
        = .ok enriched ∧
      List.Forall₂
        (fun p e => ∀ name, name ≠ "currentStock" → name ≠ "supplier" → e.get name = p.get name)
        (ps.filter (belongsTo (JsVal.str "5"))) enriched ∧
      (sampleReport "t").totalProducts = (ps.filter (belongsTo (JsVal.str "5"))).length ∧
      (∀ kg ∈ (sampleReport "t").productsBySupplier, ∀ e ∈ kg.2.products, e ∈ enriched) :=
  enrichedProducts_of_selected_warehouse "t" sampleWarehouses sampleProducts sampleInventory
    sampleSuppliers (JsVal.str "5") (sampleReport "t") rfl

/-! ## Stock and supplier of an enriched product -/

theorem truthy_of_belongsTo (warehouseId record : JsVal)
    (h : belongsTo warehouseId record = true) : record.truthy = true := by
  cases record <;> simp [belongsTo, JsVal.get, JsVal.truthy] at h ⊢

theorem currentStock_eq (warehouseId : JsVal) (items : List JsVal) (product : JsVal) :
    (if (findPure (stockOf product) (items.filter (belongsTo warehouseId))).truthy
      then (findPure (stockOf product) (items.filter (belongsTo warehouseId))).get "stockLevel"
      else JsVal.num 0) =
    match firstStockRecord warehouseId items product with
    | some item => item.get "stockLevel"
    | none => JsVal.num 0 := by
  have hfind : (items.filter (belongsTo warehouseId)).find? (stockOf product)
      = firstStockRecord warehouseId items product := by
    rw [List.find?_filter]
    unfold firstStockRecord
    congr 1
    funext item
    simp
  unfold findPure
  rw [hfind]
  cases hq : firstStockRecord warehouseId items product with
  | none => simp [JsVal.truthy]
  | some item =>
    have hp := List.find?_some hq
    have hb : belongsTo warehouseId item = true := by
      simp only [Bool.and_eq_true] at hp
      exact hp.1
    simp [truthy_of_belongsTo warehouseId item hb]

/-- C7: in a produced report the `currentStock` of every enriched product is
the `stockLevel` of the first inventory record, in collection order, that
belongs to the selected warehouse and whose product reference has the id of the
product, and is 0 when there is no such record.  Records of other warehouses
are skipped and the first of several matches is taken. -/
theorem currentStock_of_first_record (generatedAt : String)
    (warehouses products inventory suppliers warehouseId : JsVal) (r : Report)
    (hr : generateReport generatedAt warehouses products inventory suppliers warehouseId
      = .ok (some r)) :
    ∃ ps items enriched,
      products = JsVal.arr ps ∧ inventory = JsVal.arr items ∧
      enrichedProducts products inventory suppliers warehouseId = .ok enriched ∧
      (∀ kg ∈ r.productsBySupplier, ∀ e ∈ kg.2.products, e ∈ enriched) ∧
      List.Forall₂
        (fun p e => e.get "currentStock" =
          match firstStockRecord warehouseId items p with
          | some item => item.get "stockLevel"
          | none => JsVal.num 0)
        (ps.filter (belongsTo warehouseId)) enriched := by
  obtain ⟨ws, enriched, _, _, _, he, hg, _, _, _, _⟩ :=
    generateReport_some generatedAt warehouses products inventory suppliers warehouseId r hr
  obtain ⟨ps, items, hps, hitems, hall⟩ :=
    enrichedProducts_ok products inventory suppliers warehouseId enriched he
  refine ⟨ps, items, enriched, hps, hitems, he,
    mem_of_group _ _ (productsBySupplier_groupsOf enriched _ hg), ?_⟩
  refine hall.imp ?_
  intro p e hpe
  obtain ⟨_, _, hstock, _, _⟩ := enrichProduct_fields _ suppliers p e hpe
  rw [hstock, currentStock_eq]

/-- C7 on the sample: product 1 has a record of 99 in warehouse 6, then
records of 3 and 4 in warehouse 5, and gets 3; product 4 has no record and
gets 0. -/
theorem currentStock_of_first_record_witness :
    (∃ ps items enriched,
      sampleProducts = JsVal.arr ps ∧ sampleInventory = JsVal.arr items ∧
      enrichedProducts sampleProducts sampleInventory sampleSuppliers (JsVal.str "5")
        = .ok enriched ∧
      (∀ kg ∈ (sampleReport "t").productsBySupplier, ∀ e ∈ kg.2.products, e ∈ enriched) ∧
      List.Forall₂
        (fun p e => e.get "currentStock" =
          match firstStockRecord (JsVal.str "5") items p with
          | some item => item.get "stockLevel"
          | none => JsVal.num 0)
        (ps.filter (belongsTo (JsVal.str "5"))) enriched) ∧
    sampleBolt.get "currentStock" = JsVal.num 3 ∧
    sampleCog.get "currentStock" = JsVal.num 0 :=
  ⟨currentStock_of_first_record "t" sampleWarehouses sampleProducts sampleInventory
    sampleSuppliers (JsVal.str "5") (sampleReport "t") rfl, rfl, rfl⟩

theorem suppliedBy_ok (product s : JsVal) (b : Bool) (h : suppliedBy product s = .ok b) :
    b = (s.get "id").strictEq ((product.get "supplier").get "id") := by
  unfold suppliedBy at h
  cases hg : s.getProp "id" with
  | error e => simp [hg] at h
  | ok id =>
    simp only [hg, Except.ok.injEq] at h
    rw [← getProp_ok s "id" id hg, h]

theorem supplier_eq (sups : List JsVal) (product sup : JsVal)
    (hrec : ∀ s ∈ sups, s.isRecord = true)
    (h : productSupplier (JsVal.arr sups) product = .ok sup) :
    (if sup.truthy then sup else JsVal.null) =
      if (product.get "supplier").truthy then
        match firstSupplier sups product with
        | some s => s
        | none => JsVal.null
      else JsVal.null := by
  unfold productSupplier at h
  cases ht : (product.get "supplier").truthy with
  | false =>
    simp only [ht, Bool.false_eq_true, if_false, Except.ok.injEq] at h
    subst h
    simp [JsVal.truthy]
  | true =>
    simp only [ht, if_true, asArray] at h
    have hs := arrayFind_ok _ _ sups sup (suppliedBy_ok product) h
    subst hs
    unfold findPure firstSupplier
    cases hq : sups.find? (fun s => (s.get "id").strictEq ((product.get "supplier").get "id")) with
    | none => simp [JsVal.truthy]
    | some s =>
      have hm := List.mem_of_find?_eq_some hq
      simp [truthy_of_record s (hrec s hm)]

/-- C8: in a produced report, with a supplier collection of records, the
`supplier` of every enriched product is the first supplier of the collection
whose id equals the id of the supplier reference of the product, and is `null`
when the product has no supplier reference or no supplier has that id. -/
theorem supplier_of_first_match (generatedAt : String)
    (warehouses products inventory warehouseId : JsVal) (sups : List JsVal) (r : Report)
    (hr : generateReport generatedAt warehouses products inventory (JsVal.arr sups) warehouseId
      = .ok (some r))
    (hrec : ∀ s ∈ sups, s.isRecord = true) :
    ∃ ps enriched,
      products = JsVal.arr ps ∧
      enrichedProducts products inventory (JsVal.arr sups) warehouseId = .ok enriched ∧
      (∀ kg ∈ r.productsBySupplier, ∀ e ∈ kg.2.products, e ∈ enriched) ∧
      List.Forall₂
        (fun p e => e.get "supplier" =
          if (p.get "supplier").truthy then
            match firstSupplier sups p with
            | some s => s
            | none => JsVal.null
          else JsVal.null)
        (ps.filter (belongsTo warehouseId)) enriched := by
  obtain ⟨ws, enriched, _, _, _, he, hg, _, _, _, _⟩ :=
    generateReport_some generatedAt warehouses products inventory (JsVal.arr sups) warehouseId r hr
  obtain ⟨ps, items, hps, _, hall⟩ :=
    enrichedProducts_ok products inventory (JsVal.arr sups) warehouseId enriched he
  refine ⟨ps, enriched, hps, he, mem_of_group _ _ (productsBySupplier_groupsOf enriched _ hg), ?_⟩
  refine hall.imp ?_
  intro p e hpe
  obtain ⟨sup, hsup, _, hsupplier, _⟩ := enrichProduct_fields _ (JsVal.arr sups) p e hpe
  rw [hsupplier, supplier_eq sups p sup hrec hsup]

/-- C8 on the sample: two suppliers have the id 7 and the first one, Acme, is
taken; product 4 has no supplier reference and product 6 refers to the unknown
supplier 9, both get `null`. -/
theorem supplier_of_first_match_witness :
    (∃ ps enriched,
      sampleProducts = JsVal.arr ps ∧
      enrichedProducts sampleProducts sampleInventory (JsVal.arr sampleSupplierList)
        (JsVal.str "5") = .ok enriched ∧
      (∀ kg ∈ (sampleReport "t").productsBySupplier, ∀ e ∈ kg.2.products, e ∈ enriched) ∧
      List.Forall₂
        (fun p e => e.get "supplier" =
          if (p.get "supplier").truthy then
            match firstSupplier sampleSupplierList p with
            | some s => s
            | none => JsVal.null
          else JsVal.null)
        (ps.filter (belongsTo (JsVal.str "5"))) enriched) ∧
    sampleBolt.get "supplier" = JsVal.obj [("id", JsVal.num 7), ("name", JsVal.str "Acme")] ∧
    sampleCog.get "supplier" = JsVal.null ∧
    sampleRod.get "supplier" = JsVal.null :=
  ⟨supplier_of_first_match "t" sampleWarehouses sampleProducts sampleInventory (JsVal.str "5")
    sampleSupplierList (sampleReport "t") rfl (by decide), rfl, rfl, rfl⟩

/-! ## The groups of a produced report -/

theorem enriched_supplier (inv : List JsVal) (suppliers product e : JsVal)
    (h : enrichProduct inv suppliers product = .ok e) :
    (e.get "supplier").truthy = true ∨ e.get "supplier" = JsVal.null := by
  obtain ⟨sup, _, _, hsup, _⟩ := enrichProduct_fields inv suppliers product e h
  rw [hsup]
  cases ht : sup.truthy with
  | true => left; simp [ht]
  | false => right; simp

theorem forall₂_right {R : JsVal → JsVal → Prop} {P : JsVal → Prop} (xs ys : List JsVal)
    (h : List.Forall₂ R xs ys) (hP : ∀ x y, R x y → P y) : ∀ y ∈ ys, P y := by
  induction h with
  | nil => intro y hy; simp at hy
  | cons hxy _ ih =>
    intro y hy
    rcases List.mem_cons.mp hy with rfl | hy
    · exact hP _ _ hxy
    · exact ih y hy

theorem supplierKey_truthy (e : JsVal) (h : (e.get "supplier").truthy = true) :
    supplierKey e = ((e.get "supplier").get "id").toStr := by
  simp [supplierKey, h]

theorem supplierKey_null (e : JsVal) (h : e.get "supplier" = JsVal.null) :
    supplierKey e = "no-supplier" := by
  simp [supplierKey, h, JsVal.truthy, JsVal.toStr]

theorem supplierLabel_truthy (e : JsVal) (h : (e.get "supplier").truthy = true) :
    supplierLabel e = e.get "supplier" := by
  simp [supplierLabel, h]

theorem supplierLabel_null (e : JsVal) (h : e.get "supplier" = JsVal.null) :
    supplierLabel e = JsVal.obj [("name", JsVal.str "No Supplier")] := by
  simp [supplierLabel, h, JsVal.truthy]

theorem strictEq_eq (a b : JsVal) (h : a.strictEq b = true) : a = b := by
  cases a <;> cases b <;> simp [JsVal.strictEq] at h <;> simp [h]

theorem productSupplier_resolved (sups : List JsVal) (product sup : JsVal)
    (h : productSupplier (JsVal.arr sups) product = .ok sup) (ht : sup.truthy = true) :
    sups.find? (fun s => (s.get "id").strictEq (sup.get "id")) = some sup := by
  unfold productSupplier at h
  cases hp : (product.get "supplier").truthy with
  | false =>
    simp only [hp, Bool.false_eq_true, if_false, Except.ok.injEq] at h
    subst h
    simp [JsVal.truthy] at ht
  | true =>
    simp only [hp, if_true, asArray] at h
    have hs := arrayFind_ok _ _ sups sup (suppliedBy_ok product) h
    unfold findPure at hs
    cases hq : sups.find? (fun s => (s.get "id").strictEq ((product.get "supplier").get "id")) with
    | none =>
      rw [hq] at hs
      subst hs
      simp [JsVal.truthy] at ht
    | some s =>
      rw [hq] at hs
      simp only [Option.getD_some] at hs
      subst hs
      have hq' := List.find?_some hq
      simp only [] at hq'
      rw [strictEq_eq _ _ hq']
      exact hq

theorem enriched_resolved (inv sups : List JsVal) (product e : JsVal)
    (h : enrichProduct inv (JsVal.arr sups) product = .ok e) :
    ((e.get "supplier").truthy = true ∧
      sups.find? (fun s => (s.get "id").strictEq ((e.get "supplier").get "id"))
        = some (e.get "supplier")) ∨
    e.get "supplier" = JsVal.null := by
  obtain ⟨sup, hsup, _, hsupplier, _⟩ := enrichProduct_fields inv (JsVal.arr sups) product e h
  rw [hsupplier]
  cases ht : sup.truthy with
  | true =>
    left
    simp only [if_true]
    exact ⟨ht, productSupplier_resolved sups product sup hsup ht⟩
  | false => right; simp

theorem label_of_member (sups : List JsVal) (hids : UnambiguousIds sups) (e e₀ : JsVal)
    (he : ((e.get "supplier").truthy = true ∧
        sups.find? (fun s => (s.get "id").strictEq ((e.get "supplier").get "id"))
          = some (e.get "supplier")) ∨ e.get "supplier" = JsVal.null)
    (he₀ : ((e₀.get "supplier").truthy = true ∧
        sups.find? (fun s => (s.get "id").strictEq ((e₀.get "supplier").get "id"))
          = some (e₀.get "supplier")) ∨ e₀.get "supplier" = JsVal.null)
    (hkey : supplierKey e = supplierKey e₀) : supplierLabel e₀ = supplierLabel e := by
  rcases he with ⟨ht, hres⟩ | hn
  · rcases he₀ with ⟨ht₀, hres₀⟩ | hn₀
    · rw [supplierKey_truthy e ht, supplierKey_truthy e₀ ht₀] at hkey
      have hm := List.mem_of_find?_eq_some hres
      have hm₀ := List.mem_of_find?_eq_some hres₀
      have hid := strictEq_eq _ _ (hids.1 _ hm _ hm₀ hkey)
      rw [hid, hres₀] at hres
      rw [supplierLabel_truthy e ht, supplierLabel_truthy e₀ ht₀]
      exact Option.some.inj hres
    · rw [supplierKey_truthy e ht, supplierKey_null e₀ hn₀] at hkey
      exact absurd hkey (hids.2 _ (List.mem_of_find?_eq_some hres))
  · rcases he₀ with ⟨ht₀, hres₀⟩ | hn₀
    · rw [supplierKey_null e hn, supplierKey_truthy e₀ ht₀] at hkey
      exact absurd hkey.symm (hids.2 _ (List.mem_of_find?_eq_some hres₀))
    · rw [supplierLabel_null e hn, supplierLabel_null e₀ hn₀]

/-- C9, amended: in a produced report every enriched product is filed under
the key that its resolved supplier's id gives as a property key, or under the
sentinel key `"no-supplier"` when its supplier is `null`.  A group is labelled by the
product that opened it: with the resolved supplier of that product under the
supplier's id, with the placeholder `{name: "No Supplier"}`, which has no id,
under the sentinel; when the supplier ids are unambiguous as keys, this is the
resolved supplier (or the placeholder) of every product of the group.  The
spec's example gives one product, in the sentinel group, with `currentStock` 3
and a low-stock count of 1. -/
theorem products_filed_by_supplier (generatedAt : String)
    (warehouses products inventory suppliers warehouseId : JsVal) (r : Report)
    (hr : generateReport generatedAt warehouses products inventory suppliers warehouseId
      = .ok (some r)) :
    (∃ enriched,
      enrichedProducts products inventory suppliers warehouseId = .ok enriched ∧
      (∀ e ∈ enriched,
        ((e.get "supplier").truthy = true ∧
          ∃ g, r.productsBySupplier.lookup ((e.get "supplier").get "id").toStr = some g ∧
            e ∈ g.products) ∨
        (e.get "supplier" = JsVal.null ∧
          ∃ g, r.productsBySupplier.lookup "no-supplier" = some g ∧ e ∈ g.products)) ∧
      (∀ kg ∈ r.productsBySupplier, ∃ e₀ rest, e₀ ∈ enriched ∧ kg.2.products = e₀ :: rest ∧
        (((e₀.get "supplier").truthy = true ∧ kg.2.supplier = e₀.get "supplier" ∧
            kg.1 = ((e₀.get "supplier").get "id").toStr) ∨
         (e₀.get "supplier" = JsVal.null ∧
            kg.2.supplier = JsVal.obj [("name", JsVal.str "No Supplier")] ∧
            kg.1 = "no-supplier"))) ∧
      (∀ sups, suppliers = JsVal.arr sups → UnambiguousIds sups →
        ∀ kg ∈ r.productsBySupplier, ∀ e ∈ kg.2.products,
          ((e.get "supplier").truthy = true ∧ kg.2.supplier = e.get "supplier") ∨
          (e.get "supplier" = JsVal.null ∧
            kg.2.supplier = JsVal.obj [("name", JsVal.str "No Supplier")]))) ∧
    (JsVal.obj [("name", JsVal.str "No Supplier")]).get "id" = JsVal.undefined ∧
    (∃ r₀ e, generateReport generatedAt exampleWarehouses exampleProducts exampleInventory
        (JsVal.arr []) (JsVal.num 5) = .ok (some r₀) ∧
      r₀.productsBySupplier =
        [("no-supplier", ⟨JsVal.obj [("name", JsVal.str "No Supplier")], [e]⟩)] ∧
      e.get "currentStock" = JsVal.num 3 ∧ e.get "supplier" = JsVal.null ∧
      r₀.totalProducts = 1 ∧ r₀.lowStockProducts = 1) := by
  refine ⟨?_, rfl, ⟨exampleReport generatedAt, _, rfl, rfl, rfl, rfl, rfl, rfl⟩⟩
  obtain ⟨ws, enriched, _, _, _, he, hg, _, _, _, _⟩ :=
    generateReport_some generatedAt warehouses products inventory suppliers warehouseId r hr
  obtain ⟨ps, items, _, _, hall⟩ :=
    enrichedProducts_ok products inventory suppliers warehouseId enriched he
  have hsup : ∀ e ∈ enriched, (e.get "supplier").truthy = true ∨ e.get "supplier" = JsVal.null :=
    forall₂_right _ _ hall (fun p e hpe => enriched_supplier _ suppliers p e hpe)
  obtain ⟨hnd, hcov, hgrp⟩ := productsBySupplier_groupsOf enriched _ hg
  refine ⟨enriched, he, ?_, ?_, ?_⟩
  · intro e he'
    obtain ⟨kg, hkg, hk⟩ := List.mem_map.mp (hcov e he')
    have hlook : r.productsBySupplier.lookup (supplierKey e) = some kg.2 := by
      rw [← hk]
      exact lookup_of_mem_nodup _ kg.1 kg.2 hnd hkg
    have hmem : e ∈ kg.2.products := by
      rw [(hgrp kg hkg).1]
      exact List.mem_filter.mpr ⟨he', by simp [hk]⟩
    rcases hsup e he' with ht | hn
    · left
      refine ⟨ht, kg.2, ?_, hmem⟩
      rw [← supplierKey_truthy e ht]
      exact hlook
    · right
      refine ⟨hn, kg.2, ?_, hmem⟩
      rw [← supplierKey_null e hn]
      exact hlook
  · intro kg hkg
    obtain ⟨hprod, e₀, rest, hfirst, hlabel⟩ := hgrp kg hkg
    have he₀ : e₀ ∈ kg.2.products := by rw [hfirst]; exact List.mem_cons_self _ _
    rw [hprod] at he₀
    obtain ⟨hmem, hkey⟩ := List.mem_filter.mp he₀
    have hkey' : supplierKey e₀ = kg.1 := by simpa using hkey
    refine ⟨e₀, rest, hmem, hfirst, ?_⟩
    rcases hsup e₀ hmem with ht | hn
    · left
      exact ⟨ht, by rw [hlabel, supplierLabel_truthy e₀ ht],
        by rw [← hkey', supplierKey_truthy e₀ ht]⟩
    · right
      exact ⟨hn, by rw [hlabel, supplierLabel_null e₀ hn],
        by rw [← hkey', supplierKey_null e₀ hn]⟩
  · intro sups hs hids kg hkg e hmem
    subst hs
    have hres : ∀ x ∈ enriched,
        ((x.get "supplier").truthy = true ∧
          sups.find? (fun s => (s.get "id").strictEq ((x.get "supplier").get "id"))
            = some (x.get "supplier")) ∨ x.get "supplier" = JsVal.null :=
      forall₂_right _ _ hall (fun p x hpx => enriched_resolved _ sups p x hpx)
    obtain ⟨hprod, e₀, rest, hfirst, hlabel⟩ := hgrp kg hkg
    have he₀ : e₀ ∈ kg.2.products := by rw [hfirst]; exact List.mem_cons_self _ _
    rw [hprod] at he₀ hmem
    obtain ⟨hm₀, hk₀⟩ := List.mem_filter.mp he₀
    obtain ⟨hm, hk⟩ := List.mem_filter.mp hmem
    have hkeys : supplierKey e = supplierKey e₀ := by
      have h₁ : supplierKey e = kg.1 := by simpa using hk
      have h₀ : supplierKey e₀ = kg.1 := by simpa using hk₀
      rw [h₁, h₀]
    have hlab := label_of_member sups hids e e₀ (hres e hm) (hres e₀ hm₀) hkeys
    rw [hlabel, hlab]
    rcases hsup e hm with ht | hn
    · exact Or.inl ⟨ht, supplierLabel_truthy e ht⟩
    · exact Or.inr ⟨hn, supplierLabel_null e hn⟩

/-- C9 amended, on the sample: the products of supplier 7 are filed under `"7"`, a group
labelled Acme, the two products without a resolved supplier under the
sentinel. -/
theorem products_filed_by_supplier_witness :
    (∃ enriched,
      enrichedProducts sampleProducts sampleInventory sampleSuppliers (JsVal.str "5")
        = .ok enriched ∧
      (∀ e ∈ enriched,
        ((e.get "supplier").truthy = true ∧
          ∃ g, (sampleReport "t").productsBySupplier.lookup
              ((e.get "supplier").get "id").toStr = some g ∧ e ∈ g.products) ∨
        (e.get "supplier" = JsVal.null ∧
          ∃ g, (sampleReport "t").productsBySupplier.lookup "no-supplier" = some g ∧
            e ∈ g.products)) ∧
      (∀ kg ∈ (sampleReport "t").productsBySupplier,
        ∃ e₀ rest, e₀ ∈ enriched ∧ kg.2.products = e₀ :: rest ∧
        (((e₀.get "supplier").truthy = true ∧ kg.2.supplier = e₀.get "supplier" ∧
            kg.1 = ((e₀.get "supplier").get "id").toStr) ∨
         (e₀.get "supplier" = JsVal.null ∧
            kg.2.supplier = JsVal.obj [("name", JsVal.str "No Supplier")] ∧
            kg.1 = "no-supplier"))) ∧
      (∀ sups, sampleSuppliers = JsVal.arr sups → UnambiguousIds sups →
        ∀ kg ∈ (sampleReport "t").productsBySupplier, ∀ e ∈ kg.2.products,
          ((e.get "supplier").truthy = true ∧ kg.2.supplier = e.get "supplier") ∨
          (e.get "supplier" = JsVal.null ∧
            kg.2.supplier = JsVal.obj [("name", JsVal.str "No Supplier")]))) ∧
    UnambiguousIds sampleSupplierList ∧
    (sampleReport "t").productsBySupplier.map Prod.fst = ["7", "no-supplier"] :=
  ⟨(products_filed_by_supplier "t" sampleWarehouses sampleProducts sampleInventory
    sampleSuppliers (JsVal.str "5") (sampleReport "t") rfl).1,
   by unfold UnambiguousIds; decide, rfl⟩

theorem sum_indicator (ks : List String) (k : String) (hnd : ks.Nodup) (hk : k ∈ ks) :
    (ks.map (fun k' => if k = k' then 1 else 0)).sum = 1 := by
  induction ks with
  | nil => simp at hk
  | cons a rest ih =>
    simp only [List.nodup_cons] at hnd
    simp only [List.map_cons, List.sum_cons]
    by_cases h : k = a
    · subst h
      have hzero : (rest.map (fun k' => if k = k' then 1 else 0)).sum = 0 := by
        apply List.sum_eq_zero
        intro x hx
        obtain ⟨k', hk', rfl⟩ := List.mem_map.mp hx
        have : k ≠ k' := fun he => hnd.1 (he ▸ hk')
        simp [this]
      simp [hzero]
    · have hk' : k ∈ rest := by
        rcases List.mem_cons.mp hk with h' | h'
        · exact absurd h' h
        · exact h'
      simp [h, ih hnd.2 hk']

theorem sum_class_sizes (key : JsVal → String) (ks : List String) (hnd : ks.Nodup)
    (seen : List JsVal) (hcov : ∀ e ∈ seen, key e ∈ ks) :
    (ks.map (fun k => (seen.filter (fun e => key e == k)).length)).sum = seen.length := by
  induction seen with
  | nil => simp
  | cons e rest ih =>
    have hsplit : ∀ k, ((e :: rest).filter (fun x => key x == k)).length =
        (if key e = k then 1 else 0) + (rest.filter (fun x => key x == k)).length := by
      intro k
      by_cases h : key e = k
      · simp [List.filter, h]; omega
      · have hb : (key e == k) = false := by simpa using h
        simp [List.filter, h, hb]
    simp only [hsplit, List.sum_map_add]
    rw [sum_indicator ks (key e) hnd (hcov e (List.mem_cons_self _ _)),
      ih (fun x hx => hcov x (List.mem_cons_of_mem _ hx))]
    simp only [List.length_cons]
    omega

/-- C10: in a produced report the product list of every group is exactly the
sub-sequence, in encounter order, of the enriched products filed under the key
of that group.  Hence no group is empty, the keys are pairwise distinct, every
enriched product is in one and only one group, and the sizes of the groups add
up to `totalProducts`. -/
theorem groups_partition_products (generatedAt : String)
    (warehouses products inventory suppliers warehouseId : JsVal) (r : Report)
    (hr : generateReport generatedAt warehouses products inventory suppliers warehouseId
      = .ok (some r)) :
    ∃ enriched,
      enrichedProducts products inventory suppliers warehouseId = .ok enriched ∧
      (∀ kg ∈ r.productsBySupplier,
        kg.2.products = enriched.filter (fun e => supplierKey e == kg.1) ∧
        kg.2.products ≠ []) ∧
      (r.productsBySupplier.map Prod.fst).Nodup ∧
      (∀ e ∈ enriched, ∃ kg ∈ r.productsBySupplier, e ∈ kg.2.products ∧
        ∀ kg' ∈ r.productsBySupplier, e ∈ kg'.2.products → kg' = kg) ∧
      (r.productsBySupplier.map (fun kg => kg.2.products.length)).sum = r.totalProducts := by
  obtain ⟨ws, enriched, _, _, _, he, hg, htot, _, _, _⟩ :=
    generateReport_some generatedAt warehouses products inventory suppliers warehouseId r hr
  obtain ⟨hnd, hcov, hgrp⟩ := productsBySupplier_groupsOf enriched _ hg
  refine ⟨enriched, he, ?_, hnd, ?_, ?_⟩
  · intro kg hkg
    obtain ⟨hprod, e₀, rest, hfirst, _⟩ := hgrp kg hkg
    exact ⟨hprod, by rw [hfirst]; exact List.cons_ne_nil _ _⟩
  · intro e he'
    obtain ⟨kg, hkg, hk⟩ := List.mem_map.mp (hcov e he')
    refine ⟨kg, hkg, ?_, ?_⟩
    · rw [(hgrp kg hkg).1]
      exact List.mem_filter.mpr ⟨he', by simp [hk]⟩
    · intro kg' hkg' hmem
      rw [(hgrp kg' hkg').1] at hmem
      have hk' : supplierKey e = kg'.1 := by simpa using (List.mem_filter.mp hmem).2
      exact List.inj_on_of_nodup_map hnd hkg' hkg (by rw [← hk', hk])
  · have hlen : r.productsBySupplier.map (fun kg => kg.2.products.length) =
        (r.productsBySupplier.map Prod.fst).map
          (fun k => (enriched.filter (fun e => supplierKey e == k)).length) := by
      rw [List.map_map]
      apply List.map_congr_left
      intro kg hkg
      simp [(hgrp kg hkg).1]
    rw [hlen, sum_class_sizes supplierKey _ hnd enriched hcov, htot]

/-- C10 on the sample: two groups of two products each, four products in
all. -/
theorem groups_partition_products_witness :
    (∃ enriched,
      enrichedProducts sampleProducts sampleInventory sampleSuppliers (JsVal.str "5")
        = .ok enriched ∧
      (∀ kg ∈ (sampleReport "t").productsBySupplier,
        kg.2.products = enriched.filter (fun e => supplierKey e == kg.1) ∧
        kg.2.products ≠ []) ∧
      ((sampleReport "t").productsBySupplier.map Prod.fst).Nodup ∧
      (∀ e ∈ enriched, ∃ kg ∈ (sampleReport "t").productsBySupplier, e ∈ kg.2.products ∧
        ∀ kg' ∈ (sampleReport "t").productsBySupplier, e ∈ kg'.2.products → kg' = kg) ∧
      ((sampleReport "t").productsBySupplier.map (fun kg => kg.2.products.length)).sum
        = (sampleReport "t").totalProducts) ∧
    (sampleReport "t").productsBySupplier.map (fun kg => kg.2.products.length) = [2, 2] :=
  ⟨groups_partition_products "t" sampleWarehouses sampleProducts sampleInventory
    sampleSuppliers (JsVal.str "5") (sampleReport "t") rfl, rfl⟩

/-! ## A report is produced on well-formed collections -/

theorem arrayFilter_pure (p : JsVal → Except JsError Bool) (q : JsVal → Bool) (xs : List JsVal)
    (h : ∀ x ∈ xs, p x = .ok (q x)) : arrayFilter p xs = .ok (xs.filter q) := by
  induction xs with
  | nil => rfl
  | cons x rest ih =>
    have hx := h x (List.mem_cons_self _ _)
    have ih' := ih (fun y hy => h y (List.mem_cons_of_mem _ hy))
    unfold arrayFilter
    rw [hx, ih']
    cases hq : q x <;> simp [List.filter, hq]

theorem arrayMap_total (f : JsVal → Except JsError JsVal) (xs : List JsVal)
    (h : ∀ x ∈ xs, ∃ y, f x = .ok y) : ∃ ys, arrayMap f xs = .ok ys := by
  induction xs with
  | nil => exact ⟨[], rfl⟩
  | cons x rest ih =>
    obtain ⟨y, hy⟩ := h x (List.mem_cons_self _ _)
    obtain ⟨ys, hys⟩ := ih (fun z hz => h z (List.mem_cons_of_mem _ hz))
    exact ⟨y :: ys, by simp [arrayMap, hy, hys]⟩

theorem inWarehouse_of_record (warehouseId record : JsVal) (h : record.isRecord = true) :
    inWarehouse warehouseId record = .ok (belongsTo warehouseId record) := by
  simp [inWarehouse, getProp_of_record record "warehouse" h, belongsTo]

theorem suppliedBy_of_record (product s : JsVal) (h : s.isRecord = true) :
    suppliedBy product s = .ok ((s.get "id").strictEq ((product.get "supplier").get "id")) := by
  simp [suppliedBy, getProp_of_record s "id" h]

theorem productSupplier_of_records (sups : List JsVal) (product : JsVal)
    (hrec : ∀ s ∈ sups, s.isRecord = true) :
    ∃ sup, productSupplier (JsVal.arr sups) product = .ok sup ∧
      (sup.truthy = true → sup ∈ sups) := by
  unfold productSupplier
  cases ht : (product.get "supplier").truthy with
  | false => exact ⟨JsVal.null, by simp, by simp [JsVal.truthy]⟩
  | true =>
    simp only [if_true, asArray]
    rw [arrayFind_pure _ _ sups (fun s hs => suppliedBy_of_record product s (hrec s hs))]
    refine ⟨_, rfl, ?_⟩
    unfold findPure
    cases hq : sups.find? (fun s => (s.get "id").strictEq ((product.get "supplier").get "id")) with
    | none => simp [JsVal.truthy]
    | some s =>
      intro _
      exact List.mem_of_find?_eq_some hq

theorem fileProducts_total (es : List JsVal)
    (h : ∀ e ∈ es, supplierKey e ∉ objectPrototypeKeys) :
    ∀ groups, ∃ groups', fileProducts groups es = .ok groups' := by
  induction es with
  | nil => intro groups; exact ⟨groups, rfl⟩
  | cons e rest ih =>
    intro groups
    have he := h e (List.mem_cons_self _ _)
    have hstep : ∃ mid, fileProduct groups e = .ok mid := by
      unfold fileProduct
      cases groups.lookup (supplierKey e) with
      | some g => exact ⟨_, rfl⟩
      | none => exact ⟨_, by rw [if_neg he]⟩
    obtain ⟨mid, hmid⟩ := hstep
    obtain ⟨groups', hg⟩ := ih (fun x hx => h x (List.mem_cons_of_mem _ hx)) mid
    exact ⟨groups', by simp [fileProducts, hmid, hg]⟩

/-- On collections of records, with a warehouse whose id is loosely equal to
the selection and no supplier id that reads as a property inherited from
`Object.prototype`, `generateReport` produces a report. -/
theorem generateReport_returns (generatedAt : String) (ws ps items sups : List JsVal)
    (warehouseId : JsVal)
    (hws : ∀ w ∈ ws, w.isRecord = true) (hps : ∀ p ∈ ps, p.isRecord = true)
    (hitems : ∀ i ∈ items, i.isRecord = true) (hsups : ∀ s ∈ sups, s.isRecord = true)
    (hkeys : ∀ s ∈ sups, (s.get "id").toStr ∉ objectPrototypeKeys)
    (hsel : ∃ w ∈ ws, (w.get "id").looseEq warehouseId = true) :
    ∃ r, generateReport generatedAt (JsVal.arr ws) (JsVal.arr ps) (JsVal.arr items)
      (JsVal.arr sups) warehouseId = .ok (some r) := by
  have hfind := arrayFind_pure (hasId warehouseId)
    (fun w => (w.get "id").looseEq warehouseId) ws
    (fun w hw => hasId_of_record warehouseId w (hws w hw))
  cases hq : ws.find? (fun w => (w.get "id").looseEq warehouseId) with
  | none =>
    obtain ⟨w, hw, hwq⟩ := hsel
    have := List.find?_eq_none.mp hq w hw
    exact absurd hwq this
  | some w =>
    have hw : w ∈ ws := List.mem_of_find?_eq_some hq
    have hfw : arrayFind (hasId warehouseId) ws = .ok w := by
      rw [hfind]; simp [findPure, hq]
    rw [generateReport_of_found generatedAt ws _ _ _ warehouseId w hfw
      (truthy_of_record w (hws w hw))]
    have hP : warehouseProducts (JsVal.arr ps) warehouseId
        = .ok (ps.filter (belongsTo warehouseId)) := by
      simp only [warehouseProducts, asArray]
      exact arrayFilter_pure _ _ ps (fun p hp => inWarehouse_of_record warehouseId p (hps p hp))
    have hI : warehouseInventory (JsVal.arr items) warehouseId
        = .ok (items.filter (belongsTo warehouseId)) := by
      simp only [warehouseInventory, asArray]
      exact arrayFilter_pure _ _ items
        (fun i hi => inWarehouse_of_record warehouseId i (hitems i hi))
    have hE : ∀ p ∈ ps.filter (belongsTo warehouseId),
        ∃ e, enrichProduct (items.filter (belongsTo warehouseId)) (JsVal.arr sups) p = .ok e := by
      intro p _
      obtain ⟨sup, hsup, _⟩ := productSupplier_of_records sups p hsups
      exact ⟨_, by unfold enrichProduct; rw [hsup]⟩
    obtain ⟨enriched, hmap⟩ := arrayMap_total _ _ hE
    have henr : enrichedProducts (JsVal.arr ps) (JsVal.arr items) (JsVal.arr sups) warehouseId
        = .ok enriched := by
      simp [enrichedProducts, hP, hI, hmap]
    have hkey : ∀ e ∈ enriched, supplierKey e ∉ objectPrototypeKeys := by
      refine forall₂_right _ _ (arrayMap_ok _ _ _ hmap) ?_
      intro p e hpe
      obtain ⟨sup, hsup, _, hsupplier, _⟩ := enrichProduct_fields _ _ p e hpe
      obtain ⟨sup', hsup', hmem⟩ := productSupplier_of_records sups p hsups
      rw [hsup] at hsup'
      cases hsup'
      cases ht : sup.truthy with
      | true =>
        have he : e.get "supplier" = sup := by rw [hsupplier]; simp [ht]
        rw [supplierKey_truthy e (by rw [he]; exact ht), he]
        exact hkeys sup (hmem ht)
      | false =>
        have he : e.get "supplier" = JsVal.null := by rw [hsupplier]; simp [ht]
        rw [supplierKey_null e he]
        decide
    obtain ⟨groups, hgroups⟩ := fileProducts_total enriched hkey []
    have hgroups' : productsBySupplier enriched = .ok groups := hgroups
    exact ⟨_, by rw [henr]; simp only []; rw [hgroups']⟩

/-- The hypothesis on supplier ids in `generateReport_returns` is needed: with
a supplier whose id is the string `"constructor"` the lookup
`productsBySupplier[supplierId]` finds the inherited `Object` function, no group
is created, and `.products.push` raises. -/
theorem generateReport_inherited_key_raises :
    generateReport "t" exampleWarehouses
      (JsVal.arr [JsVal.obj [("id", JsVal.num 1), ("warehouse", JsVal.obj [("id", JsVal.num 5)]),
        ("supplier", JsVal.obj [("id", JsVal.str "constructor")])]])
      exampleInventory
      (JsVal.arr [JsVal.obj [("id", JsVal.str "constructor"), ("name", JsVal.str "X")]])
      (JsVal.num 5) = .error .typeError := rfl

/-! ## Iteration order of the groups -/

theorem fileProduct_keys (groups groups' : List (String × SupplierGroup)) (product : JsVal)
    (h : fileProduct groups product = .ok groups') :
    groups'.map Prod.fst =
      if supplierKey product ∈ groups.map Prod.fst then groups.map Prod.fst
      else groups.map Prod.fst ++ [supplierKey product] := by
  unfold fileProduct at h
  cases hl : groups.lookup (supplierKey product) with
  | some g =>
    simp only [hl, Except.ok.injEq] at h
    subst h
    have hk : supplierKey product ∈ groups.map Prod.fst :=
      (lookup_isSome_iff groups _).mp (by simp [hl])
    rw [pushProduct_keys, if_pos hk]
  | none =>
    have hk : supplierKey product ∉ groups.map Prod.fst := (lookup_none_iff groups _).mp hl
    simp only [hl] at h
    by_cases hp : supplierKey product ∈ objectPrototypeKeys
    · simp [hp] at h
    · simp only [hp, if_false, Except.ok.injEq] at h
      subst h
      rw [if_neg hk]
      simp

theorem fileProducts_keys (es : List JsVal) :
    ∀ (groups groups' : List (String × SupplierGroup)),
      fileProducts groups es = .ok groups' →
      groups'.map Prod.fst =
        (es.map supplierKey).foldl (fun seen k => if k ∈ seen then seen else seen ++ [k])
          (groups.map Prod.fst) := by
  induction es with
  | nil =>
    intro groups groups' h
    simp only [fileProducts, Except.ok.injEq] at h
    subst h
    rfl
  | cons e rest ih =>
    intro groups groups' h
    unfold fileProducts at h
    cases hf : fileProduct groups e with
    | error err => simp [hf] at h
    | ok mid =>
      simp only [hf] at h
      rw [ih mid groups' h, fileProduct_keys groups mid e hf]
      rfl

theorem productsBySupplier_keys (enriched : List JsVal)
    (groups : List (String × SupplierGroup)) (h : productsBySupplier enriched = .ok groups) :
    groups.map Prod.fst = firstEncounters (enriched.map supplierKey) :=
  fileProducts_keys enriched [] groups h

theorem forall₂_lookup {β : Type} (props : List (String × β)) (ks : List String)
    (h : ∀ k ∈ ks, k ∈ props.map Prod.fst) :
    List.Forall₂ (fun k v => props.lookup k = some v) ks (ks.filterMap (fun k => props.lookup k)) := by
  induction ks with
  | nil => exact List.Forall₂.nil
  | cons k rest ih =>
    have hk := (lookup_isSome_iff props k).mpr (h k (List.mem_cons_self _ _))
    cases hl : props.lookup k with
    | none => simp [hl] at hk
    | some v =>
      simp only [List.filterMap_cons, hl]
      exact List.Forall₂.cons hl (ih (fun x hx => h x (List.mem_cons_of_mem _ hx)))

theorem filterMap_lookup_keys {β : Type} (props l : List (String × β))
    (h : ∀ p ∈ l, props.lookup p.1 = some p.2) :
    (l.map Prod.fst).filterMap (fun k => props.lookup k) = l.map Prod.snd := by
  induction l with
  | nil => rfl
  | cons p rest ih =>
    simp only [List.map_cons, List.filterMap_cons, h p (List.mem_cons_self _ _)]
    rw [ih (fun q hq => h q (List.mem_cons_of_mem _ hq))]

theorem objectValues_of_no_index {β : Type} (props : List (String × β))
    (hnd : (props.map Prod.fst).Nodup) (hidx : ∀ k ∈ props.map Prod.fst, arrayIndex? k = none) :
    objectValues props = props.map Prod.snd := by
  unfold objectValues
  rw [ownKeys_of_no_index props
    (fun p hp => hidx p.1 (List.mem_map.mpr ⟨p, hp, rfl⟩))]
  exact filterMap_lookup_keys props props
    (fun p hp => lookup_of_mem_nodup props p.1 p.2 hnd hp)

/-- C11, counterexample: in the catalogue a product without supplier comes
first, then suppliers 9 and 7.  The groups are created in that order, but
`Object.values` visits the group `"7"`, then `"9"`, then the sentinel group. -/
theorem groups_first_encounter_order_fails :
    generateReport "t" catalogWarehouses catalogProducts catalogInventory catalogSuppliers
      (JsVal.str "5") = .ok (some (catalogReport "t")) ∧
    enrichedProducts catalogProducts catalogInventory catalogSuppliers (JsVal.str "5")
      = .ok catalogEnriched ∧
    firstEncounters (catalogEnriched.map supplierKey) = ["no-supplier", "9", "7"] ∧
    ownKeys (catalogReport "t").productsBySupplier = ["7", "9", "no-supplier"] ∧
    (objectValues (catalogReport "t").productsBySupplier).map
      (fun g => (g.supplier.get "name").toStr) = ["Acme", "Zenith", "No Supplier"] ∧
    ownKeys (catalogReport "t").productsBySupplier
      ≠ firstEncounters (catalogEnriched.map supplierKey) := by
  refine ⟨rfl, rfl, by decide, by decide, by decide, by decide⟩

/-- C11, amended: in a produced report the groups are created in the order in
which their first product is encountered, and they are iterated (by
`Object.values`, for display and for export) in key enumeration order: the
groups whose key is an array index, that is a non-negative integer supplier
id, in ascending numeric order, then the other groups, the sentinel group
among them, in first-encounter order.  When no key is an array index the
iteration order is the first-encounter order. -/
theorem groups_iterated_in_key_order (generatedAt : String)
    (warehouses products inventory suppliers warehouseId : JsVal) (r : Report)
    (hr : generateReport generatedAt warehouses products inventory suppliers warehouseId
      = .ok (some r)) :
    ∃ enriched,
      enrichedProducts products inventory suppliers warehouseId = .ok enriched ∧
      r.productsBySupplier.map Prod.fst = firstEncounters (enriched.map supplierKey) ∧
      ownKeys r.productsBySupplier =
        ((indexedKeys r.productsBySupplier).insertionSort (fun a b => a.1 ≤ b.1)).map Prod.snd ++
          (firstEncounters (enriched.map supplierKey)).filter
            (fun k => (arrayIndex? k).isNone) ∧
      ((indexedKeys r.productsBySupplier).insertionSort (fun a b => a.1 ≤ b.1)).Sorted
        (fun a b => a.1 ≤ b.1) ∧
      List.Forall₂ (fun k g => r.productsBySupplier.lookup k = some g)
        (ownKeys r.productsBySupplier) (objectValues r.productsBySupplier) ∧
      ((∀ k ∈ r.productsBySupplier.map Prod.fst, arrayIndex? k = none) →
        objectValues r.productsBySupplier = r.productsBySupplier.map Prod.snd) := by
  obtain ⟨ws, enriched, _, _, _, he, hg, _, _, _, _⟩ :=
    generateReport_some generatedAt warehouses products inventory suppliers warehouseId r hr
  have hkeys := productsBySupplier_keys enriched _ hg
  obtain ⟨hnd, _, _⟩ := productsBySupplier_groupsOf enriched _ hg
  refine ⟨enriched, he, hkeys, ?_, ?_, ?_, ?_⟩
  · rw [← hkeys]
    rfl
  · haveI : IsTotal (Nat × String) (fun a b => a.1 ≤ b.1) := ⟨fun a b => Nat.le_total a.1 b.1⟩
    haveI : IsTrans (Nat × String) (fun a b => a.1 ≤ b.1) :=
      ⟨fun _ _ _ hab hbc => Nat.le_trans hab hbc⟩
    exact List.sorted_insertionSort _ _
  · exact forall₂_lookup _ _ (fun k hk => (mem_ownKeys _ k).mp hk)
  · intro hidx
    exact objectValues_of_no_index _ hnd hidx

/-- C11 amended, on the catalogue: the keys are `"no-supplier"`, `"9"`, `"7"` in
creation order and the groups are iterated as `"7"`, `"9"`, `"no-supplier"`. -/
theorem groups_iterated_in_key_order_witness :
    (∃ enriched,
      enrichedProducts catalogProducts catalogInventory catalogSuppliers (JsVal.str "5")
        = .ok enriched ∧
      (catalogReport "t").productsBySupplier.map Prod.fst
        = firstEncounters (enriched.map supplierKey) ∧
      ownKeys (catalogReport "t").productsBySupplier =
        ((indexedKeys (catalogReport "t").productsBySupplier).insertionSort
            (fun a b => a.1 ≤ b.1)).map Prod.snd ++
          (firstEncounters (enriched.map supplierKey)).filter
            (fun k => (arrayIndex? k).isNone) ∧
      ((indexedKeys (catalogReport "t").productsBySupplier).insertionSort
        (fun a b => a.1 ≤ b.1)).Sorted (fun a b => a.1 ≤ b.1) ∧
      List.Forall₂ (fun k g => (catalogReport "t").productsBySupplier.lookup k = some g)
        (ownKeys (catalogReport "t").productsBySupplier)
        (objectValues (catalogReport "t").productsBySupplier) ∧
      ((∀ k ∈ (catalogReport "t").productsBySupplier.map Prod.fst, arrayIndex? k = none) →
        objectValues (catalogReport "t").productsBySupplier
          = (catalogReport "t").productsBySupplier.map Prod.snd)) ∧
    ownKeys (catalogReport "t").productsBySupplier = ["7", "9", "no-supplier"] :=
  ⟨groups_iterated_in_key_order "t" catalogWarehouses catalogProducts catalogInventory
    catalogSuppliers (JsVal.str "5") (catalogReport "t") rfl, by decide⟩

/-! ## Summary figures -/

theorem toNumber_or_zero (v : JsVal) (h : v.isCount = true) :
    (if v.truthy then v else JsVal.num 0).toNumber = JsNumber.fin (amount v) 0 := by
  cases v with
  | num n =>
    by_cases hn : n = 0
    · subst hn; rfl
    · simp [JsVal.truthy, hn, JsVal.toNumber, amount]
  | undefined => rfl
  | _ => simp [JsVal.isCount] at h

/-! ## Rounding to the nearest double -/

theorem bitLengthAux_le (fuel : Nat) :
    ∀ (n k : Nat), n < 2 ^ k → bitLengthAux fuel n ≤ k := by
  induction fuel with
  | zero => intro n k _; simp [bitLengthAux]
  | succ fuel ih =>
    intro n k h
    unfold bitLengthAux
    by_cases hn : n = 0
    · simp [hn]
    · simp only [hn, if_false]
      cases k with
      | zero => simp at h; exact absurd h hn
      | succ k =>
        have : n / 2 < 2 ^ k := by
          rw [Nat.pow_succ] at h
          omega
        have := ih (n / 2) k this
        omega

theorem bitLength_le (n k : Nat) (h : n < 2 ^ k) : bitLength n ≤ k :=
  bitLengthAux_le n n k h

theorem toDouble_int (n : Int) (h : n.natAbs ≤ 2 ^ 53) :
    (JsNumber.fin n 0).toDouble = JsNumber.fin n 0 := by
  unfold JsNumber.toDouble
  by_cases hn : n = 0
  · simp [hn]
  · have hb : bitLength n.natAbs ≤ 54 := bitLength_le _ 54 (by omega)
    have hone : bitLength 1 = 1 := rfl
    simp only [hn, if_false, le_refl, if_true, Int.toNat_zero, pow_zero, mul_one]
    have hcases : lastPlace n.natAbs 1 < 0 ∨ lastPlace n.natAbs 1 = 0 ∨
        (lastPlace n.natAbs 1 = 1 ∧ twoPowLe 53 n.natAbs 1 = true) := by
      unfold lastPlace
      simp only [hone, Int.ofNat_eq_coe, Nat.cast_one]
      by_cases hk : ((bitLength n.natAbs : Int) - 1) = 53
      · rw [hk]
        cases ht : twoPowLe 53 n.natAbs 1 with
        | true => right; right; simp
        | false => right; left; simp
      · split <;> omega
    have hmod : (if 0 ≤ lastPlace n.natAbs 1 then n.natAbs
          else n.natAbs * 2 ^ (-lastPlace n.natAbs 1).toNat) %
        (if 0 ≤ lastPlace n.natAbs 1 then 1 * 2 ^ (lastPlace n.natAbs 1).toNat else 1) = 0 := by
      rcases hcases with hneg | hz | ⟨h1, htwo⟩
      · have h0 : ¬ 0 ≤ lastPlace n.natAbs 1 := by omega
        simp only [h0, if_false]
        exact Nat.mod_one _
      · rw [hz]
        simp only [le_refl, if_true, Int.toNat_zero, pow_zero, mul_one]
        exact Nat.mod_one _
      · have hp : 2 ^ 53 ≤ n.natAbs := by
          simpa [twoPowLe] using htwo
        have hp' : n.natAbs = 2 ^ 53 := by omega
        rw [h1, hp']
        decide
    have hover : ¬ (971 < lastPlace n.natAbs 1 ∨ (lastPlace n.natAbs 1 = 971 ∧
        2 ^ 53 ≤ roundHalfEven
          (if 0 ≤ lastPlace n.natAbs 1 then n.natAbs
            else n.natAbs * 2 ^ (-lastPlace n.natAbs 1).toNat)
          (if 0 ≤ lastPlace n.natAbs 1 then 1 * 2 ^ (lastPlace n.natAbs 1).toNat else 1))) := by
      rintro (h' | ⟨h', _⟩) <;> omega
    rw [if_neg hover, if_pos hmod]

theorem mul_int (a b : Int) (h : (a * b).natAbs ≤ 2 ^ 53) :
    (JsNumber.fin a 0).mul (JsNumber.fin b 0) = JsNumber.fin (a * b) 0 := by
  show (JsNumber.fin (a * b) (0 + 0)).toDouble = _
  exact toDouble_int _ h

theorem add_int (s x : Int) (h : (s + x).natAbs ≤ 2 ^ 53) :
    (JsNumber.fin s 0).add (JsNumber.fin x 0) = JsNumber.fin (s + x) 0 := by
  show (JsNumber.fin ((JsNumber.align s 0 x 0).1 + (JsNumber.align s 0 x 0).2)
    (min 0 0)).toDouble = _
  have ha : JsNumber.align s 0 x 0 = (s, x) := by
    simp [JsNumber.align]
  rw [ha]
  exact toDouble_int _ h

theorem addStockValue_int (s : Int) (e : JsVal)
    (hp : (e.get "price").isCount = true) (hs : (e.get "currentStock").isCount = true)
    (hprod : (amount (e.get "price") * amount (e.get "currentStock")).natAbs ≤ 2 ^ 53)
    (hsum : (s + amount (e.get "price") * amount (e.get "currentStock")).natAbs ≤ 2 ^ 53) :
    addStockValue (JsNumber.fin s 0) e =
      JsNumber.fin (s + amount (e.get "price") * amount (e.get "currentStock")) 0 := by
  unfold addStockValue
  simp only [toNumber_or_zero _ hp, toNumber_or_zero _ hs]
  rw [mul_int _ _ hprod, add_int _ _ hsum]

theorem foldl_addStockValue_int (es : List JsVal)
    (h : ∀ e ∈ es, (e.get "price").isCount = true ∧ (e.get "currentStock").isCount = true) :
    ∀ s : Int, s.natAbs + stockMagnitude es ≤ 2 ^ 53 →
      es.foldl addStockValue (JsNumber.fin s 0) = JsNumber.fin (s + exactStockValue es) 0 := by
  induction es with
  | nil => intro s _; simp [exactStockValue]
  | cons e rest ih =>
    intro s hbound
    obtain ⟨hp, hs⟩ := h e (List.mem_cons_self _ _)
    have hmag : stockMagnitude (e :: rest) =
        (amount (e.get "price") * amount (e.get "currentStock")).natAbs + stockMagnitude rest := by
      simp [stockMagnitude]
    have hex : exactStockValue (e :: rest) =
        amount (e.get "price") * amount (e.get "currentStock") + exactStockValue rest := by
      simp [exactStockValue]
    rw [hmag] at hbound
    have htri := Int.natAbs_add_le s (amount (e.get "price") * amount (e.get "currentStock"))
    rw [List.foldl_cons, addStockValue_int s e hp hs (by omega) (by omega),
      ih (fun x hx => h x (List.mem_cons_of_mem _ hx)) _ (by omega), hex, Int.add_assoc]

theorem lineValue_no_price (e : JsVal) (hp : e.get "price" = JsVal.undefined)
    (hs : (e.get "currentStock").isCount = true) :
    lineValue e = JsNumber.fin 0 0 ∧
    ∀ s : Int, s.natAbs ≤ 2 ^ 53 → addStockValue (JsNumber.fin s 0) e = JsNumber.fin s 0 := by
  have hpc : (e.get "price").isCount = true := by rw [hp]; rfl
  have ha : amount (e.get "price") = 0 := by rw [hp]; rfl
  constructor
  · unfold lineValue
    rw [toNumber_or_zero _ hpc, toNumber_or_zero _ hs, ha, mul_int _ _ (by simp)]
    simp
  · intro s hsb
    rw [addStockValue_int s e hpc hs (by simp [ha]) (by simpa [ha] using hsb), ha]
    simp

/-- C12, counterexample: one product with the price 94906267 and a stock of
94906267.  The exact product is 9007199515875289; the report carries
9007199515875288, the double nearest to it. -/
theorem totalStockValue_not_exact_sum :
    generateReport "t" exampleWarehouses bigPriceProducts bigPriceInventory (JsVal.arr [])
      (JsVal.num 5) = .ok (some (bigPriceReport "t")) ∧
    enrichedProducts bigPriceProducts bigPriceInventory (JsVal.arr []) (JsVal.num 5)
      = .ok [bigPriceEnriched] ∧
    (bigPriceReport "t").totalStockValue = JsNumber.fin 9007199515875288 0 ∧
    exactStockValue [bigPriceEnriched] = 9007199515875289 ∧
    (bigPriceReport "t").totalStockValue.eq (JsNumber.fin (exactStockValue [bigPriceEnriched]) 0)
      = false :=
  ⟨rfl, rfl, rfl, by decide, by decide⟩

/-- C12, amended: `totalStockValue` of a produced report is the sum, taken
from 0 in the order of the enriched products and in double-precision
arithmetic, of price times current stock, an absent price and an absent stock
counting as 0.  When prices and stocks are integers or absent and the
magnitudes of the products add up to at most `2 ^ 53`, it is the exact sum.  A
product without a price (its stock an integer or absent) has the value 0 and
leaves the running total as it is, and a report without products has the
value 0. -/
theorem totalStockValue_is_sum (generatedAt : String)
    (warehouses products inventory suppliers warehouseId : JsVal) (r : Report)
    (hr : generateReport generatedAt warehouses products inventory suppliers warehouseId
      = .ok (some r)) :
    ∃ enriched,
      enrichedProducts products inventory suppliers warehouseId = .ok enriched ∧
      r.totalStockValue = (enriched.map lineValue).foldl JsNumber.add (JsNumber.fin 0 0) ∧
      ((∀ e ∈ enriched,
          (e.get "price").isCount = true ∧ (e.get "currentStock").isCount = true) →
        stockMagnitude enriched ≤ 2 ^ 53 →
        r.totalStockValue = JsNumber.fin (exactStockValue enriched) 0) ∧
      (∀ e ∈ enriched, e.get "price" = JsVal.undefined →
        (e.get "currentStock").isCount = true →
        lineValue e = JsNumber.fin 0 0 ∧
        ∀ s : Int, s.natAbs ≤ 2 ^ 53 →
          addStockValue (JsNumber.fin s 0) e = JsNumber.fin s 0) ∧
      (enriched = [] → r.totalStockValue = JsNumber.fin 0 0) := by
  obtain ⟨ws, enriched, _, _, _, he, _, _, hval, _, _⟩ :=
    generateReport_some generatedAt warehouses products inventory suppliers warehouseId r hr
  refine ⟨enriched, he, ?_, ?_, ?_, ?_⟩
  · rw [hval, List.foldl_map]
    rfl
  · intro hcount hmag
    rw [hval]
    have := foldl_addStockValue_int enriched hcount 0 (by simpa using hmag)
    simpa [totalStockValue] using this
  · intro e _ hp hs
    exact lineValue_no_price e hp hs
  · intro hnil
    rw [hval, hnil]
    rfl

/-- C12 amended, on the catalogue: 2 x 3 for Bolt, 3 x 20 for Nut, 4 x 9 for
Cog and nothing for Gear, which has no price, add up to 102. -/
theorem totalStockValue_is_sum_witness :
    (∀ e ∈ catalogEnriched,
      (e.get "price").isCount = true ∧ (e.get "currentStock").isCount = true) ∧
    stockMagnitude catalogEnriched ≤ 2 ^ 53 ∧
    exactStockValue catalogEnriched = 102 ∧
    catalogGear.get "price" = JsVal.undefined ∧
    lineValue catalogGear = JsNumber.fin 0 0 ∧
    (∃ enriched,
      enrichedProducts catalogProducts catalogInventory catalogSuppliers (JsVal.str "5")
        = .ok enriched ∧
      (catalogReport "t").totalStockValue
        = (enriched.map lineValue).foldl JsNumber.add (JsNumber.fin 0 0) ∧
      ((∀ e ∈ enriched,
          (e.get "price").isCount = true ∧ (e.get "currentStock").isCount = true) →
        stockMagnitude enriched ≤ 2 ^ 53 →
        (catalogReport "t").totalStockValue = JsNumber.fin (exactStockValue enriched) 0) ∧
      (∀ e ∈ enriched, e.get "price" = JsVal.undefined →
        (e.get "currentStock").isCount = true →
        lineValue e = JsNumber.fin 0 0 ∧
        ∀ s : Int, s.natAbs ≤ 2 ^ 53 →
          addStockValue (JsNumber.fin s 0) e = JsNumber.fin s 0) ∧
      (enriched = [] → (catalogReport "t").totalStockValue = JsNumber.fin 0 0)) :=
  ⟨by decide, by decide, by decide, rfl, rfl,
    totalStockValue_is_sum "t" catalogWarehouses catalogProducts catalogInventory
      catalogSuppliers (JsVal.str "5") (catalogReport "t") rfl⟩

theorem gt_zero_int (m : Int) : (JsVal.num m).gt (JsVal.num 0) = decide (0 < m) := by
  simp [JsVal.gt, JsVal.lessThan, JsVal.toPrimitive, JsVal.toNumber, JsNumber.isNaN,
    JsNumber.lt, JsNumber.align]

theorem le_int (s m : Int) : (JsVal.num s).le (JsVal.num m) = decide (s ≤ m) := by
  simp only [JsVal.le, JsVal.lessThan, JsVal.toPrimitive, JsVal.toNumber, JsNumber.isNaN,
    JsNumber.lt, JsNumber.align]
  by_cases h : s ≤ m
  · have h' : ¬ m < s := Int.not_lt.mpr h
    simp [h, h']
  · have h' : m < s := Int.not_le.mp h
    simp [h, h']

theorem isLowStock_int (p : JsVal) (m s : Int) (hm : p.get "minStockLevel" = JsVal.num m)
    (hs : p.get "currentStock" = JsVal.num s) : isLowStock p = true ↔ 0 < m ∧ s ≤ m := by
  simp [isLowStock, hm, hs, gt_zero_int, le_int]

theorem isLowStock_no_minimum (p : JsVal)
    (h : p.get "minStockLevel" = JsVal.num 0 ∨ p.get "minStockLevel" = JsVal.undefined) :
    isLowStock p = false := by
  rcases h with h | h
  · simp [isLowStock, h, gt_zero_int]
  · have : (JsVal.undefined).gt (JsVal.num 0) = false := by decide
    simp [isLowStock, h, this]

/-- C13: the low-stock count of a produced report is the number of enriched
products with `minStockLevel > 0` and `currentStock <= minStockLevel` (for
integer values: `0 < minStockLevel` and `currentStock ≤ minStockLevel`); a
product whose `minStockLevel` is 0 or absent is never counted. -/
theorem lowStockProducts_count (generatedAt : String)
    (warehouses products inventory suppliers warehouseId : JsVal) (r : Report)
    (hr : generateReport generatedAt warehouses products inventory suppliers warehouseId
      = .ok (some r)) :
    ∃ enriched,
      enrichedProducts products inventory suppliers warehouseId = .ok enriched ∧
      r.lowStockProducts = (enriched.filter (fun p =>
        (p.get "minStockLevel").gt (JsVal.num 0) &&
          (p.get "currentStock").le (p.get "minStockLevel"))).length ∧
      (∀ (p : JsVal) (m s : Int), p.get "minStockLevel" = JsVal.num m → p.get "currentStock" = JsVal.num s →
        (((p.get "minStockLevel").gt (JsVal.num 0) &&
          (p.get "currentStock").le (p.get "minStockLevel")) = true ↔ 0 < m ∧ s ≤ m)) ∧
      (∀ p : JsVal, p.get "minStockLevel" = JsVal.num 0 ∨ p.get "minStockLevel" = JsVal.undefined →
        ((p.get "minStockLevel").gt (JsVal.num 0) &&
          (p.get "currentStock").le (p.get "minStockLevel")) = false) := by
  obtain ⟨ws, enriched, _, _, _, he, _, _, _, hlow, _⟩ :=
    generateReport_some generatedAt warehouses products inventory suppliers warehouseId r hr
  exact ⟨enriched, he, hlow, fun p m s hm hs => isLowStock_int p m s hm hs,
    fun p h => isLowStock_no_minimum p h⟩

/-- C13 on the catalogue: only Bolt (stock 3, minimum 10) is counted; Nut has
the minimum 0, Gear has none, Cog has 9 in stock for a minimum of 5. -/
theorem lowStockProducts_count_witness :
    (∃ enriched,
      enrichedProducts catalogProducts catalogInventory catalogSuppliers (JsVal.str "5")
        = .ok enriched ∧
      (catalogReport "t").lowStockProducts = (enriched.filter (fun p =>
        (p.get "minStockLevel").gt (JsVal.num 0) &&
          (p.get "currentStock").le (p.get "minStockLevel"))).length ∧
      (∀ (p : JsVal) (m s : Int), p.get "minStockLevel" = JsVal.num m → p.get "currentStock" = JsVal.num s →
        (((p.get "minStockLevel").gt (JsVal.num 0) &&
          (p.get "currentStock").le (p.get "minStockLevel")) = true ↔ 0 < m ∧ s ≤ m)) ∧
      (∀ p : JsVal, p.get "minStockLevel" = JsVal.num 0 ∨ p.get "minStockLevel" = JsVal.undefined →
        ((p.get "minStockLevel").gt (JsVal.num 0) &&
          (p.get "currentStock").le (p.get "minStockLevel")) = false)) ∧
    (catalogReport "t").lowStockProducts = 1 ∧
    catalogEnriched.map isLowStock = [false, true, false, false] :=
  ⟨lowStockProducts_count "t" catalogWarehouses catalogProducts catalogInventory
    catalogSuppliers (JsVal.str "5") (catalogReport "t") rfl, rfl, by decide⟩

/-! ## The report as a function of its inputs -/

theorem generateReport_clock (g₁ g₂ : String)
    (warehouses products inventory suppliers warehouseId : JsVal) :
    generateReport g₂ warehouses products inventory suppliers warehouseId =
      match generateReport g₁ warehouses products inventory suppliers warehouseId with
      | .error e => .error e
      | .ok none => .ok none
      | .ok (some r) => .ok (some { r with generatedAt := g₂ }) := by
  unfold generateReport
  cases asArray warehouses with
  | error e => rfl
  | ok ws =>
    simp only []
    cases arrayFind (hasId warehouseId) ws with
    | error e => rfl
    | ok warehouse =>
      simp only []
      cases warehouse.truthy with
      | false => rfl
      | true =>
        simp only [Bool.not_true, Bool.false_eq_true, if_false]
        cases enrichedProducts products inventory suppliers warehouseId with
        | error e => rfl
        | ok enriched =>
          simp only []
          cases productsBySupplier enriched with
          | error e => rfl
          | ok groups => rfl

/-- C15: the report is a function of the four collections and the selected id.
Two runs on the same inputs, at whatever times, both raise, both give `null`, or
give two reports with the same warehouse, the same groups (same keys, same
order, same products), the same `totalProducts`, `totalStockValue` and low-stock
count; only `generatedAt` follows the clock. -/
theorem generateReport_deterministic (g₁ g₂ : String)
    (warehouses products inventory suppliers warehouseId : JsVal) :
    (∀ e, generateReport g₁ warehouses products inventory suppliers warehouseId = .error e →
      generateReport g₂ warehouses products inventory suppliers warehouseId = .error e) ∧
    (generateReport g₁ warehouses products inventory suppliers warehouseId = .ok none →
      generateReport g₂ warehouses products inventory suppliers warehouseId = .ok none) ∧
    (∀ r₁, generateReport g₁ warehouses products inventory suppliers warehouseId
        = .ok (some r₁) →
      ∃ r₂, generateReport g₂ warehouses products inventory suppliers warehouseId
          = .ok (some r₂) ∧
        r₂.warehouse = r₁.warehouse ∧
        r₂.productsBySupplier = r₁.productsBySupplier ∧
        objectValues r₂.productsBySupplier = objectValues r₁.productsBySupplier ∧
        r₂.totalProducts = r₁.totalProducts ∧
        r₂.totalStockValue = r₁.totalStockValue ∧
        r₂.lowStockProducts = r₁.lowStockProducts ∧
        r₁.generatedAt = g₁ ∧ r₂.generatedAt = g₂) := by
  have hclock := generateReport_clock g₁ g₂ warehouses products inventory suppliers warehouseId
  refine ⟨?_, ?_, ?_⟩
  · intro e h
    rw [hclock, h]
  · intro h
    rw [hclock, h]
  · intro r₁ h
    obtain ⟨_, _, _, _, _, _, _, _, _, _, hg⟩ :=
      generateReport_some g₁ warehouses products inventory suppliers warehouseId r₁ h
    refine ⟨{ r₁ with generatedAt := g₂ }, ?_, rfl, rfl, rfl, rfl, rfl, rfl, hg, rfl⟩
    rw [hclock, h]

/-- C15 on the catalogue, run at the times `"t"` and `"u"`. -/
theorem generateReport_deterministic_witness :
    ∃ r₂, generateReport "u" catalogWarehouses catalogProducts catalogInventory
        catalogSuppliers (JsVal.str "5") = .ok (some r₂) ∧
      r₂.warehouse = (catalogReport "t").warehouse ∧
      r₂.productsBySupplier = (catalogReport "t").productsBySupplier ∧
      objectValues r₂.productsBySupplier = objectValues (catalogReport "t").productsBySupplier ∧
      r₂.totalProducts = (catalogReport "t").totalProducts ∧
      r₂.totalStockValue = (catalogReport "t").totalStockValue ∧
      r₂.lowStockProducts = (catalogReport "t").lowStockProducts ∧
      (catalogReport "t").generatedAt = "t" ∧ r₂.generatedAt = "u" :=
  (generateReport_deterministic "t" "u" catalogWarehouses catalogProducts catalogInventory
    catalogSuppliers (JsVal.str "5")).2.2 (catalogReport "t") rfl

/-! ## The status column -/

/-- C17: the last column of a product row is `"LOW STOCK"` exactly when the
product has `minStockLevel > 0` and `currentStock <= minStockLevel`, and `"OK"`
otherwise; this is the predicate that selects the products of the low-stock
count.  For integer values it reads `0 < minStockLevel` and
`currentStock ≤ minStockLevel`. -/
theorem status_column (product : JsVal) :
    (∃ cells, productRow product = cells ++ "," ++ csvStatus product ++ "\n") ∧
    (csvStatus product = "LOW STOCK" ↔
      ((product.get "minStockLevel").gt (JsVal.num 0) &&
        (product.get "currentStock").le (product.get "minStockLevel")) = true) ∧
    (csvStatus product = "OK" ↔
      ((product.get "minStockLevel").gt (JsVal.num 0) &&
        (product.get "currentStock").le (product.get "minStockLevel")) = false) ∧
    (csvStatus product = "LOW STOCK" ↔ product ∈ lowStockProducts [product]) ∧
    (∀ m s : Int, product.get "minStockLevel" = JsVal.num m →
      product.get "currentStock" = JsVal.num s →
      (csvStatus product = "LOW STOCK" ↔ 0 < m ∧ s ≤ m)) := by
  have hlow : csvStatus product = "LOW STOCK" ↔ isLowStock product = true := by
    unfold csvStatus isLowStock
    split
    · simp [*]
    · rename_i h
      simp only [h]
      constructor
      · intro hc; exact absurd hc (by decide)
      · intro hc; exact absurd hc (by simp)
  have hok : csvStatus product = "OK" ↔ isLowStock product = false := by
    unfold csvStatus isLowStock
    split
    · rename_i h
      simp only [h]
      constructor
      · intro hc; exact absurd hc (by decide)
      · intro hc; exact absurd hc (by simp)
    · simp [*]
  refine ⟨⟨_, rfl⟩, hlow, hok, ?_, ?_⟩
  · rw [hlow]
    simp [lowStockProducts]
  · intro m s hm hs
    rw [hlow]
    exact isLowStock_int product m s hm hs

/-- C17 on the catalogue: Bolt (3 in stock, minimum 10) is `"LOW STOCK"`, Cog
(9 in stock, minimum 5) is `"OK"`. -/
theorem status_column_witness :
    csvStatus catalogBolt = "LOW STOCK" ∧ csvStatus catalogCog = "OK" ∧
    productRow catalogBolt = "\"Bolt\",B-1,\"Steel, M8\",3,10,LOW STOCK\n" :=
  ⟨((status_column catalogBolt).2.2.2.2 10 3 rfl rfl).mpr (by decide),
   ((status_column catalogCog).2.2.1).mpr (by decide), by decide⟩

/-! ## Fields of an enriched product and the collections -/

theorem record_of_belongsTo (warehouseId record : JsVal)
    (h : belongsTo warehouseId record = true) : ∃ props, record = JsVal.obj props := by
  cases record with
  | obj props => exact ⟨props, rfl⟩
  | _ => simp [belongsTo, JsVal.get, JsVal.truthy] at h

theorem forall₂_with_left {R : JsVal → JsVal → Prop} {P : JsVal → Prop} (xs ys : List JsVal)
    (h : List.Forall₂ R xs ys) (hP : ∀ x ∈ xs, P x) :
    List.Forall₂ (fun x y => P x ∧ R x y) xs ys := by
  induction h with
  | nil => exact List.Forall₂.nil
  | cons hxy _ ih =>
    exact List.Forall₂.cons ⟨hP _ (List.mem_cons_self _ _), hxy⟩
      (ih (fun x hx => hP x (List.mem_cons_of_mem _ hx)))

theorem mem_keys_setProp (props : List (String × JsVal)) (name : String) (v : JsVal)
    (other : String) :
    other ∈ (setProp props name v).map Prod.fst ↔ other ∈ props.map Prod.fst ∨ other = name := by
  unfold setProp
  cases h : (props.lookup name).isSome with
  | true =>
    have hk : name ∈ props.map Prod.fst := (lookup_isSome_iff props name).mp h
    have hmap : (props.map (fun p => if p.1 = name then (p.1, v) else p)).map Prod.fst
        = props.map Prod.fst := by
      rw [List.map_map]
      apply List.map_congr_left
      intro p _
      by_cases hp : p.1 = name <;> simp [hp]
    simp only [if_true, hmap]
    constructor
    · exact Or.inl
    · rintro (ho | ho)
      · exact ho
      · rw [ho]; exact hk
  | false => simp

theorem enrichProduct_record (inv : List JsVal) (suppliers e : JsVal)
    (props : List (String × JsVal))
    (h : enrichProduct inv suppliers (JsVal.obj props) = .ok e) :
    ∃ eprops, e = JsVal.obj eprops ∧
      (∀ name, name ≠ "currentStock" → name ≠ "supplier" →
        JsVal.field eprops name = JsVal.field props name) ∧
      (∀ name, name ∈ eprops.map Prod.fst ↔
        name ∈ props.map Prod.fst ∨ name = "currentStock" ∨ name = "supplier") := by
  obtain ⟨_, _, _, _, hrest⟩ := enrichProduct_fields inv suppliers (JsVal.obj props) e h
  unfold enrichProduct at h
  cases hs : productSupplier suppliers (JsVal.obj props) with
  | error err => simp [hs] at h
  | ok sup =>
    simp only [hs, Except.ok.injEq] at h
    subst h
    refine ⟨_, rfl, ?_, ?_⟩
    · intro name h₁ h₂
      exact hrest name h₁ h₂
    · intro name
      rw [mem_keys_setProp, mem_keys_setProp]
      have hspread : name ∈ (spreadProps (JsVal.obj props)).map Prod.fst ↔
          name ∈ props.map Prod.fst := by
        simp only [spreadProps, List.map_map]
        have : (Prod.fst ∘ fun k => (k, JsVal.field props k)) = id := rfl
        rw [this, List.map_id, mem_ownKeys]
      rw [hspread, or_assoc]

/-- C16: every enriched product of a report carries each field of its source
product with the same value, `supplier` and `currentStock` apart, and has no
other field than those two and the fields of its source; and a call of
`generateReport` sets the report and the loading flag only, the four
collections of the component are the same after as before. -/
theorem enriched_fields_and_collections (generatedAt : String) (s s' : ReportsState)
    (warehouseId : JsVal) (h : runGenerateReport generatedAt s warehouseId = .ok s') :
    s'.warehouses = s.warehouses ∧ s'.products = s.products ∧
    s'.inventory = s.inventory ∧ s'.suppliers = s.suppliers ∧
    (∀ r, s'.reportData = some r →
      ∃ ps enriched,
        s.products = JsVal.arr ps ∧
        enrichedProducts s.products s.inventory s.suppliers warehouseId = .ok enriched ∧
        (∀ kg ∈ r.productsBySupplier, ∀ e ∈ kg.2.products, e ∈ enriched) ∧
        List.Forall₂
          (fun p e => ∃ props eprops, p = JsVal.obj props ∧ e = JsVal.obj eprops ∧
            (∀ name, name ≠ "currentStock" → name ≠ "supplier" →
              JsVal.field eprops name = JsVal.field props name) ∧
            (∀ name, name ∈ eprops.map Prod.fst ↔
              name ∈ props.map Prod.fst ∨ name = "currentStock" ∨ name = "supplier"))
          (ps.filter (belongsTo warehouseId)) enriched) := by
  unfold runGenerateReport at h
  cases hg : generateReport generatedAt s.warehouses s.products s.inventory s.suppliers
      warehouseId with
  | error e => simp [hg] at h
  | ok result =>
    simp only [hg, Except.ok.injEq] at h
    subst h
    refine ⟨rfl, rfl, rfl, rfl, ?_⟩
    intro r hr
    simp only at hr
    subst hr
    obtain ⟨ws, enriched, _, _, _, he, hgr, _, _, _, _⟩ :=
      generateReport_some generatedAt s.warehouses s.products s.inventory s.suppliers
        warehouseId r hg
    obtain ⟨ps, items, hps, _, hall⟩ :=
      enrichedProducts_ok s.products s.inventory s.suppliers warehouseId enriched he
    refine ⟨ps, enriched, hps, he,
      mem_of_group _ _ (productsBySupplier_groupsOf enriched _ hgr), ?_⟩
    have hall' := forall₂_with_left (P := fun p => belongsTo warehouseId p = true) _ _ hall
      (fun p hp => (List.mem_filter.mp hp).2)
    refine hall'.imp ?_
    intro p e ⟨hb, hpe⟩
    obtain ⟨props, rfl⟩ := record_of_belongsTo warehouseId p hb
    obtain ⟨eprops, he', hf, hk⟩ := enrichProduct_record _ s.suppliers e props hpe
    exact ⟨props, eprops, rfl, he', hf, hk⟩

/-- C16 on the catalogue: the state after the call keeps its four collections
and holds the report, whose products carry the fields of their sources. -/
theorem enriched_fields_and_collections_witness :
    catalogBolt.get "sku" = JsVal.str "B-1" ∧
    catalogBolt.get "description" = JsVal.str "Steel, M8" ∧
    (∀ r, some (catalogReport "t") = some r →
      ∃ ps enriched,
        catalogProducts = JsVal.arr ps ∧
        enrichedProducts catalogProducts catalogInventory catalogSuppliers (JsVal.str "5")
          = .ok enriched ∧
        (∀ kg ∈ r.productsBySupplier, ∀ e ∈ kg.2.products, e ∈ enriched) ∧
        List.Forall₂
          (fun p e => ∃ props eprops, p = JsVal.obj props ∧ e = JsVal.obj eprops ∧
            (∀ name, name ≠ "currentStock" → name ≠ "supplier" →
              JsVal.field eprops name = JsVal.field props name) ∧
            (∀ name, name ∈ eprops.map Prod.fst ↔
              name ∈ props.map Prod.fst ∨ name = "currentStock" ∨ name = "supplier"))
          (ps.filter (belongsTo (JsVal.str "5"))) enriched) :=
  ⟨rfl, rfl, (enriched_fields_and_collections "t"
      ⟨catalogWarehouses, catalogProducts, catalogInventory, catalogSuppliers, none, true⟩
      ⟨catalogWarehouses, catalogProducts, catalogInventory, catalogSuppliers,
        some (catalogReport "t"), false⟩ (JsVal.str "5") rfl).2.2.2.2⟩

/-! ## Collections that are not sequences -/

theorem error_eq_typeError {α : Type} (x : Except JsError α) (h : ∀ a, x ≠ .ok a) :
    x = .error .typeError := by
  cases x with
  | ok a => exact absurd rfl (h a)
  | error e => cases e; rfl

theorem asArray_error (v : JsVal) (h : v.isArray = false) : asArray v = .error .typeError := by
  cases v <;> simp [JsVal.isArray] at h <;> rfl

theorem arrayFind_resolved (ws : List JsVal) (warehouseId : JsVal)
    (hws : ∀ w ∈ ws, w.isRecord = true)
    (hsel : ∃ w ∈ ws, (w.get "id").looseEq warehouseId = true) :
    ∃ w, arrayFind (hasId warehouseId) ws = .ok w ∧ w.truthy = true := by
  have hfind := arrayFind_pure (hasId warehouseId)
    (fun w => (w.get "id").looseEq warehouseId) ws
    (fun w hw => hasId_of_record warehouseId w (hws w hw))
  cases hq : ws.find? (fun w => (w.get "id").looseEq warehouseId) with
  | none =>
    obtain ⟨w, hw, hwq⟩ := hsel
    exact absurd hwq (List.find?_eq_none.mp hq w hw)
  | some w =>
    refine ⟨w, ?_, truthy_of_record w (hws w (List.mem_of_find?_eq_some hq))⟩
    rw [hfind]
    simp [findPure, hq]

theorem generateReport_raises_of_enriched (generatedAt : String) (ws : List JsVal)
    (products inventory suppliers warehouseId : JsVal)
    (hws : ∀ w ∈ ws, w.isRecord = true)
    (hsel : ∃ w ∈ ws, (w.get "id").looseEq warehouseId = true)
    (he : ∀ enriched, enrichedProducts products inventory suppliers warehouseId ≠ .ok enriched) :
    generateReport generatedAt (JsVal.arr ws) products inventory suppliers warehouseId
      = .error .typeError := by
  obtain ⟨w, hf, ht⟩ := arrayFind_resolved ws warehouseId hws hsel
  rw [generateReport_of_found generatedAt ws products inventory suppliers warehouseId w hf ht]
  cases hx : enrichedProducts products inventory suppliers warehouseId with
  | error e => cases e; rfl
  | ok enriched => exact absurd hx (he enriched)

theorem arrayMap_ok_mem (f : JsVal → Except JsError JsVal) (xs ys : List JsVal)
    (h : arrayMap f xs = .ok ys) : ∀ x ∈ xs, ∃ y, f x = .ok y := by
  intro x hx
  have hall := arrayMap_ok f xs ys h
  induction hall with
  | nil => simp at hx
  | cons hxy _ ih =>
    rename_i a b l₁ l₂ htail
    rcases List.mem_cons.mp hx with rfl | hx'
    · exact ⟨_, hxy⟩
    · cases hfa : f a with
      | error e => simp [arrayMap, hfa] at h
      | ok y =>
        cases hr : arrayMap f l₁ with
        | error e => simp [arrayMap, hfa, hr] at h
        | ok zs =>
          have hz : zs = l₂ := by
            simp only [arrayMap, hfa, hr, Except.ok.injEq, List.cons.injEq] at h
            exact h.2
          subst hz
          exact ih hr hx'

/-- C14, counterexample: with `null` for `warehouses` the call raises, where the
empty sequence gives `null`; with a warehouse resolved, `undefined` for
`products`, an object for `inventory` and a number for `suppliers` raise too. -/
theorem generateReport_non_sequence_raises :
    generateReport "t" JsVal.null catalogProducts catalogInventory catalogSuppliers
      (JsVal.str "5") = .error .typeError ∧
    generateReport "t" (JsVal.arr []) catalogProducts catalogInventory catalogSuppliers
      (JsVal.str "5") = .ok none ∧
    generateReport "t" catalogWarehouses JsVal.undefined catalogInventory catalogSuppliers
      (JsVal.str "5") = .error .typeError ∧
    generateReport "t" catalogWarehouses catalogProducts (JsVal.obj []) catalogSuppliers
      (JsVal.str "5") = .error .typeError ∧
    generateReport "t" catalogWarehouses catalogProducts catalogInventory (JsVal.num 0)
      (JsVal.str "5") = .error .typeError :=
  ⟨rfl, rfl, rfl, rfl, rfl⟩

/-- C14, amended: `generateReport` does not raise, and returns a report or
`null`, when its four collections are sequences of records (the supplier ids
not being names inherited from `Object.prototype`).  It does not replace a
collection that is not a sequence by the empty one: reading it raises a
TypeError, always for `warehouses`, once a warehouse is resolved for `products`
and `inventory`, and once a product of the warehouse has a supplier reference
for `suppliers`. -/
theorem generateReport_on_sequences (generatedAt : String) (ws ps items sups : List JsVal)
    (warehouseId : JsVal)
    (hws : ∀ w ∈ ws, w.isRecord = true) (hps : ∀ p ∈ ps, p.isRecord = true)
    (hitems : ∀ i ∈ items, i.isRecord = true) (hsups : ∀ s ∈ sups, s.isRecord = true)
    (hkeys : ∀ s ∈ sups, (s.get "id").toStr ∉ objectPrototypeKeys) :
    (∃ result, generateReport generatedAt (JsVal.arr ws) (JsVal.arr ps) (JsVal.arr items)
      (JsVal.arr sups) warehouseId = .ok result) ∧
    (∀ warehouses products inventory suppliers : JsVal, warehouses.isArray = false →
      generateReport generatedAt warehouses products inventory suppliers warehouseId
        = .error .typeError) ∧
    ((∃ w ∈ ws, (w.get "id").looseEq warehouseId = true) →
      (∀ products inventory suppliers : JsVal, products.isArray = false →
        generateReport generatedAt (JsVal.arr ws) products inventory suppliers warehouseId
          = .error .typeError) ∧
      (∀ products inventory suppliers : JsVal, inventory.isArray = false →
        generateReport generatedAt (JsVal.arr ws) products inventory suppliers warehouseId
          = .error .typeError) ∧
      (∀ inventory suppliers : JsVal, suppliers.isArray = false →
        (∃ p ∈ ps, belongsTo warehouseId p = true ∧ (p.get "supplier").truthy = true) →
        generateReport generatedAt (JsVal.arr ws) (JsVal.arr ps) inventory suppliers warehouseId
          = .error .typeError)) := by
  refine ⟨?_, ?_, ?_⟩
  · by_cases hsel : ∃ w ∈ ws, (w.get "id").looseEq warehouseId = true
    · obtain ⟨r, hr⟩ := generateReport_returns generatedAt ws ps items sups warehouseId
        hws hps hitems hsups hkeys hsel
      exact ⟨some r, hr⟩
    · refine ⟨none, ?_⟩
      have hfind := arrayFind_pure (hasId warehouseId)
        (fun w => (w.get "id").looseEq warehouseId) ws
        (fun w hw => hasId_of_record warehouseId w (hws w hw))
      have hnone : ws.find? (fun w => (w.get "id").looseEq warehouseId) = none := by
        rw [List.find?_eq_none]
        intro w hw hq
        exact hsel ⟨w, hw, hq⟩
      simp [generateReport, asArray, hfind, findPure, hnone, JsVal.truthy]
  · intro warehouses products inventory suppliers hw
    simp [generateReport, asArray_error warehouses hw]
  · intro hsel
    refine ⟨?_, ?_, ?_⟩
    · intro products inventory suppliers hp
      apply generateReport_raises_of_enriched generatedAt ws _ _ _ warehouseId hws hsel
      intro enriched
      simp [enrichedProducts, warehouseProducts, asArray_error products hp]
    · intro products inventory suppliers hi
      apply generateReport_raises_of_enriched generatedAt ws _ _ _ warehouseId hws hsel
      intro enriched
      unfold enrichedProducts
      cases warehouseProducts products warehouseId with
      | error e => simp
      | ok sel => simp [warehouseInventory, asArray_error inventory hi]
    · intro inventory suppliers hs ⟨p, hp, hb, ht⟩
      apply generateReport_raises_of_enriched generatedAt ws _ _ _ warehouseId hws hsel
      intro enriched henr
      unfold enrichedProducts at henr
      cases hwp : warehouseProducts (JsVal.arr ps) warehouseId with
      | error e => simp [hwp] at henr
      | ok sel =>
        obtain ⟨ps', hps', hsel'⟩ := warehouseProducts_ok _ warehouseId sel hwp
        cases hps'
        cases hwi : warehouseInventory inventory warehouseId with
        | error e => simp [hwp, hwi] at henr
        | ok inv =>
          simp only [hwp, hwi] at henr
          have hmem : p ∈ sel := by
            rw [hsel']
            exact List.mem_filter.mpr ⟨hp, hb⟩
          obtain ⟨e, he⟩ := arrayMap_ok_mem _ sel enriched henr p hmem
          simp [enrichProduct, productSupplier, ht, asArray_error suppliers hs] at he

/-- C14 amended, on the catalogue: on the four sequences of records the call
returns the report. -/
theorem generateReport_on_sequences_witness :
    ∃ result, generateReport "t" catalogWarehouses catalogProducts catalogInventory
      catalogSuppliers (JsVal.str "5") = .ok result :=
  (generateReport_on_sequences "t"
    [JsVal.obj [("id", JsVal.num 5), ("name", JsVal.str "Main"), ("location", JsVal.str "Pune")]]
    catalogProducts.elems catalogInventory.elems [catalogAcme, catalogZenith] (JsVal.str "5")
    (by decide) (by decide) (by decide) (by decide) (by decide)).1

/-! ## The CSV text as header, summary and supplier blocks -/

theorem foldl_append_text {α : Type} (f : α → String) (xs : List α) :
    ∀ init : String, xs.foldl (fun c x => c ++ f x) init =
      init ++ (xs.map f).foldr (fun piece text => piece ++ text) "" := by
  induction xs with
  | nil => intro init; simp
  | cons x rest ih =>
    intro init
    rw [List.foldl_cons, ih, List.map_cons, List.foldr_cons, String.append_assoc]

theorem appendSupplierBlock_eq (csv : String) (group : SupplierGroup) :
    appendSupplierBlock csv group = csv ++ supplierBlock group := by
  unfold appendSupplierBlock supplierBlock
  simp only [foldl_append_text]
  cases (group.supplier.get "contactPerson").truthy <;>
    cases (group.supplier.get "email").truthy <;>
    cases (group.supplier.get "phone").truthy <;>
    simp [String.append_assoc]

theorem csvContent_eq (r : Report) :
    csvContent r = csvPreamble r ++
      ((objectValues r.productsBySupplier).map supplierBlock).foldr
        (fun piece text => piece ++ text) "" := by
  unfold csvContent
  have : (fun c g => appendSupplierBlock c g) = (fun c g => c ++ supplierBlock g) := by
    funext c g
    exact appendSupplierBlock_eq c g
  show List.foldl (fun c g => appendSupplierBlock c g) _ _ = _
  rw [this, foldl_append_text]

theorem indexedKeys_snd {β : Type} (props : List (String × β)) :
    (indexedKeys props).map Prod.snd =
      (props.map Prod.fst).filter (fun k => (arrayIndex? k).isSome) := by
  induction props with
  | nil => rfl
  | cons p rest ih =>
    unfold indexedKeys at ih ⊢
    cases hi : arrayIndex? p.1 with
    | none => simp [List.filterMap_cons, hi, ih]
    | some i => simp [List.filterMap_cons, hi, ih]

theorem ownKeys_perm {β : Type} (props : List (String × β)) :
    (ownKeys props).Perm (props.map Prod.fst) := by
  unfold ownKeys namedKeys
  have h₁ : (((indexedKeys props).insertionSort (fun a b => a.1 ≤ b.1)).map Prod.snd).Perm
      ((props.map Prod.fst).filter (fun k => (arrayIndex? k).isSome)) := by
    rw [← indexedKeys_snd]
    exact (List.perm_insertionSort _ _).map _
  have h₂ : (fun k : String => (arrayIndex? k).isNone) =
      (fun k => !(arrayIndex? k).isSome) := by
    funext k
    cases arrayIndex? k <;> rfl
  rw [h₂]
  exact (h₁.append_right _).trans (List.filter_append_perm _ _)

theorem objectValues_perm {β : Type} (props : List (String × β))
    (hnd : (props.map Prod.fst).Nodup) : (objectValues props).Perm (props.map Prod.snd) := by
  unfold objectValues
  have h := (ownKeys_perm props).filterMap (fun k => props.lookup k)
  rw [filterMap_lookup_keys props props
    (fun p hp => lookup_of_mem_nodup props p.1 p.2 hnd hp)] at h
  exact h

/-- C19: the CSV text of a produced report is the header and summary followed
by one block per supplier group, in the iteration order of the groups: each
group of the report gives one block and each block comes from one group.  A
block is an empty line, the line `Supplier: <name>`, the contact lines, the
column titles and one row per product of the group, in the order of the group;
so every product row lies in the block of its group. -/
theorem csv_blocks (generatedAt : String)
    (warehouses products inventory suppliers warehouseId : JsVal) (r : Report)
    (hr : generateReport generatedAt warehouses products inventory suppliers warehouseId
      = .ok (some r)) :
    exportToCSV (some r) = some (csvPreamble r ++
      ((objectValues r.productsBySupplier).map supplierBlock).foldr
        (fun block text => block ++ text) "") ∧
    (objectValues r.productsBySupplier).Perm (r.productsBySupplier.map Prod.snd) ∧
    (∀ group : SupplierGroup, ∃ contact,
      supplierBlock group =
        ("\nSupplier: " ++ (group.supplier.get "name").toStr ++ "\n") ++ contact ++
          columnTitles ++
          (group.products.map productRow).foldr (fun row text => row ++ text) "") := by
  obtain ⟨ws, enriched, _, _, _, _, hg, _, _, _, _⟩ :=
    generateReport_some generatedAt warehouses products inventory suppliers warehouseId r hr
  obtain ⟨hnd, _, _⟩ := productsBySupplier_groupsOf enriched _ hg
  refine ⟨?_, objectValues_perm _ hnd, ?_⟩
  · simp only [exportToCSV, Option.map_some', csvContent_eq]
  · intro group
    refine ⟨(if (group.supplier.get "contactPerson").truthy then
        "Contact Person: " ++ (group.supplier.get "contactPerson").toStr ++ "\n" else "") ++
      (if (group.supplier.get "email").truthy then
        "Email: " ++ (group.supplier.get "email").toStr ++ "\n" else "") ++
      (if (group.supplier.get "phone").truthy then
        "Phone: " ++ (group.supplier.get "phone").toStr ++ "\n" else ""), ?_⟩
    unfold supplierBlock
    simp only [String.append_assoc]

/-- C19 on the catalogue: three groups, three blocks, Acme first. -/
theorem csv_blocks_witness :
    (exportToCSV (some (catalogReport "t")) = some (csvPreamble (catalogReport "t") ++
      ((objectValues (catalogReport "t").productsBySupplier).map supplierBlock).foldr
        (fun block text => block ++ text) "") ∧
    (objectValues (catalogReport "t").productsBySupplier).Perm
      ((catalogReport "t").productsBySupplier.map Prod.snd) ∧
    (∀ group : SupplierGroup, ∃ contact,
      supplierBlock group =
        ("\nSupplier: " ++ (group.supplier.get "name").toStr ++ "\n") ++ contact ++
          columnTitles ++
          (group.products.map productRow).foldr (fun row text => row ++ text) "")) ∧
    (objectValues (catalogReport "t").productsBySupplier).map supplierBlock =
      ["\nSupplier: Acme\nEmail: a@x.io\n" ++ columnTitles ++ "\"Nut\",N-1,\"\",20,0,OK\n",
       "\nSupplier: Zenith\nContact Person: Zed\nEmail: z@x.io\nPhone: 555\n" ++ columnTitles ++
         "\"Bolt\",B-1,\"Steel, M8\",3,10,LOW STOCK\n\"Cog\",C-1,\"\",9,5,OK\n",
       "\nSupplier: No Supplier\n" ++ columnTitles ++ "\"Gear\",G-1,\"\",0,0,OK\n"] :=
  ⟨csv_blocks "t" catalogWarehouses catalogProducts catalogInventory catalogSuppliers
    (JsVal.str "5") (catalogReport "t") rfl, rfl⟩

/-! ## Quoting of the text columns -/

/-- C18, the code at a failing input: the name and the description of a row
are written between double quotes, the SKU is not.  For a product whose SKU is
`B,1` the row splits, on its unquoted commas, into seven columns instead of
six; the comma inside the quoted description does not split. -/
theorem productRow_sku_unquoted :
    enrichedProducts commaSkuProducts catalogInventory catalogSuppliers (JsVal.str "5")
      = .ok [commaSkuBolt] ∧
    productRow commaSkuBolt = "\"Bolt\",B,1,\"Steel, M8\",3,10,LOW STOCK\n" ∧
    csvColumns (productRow commaSkuBolt) = 7 ∧
    productRow catalogBolt = "\"Bolt\",B-1,\"Steel, M8\",3,10,LOW STOCK\n" ∧
    csvColumns (productRow catalogBolt) = 6 :=
  ⟨rfl, by decide, by decide, by decide, by decide⟩

/-! ## Counting the rows of the CSV text -/

theorem lineBreaks_append (a b : String) : lineBreaks (a ++ b) = lineBreaks a + lineBreaks b := by
  simp [lineBreaks]

theorem lineBreaks_eq_zero (s : String) (h : '\n' ∉ s.data) : lineBreaks s = 0 := by
  unfold lineBreaks
  exact List.count_eq_zero.mpr h

theorem ite_ne_of {c : Prop} [Decidable c] {a b x : Char} (ha : a ≠ x) (hb : b ≠ x) :
    (if c then a else b) ≠ x := by
  split <;> assumption

theorem digitChar_ne_newline (d : Nat) : Nat.digitChar d ≠ '\n' := by
  unfold Nat.digitChar
  repeat (first | exact (by decide) | apply ite_ne_of)

theorem toDigitsCore_no_newline (base fuel : Nat) :
    ∀ (n : Nat) (ds : List Char), '\n' ∉ ds → '\n' ∉ Nat.toDigitsCore base fuel n ds := by
  induction fuel with
  | zero => intro n ds h; simpa [Nat.toDigitsCore] using h
  | succ fuel ih =>
    intro n ds h
    have hcons : '\n' ∉ Nat.digitChar (n % base) :: ds := by
      intro hm
      rcases List.mem_cons.mp hm with he | he
      · exact digitChar_ne_newline _ he.symm
      · exact h he
    unfold Nat.toDigitsCore
    simp only []
    split
    · exact hcons
    · exact ih _ _ hcons

theorem natText_no_newline (n : Nat) : '\n' ∉ (toString n).data := by
  show '\n' ∉ Nat.toDigits 10 n
  exact toDigitsCore_no_newline 10 _ n [] (by simp)

theorem lineBreaks_natText (n : Nat) : lineBreaks (toString n) = 0 :=
  lineBreaks_eq_zero _ (natText_no_newline n)

theorem lineBreaks_intText (i : Int) : lineBreaks (toString i) = 0 := by
  cases i with
  | ofNat n => exact lineBreaks_natText n
  | negSucc n =>
    show lineBreaks ("-" ++ toString (n + 1)) = 0
    rw [lineBreaks_append, lineBreaks_natText]
    rfl

theorem lineBreaks_hundredthsText (n : Nat) : lineBreaks (hundredthsText n) = 0 := by
  unfold hundredthsText
  simp only [lineBreaks_append, lineBreaks_natText]
  split <;> rfl

theorem lineBreaks_mk_zero (cs : List Char) (h : '\n' ∉ cs) : lineBreaks (String.mk cs) = 0 :=
  lineBreaks_eq_zero _ h

theorem lineBreaks_exponentText (a : Nat) (e : Int) : lineBreaks (exponentText a e) = 0 := by
  unfold exponentText
  have hsig : ∀ c ∈ (((toString a).data.reverse.dropWhile (fun c => c == '0')).reverse),
      c ≠ '\n' := by
    intro c hc he
    rw [List.mem_reverse] at hc
    have := (List.dropWhile_sublist _).subset hc
    rw [List.mem_reverse] at this
    exact natText_no_newline a (he ▸ this)
  simp only []
  split
  · rfl
  · rename_i d hd
    have hd' : d ≠ '\n' := hsig d (by rw [hd]; simp)
    rw [lineBreaks_append, lineBreaks_append, lineBreaks_intText,
      lineBreaks_mk_zero [d] (by simpa using hd'.symm)]
    rfl
  · rename_i d rest _ hd
    have hall : '\n' ∉ d :: '.' :: rest := by
      intro hm
      rcases List.mem_cons.mp hm with he | hm
      · exact hsig d (by rw [hd]; simp) he.symm
      · rcases List.mem_cons.mp hm with he | hm
        · exact absurd he (by decide)
        · exact hsig '\n' (by rw [hd]; simp [hm]) rfl
    rw [lineBreaks_append, lineBreaks_append, lineBreaks_intText, lineBreaks_mk_zero _ hall]
    rfl

theorem lineBreaks_toFixed2 (x : JsNumber) : lineBreaks x.toFixed2 = 0 := by
  cases x with
  | nan => rfl
  | posInf => rfl
  | negInf => rfl
  | fin m e =>
    unfold JsNumber.toFixed2
    rw [lineBreaks_append]
    have h₁ : lineBreaks (if m < 0 then "-" else "") = 0 := by split <;> rfl
    have h₂ : lineBreaks (if atLeastTenPow21 m.natAbs e = true then exponentText m.natAbs e
        else hundredthsText (roundedHundredths m.natAbs e)) = 0 := by
      split
      · exact lineBreaks_exponentText _ _
      · exact lineBreaks_hundredthsText _
    rw [h₁, h₂]

theorem lineBreaks_pieces {α : Type} (f : α → String) (xs : List α) :
    lineBreaks ((xs.map f).foldr (fun piece text => piece ++ text) "") =
      (xs.map (fun x => lineBreaks (f x))).sum := by
  induction xs with
  | nil => rfl
  | cons x rest ih =>
    simp only [List.map_cons, List.foldr_cons, lineBreaks_append, List.sum_cons, ih]

theorem lineBreaks_csvStatus (p : JsVal) : lineBreaks (csvStatus p) = 0 := by
  unfold csvStatus
  split <;> rfl

theorem lineBreaks_productRow (p : JsVal) (h : ProductOnOneLine p) :
    lineBreaks (productRow p) = 1 := by
  obtain ⟨hname, hsku, hdesc, hstock, hmin⟩ := h
  have hd : lineBreaks (if (p.get "description").truthy then p.get "description"
      else JsVal.str "").toStr = 0 := by
    split
    · exact hdesc
    · rfl
  have hm : lineBreaks (if (p.get "minStockLevel").truthy then p.get "minStockLevel"
      else JsVal.num 0).toStr = 0 := by
    split
    · exact hmin
    · rfl
  have q₁ : lineBreaks "\"" = 0 := rfl
  have q₂ : lineBreaks "\"," = 0 := rfl
  have q₃ : lineBreaks ",\"" = 0 := rfl
  have q₄ : lineBreaks "," = 0 := rfl
  have q₅ : lineBreaks "\n" = 1 := rfl
  unfold productRow
  simp only [lineBreaks_append, hname, hsku, hd, hstock, hm, lineBreaks_csvStatus,
    q₁, q₂, q₃, q₄, q₅]

theorem lineBreaks_supplierBlock (g : SupplierGroup) (hs : SupplierOnOneLine g.supplier)
    (hp : ∀ p ∈ g.products, ProductOnOneLine p) :
    lineBreaks (supplierBlock g) = 3 + contactLines g.supplier + g.products.length := by
  obtain ⟨hname, hcontact, hemail, hphone⟩ := hs
  have hrows : (g.products.map (fun p => lineBreaks (productRow p))).sum = g.products.length := by
    have : g.products.map (fun p => lineBreaks (productRow p)) = g.products.map (fun _ => 1) :=
      List.map_congr_left (fun p hpm => lineBreaks_productRow p (hp p hpm))
    rw [this]
    simp
  have q₁ : lineBreaks "\nSupplier: " = 1 := rfl
  have q₂ : lineBreaks "\n" = 1 := rfl
  have q₃ : lineBreaks columnTitles = 1 := by decide
  have q₄ : lineBreaks "Contact Person: " = 0 := rfl
  have q₅ : lineBreaks "Email: " = 0 := rfl
  have q₆ : lineBreaks "Phone: " = 0 := rfl
  have q₇ : lineBreaks "" = 0 := rfl
  unfold supplierBlock contactLines
  simp only [lineBreaks_append, lineBreaks_pieces, hrows, hname, q₁, q₂, q₃]
  cases (g.supplier.get "contactPerson").truthy <;>
    cases (g.supplier.get "email").truthy <;>
    cases (g.supplier.get "phone").truthy <;>
    simp only [if_true, Bool.false_eq_true, if_false, lineBreaks_append, hcontact, hemail,
      hphone, q₂, q₄, q₅, q₆, q₇]

theorem lineBreaks_csvPreamble (r : Report)
    (hname : lineBreaks (r.warehouse.get "name").toStr = 0)
    (hloc : lineBreaks (r.warehouse.get "location").toStr = 0)
    (hgen : lineBreaks r.generatedAt = 0) : lineBreaks (csvPreamble r) = 9 := by
  have q₁ : lineBreaks "data:text/csv;charset=utf-8," = 0 := by decide
  have q₂ : lineBreaks "Warehouse Report: " = 0 := by decide
  have q₃ : lineBreaks " (" = 0 := rfl
  have q₄ : lineBreaks ")\n" = 1 := rfl
  have q₅ : lineBreaks "Generated on: " = 0 := by decide
  have q₆ : lineBreaks "\n\n" = 2 := rfl
  have q₇ : lineBreaks "SUMMARY\n" = 1 := by decide
  have q₈ : lineBreaks "Total Products," = 0 := by decide
  have q₉ : lineBreaks "\n" = 1 := rfl
  have q₁₀ : lineBreaks "Low Stock Items," = 0 := by decide
  have q₁₁ : lineBreaks "Estimated Total Value," = 0 := by decide
  have q₁₂ : lineBreaks "PRODUCTS BY SUPPLIER\n" = 1 := by decide
  unfold csvPreamble
  simp only [lineBreaks_append, lineBreaks_natText, lineBreaks_toFixed2, hname, hloc, hgen,
    q₁, q₂, q₃, q₄, q₅, q₆, q₇, q₈, q₉, q₁₀, q₁₁, q₁₂]

theorem group_sizes_sum (groups : List (String × SupplierGroup)) (enriched : List JsVal)
    (hI : GroupsOf groups enriched) :
    (groups.map (fun kg => kg.2.products.length)).sum = enriched.length := by
  obtain ⟨hnd, hcov, hgrp⟩ := hI
  have hlen : groups.map (fun kg => kg.2.products.length) =
      (groups.map Prod.fst).map
        (fun k => (enriched.filter (fun e => supplierKey e == k)).length) := by
    rw [List.map_map]
    apply List.map_congr_left
    intro kg hkg
    simp [(hgrp kg hkg).1]
  rw [hlen, sum_class_sizes supplierKey _ hnd enriched hcov]

set_option maxRecDepth 100000 in
theorem example_rowCount : rowCount (csvContent (exampleReport "t")) = 14 := by
  decide

set_option maxRecDepth 100000 in
theorem catalog_rowCount : rowCount (csvContent (catalogReport "t")) = 27 := by
  decide

/-- C20, counterexample: the CSV text of the spec's example has 14 rows for 1
product, that of the catalogue has 27 rows for 4 products; the rows that are
not product rows are 13 in one and 23 in the other. -/
theorem csv_row_count_not_fixed :
    generateReport "t" exampleWarehouses exampleProducts exampleInventory (JsVal.arr [])
      (JsVal.num 5) = .ok (some (exampleReport "t")) ∧
    generateReport "t" catalogWarehouses catalogProducts catalogInventory catalogSuppliers
      (JsVal.str "5") = .ok (some (catalogReport "t")) ∧
    rowCount (csvContent (exampleReport "t")) = (exampleReport "t").totalProducts + 13 ∧
    rowCount (csvContent (catalogReport "t")) = (catalogReport "t").totalProducts + 23 ∧
    ¬ ∃ fixed : Nat,
      rowCount (csvContent (exampleReport "t")) = (exampleReport "t").totalProducts + fixed ∧
      rowCount (csvContent (catalogReport "t")) = (catalogReport "t").totalProducts + fixed := by
  have h₁ : rowCount (csvContent (exampleReport "t")) = 14 := example_rowCount
  have h₂ : rowCount (csvContent (catalogReport "t")) = 27 := catalog_rowCount
  refine ⟨rfl, rfl, by rw [h₁]; rfl, by rw [h₂]; rfl, ?_⟩
  rintro ⟨fixed, hf₁, hf₂⟩
  rw [h₁] at hf₁
  rw [h₂] at hf₂
  have e₁ : (exampleReport "t").totalProducts = 1 := rfl
  have e₂ : (catalogReport "t").totalProducts = 4 := rfl
  omega

/-- C20, amended: when no value written into the text contains a line break,
splitting the CSV text of a produced report on `"\n"` gives `totalProducts`
rows, plus 10 for the header, the summary and the empty piece after the last
line break, plus, for every supplier group, 3 (an empty line, the supplier
line, the column titles) and one for each contact line that is present. -/
theorem csv_row_count (generatedAt : String)
    (warehouses products inventory suppliers warehouseId : JsVal) (r : Report)
    (hr : generateReport generatedAt warehouses products inventory suppliers warehouseId
      = .ok (some r))
    (hlines : ReportOnSingleLines r) :
    rowCount (csvContent r) =
      r.totalProducts + 10 +
        (r.productsBySupplier.map (fun kg => 3 + contactLines kg.2.supplier)).sum := by
  obtain ⟨ws, enriched, _, _, _, _, hg, htot, _, _, _⟩ :=
    generateReport_some generatedAt warehouses products inventory suppliers warehouseId r hr
  have hI := productsBySupplier_groupsOf enriched _ hg
  obtain ⟨hname, hloc, hgen, hgroups⟩ := hlines
  have hperm := objectValues_perm r.productsBySupplier hI.1
  have hblock : ∀ g ∈ objectValues r.productsBySupplier,
      lineBreaks (supplierBlock g) = 3 + contactLines g.supplier + g.products.length := by
    intro g hgm
    obtain ⟨kg, hkg, rfl⟩ := List.mem_map.mp (hperm.mem_iff.mp hgm)
    exact lineBreaks_supplierBlock kg.2 (hgroups kg hkg).1 (hgroups kg hkg).2
  have hsum : ((objectValues r.productsBySupplier).map
      (fun g => lineBreaks (supplierBlock g))).sum =
      ((r.productsBySupplier.map Prod.snd).map
        (fun g => 3 + contactLines g.supplier + g.products.length)).sum := by
    rw [List.map_congr_left hblock]
    exact (hperm.map _).sum_eq
  have hsplit : ((r.productsBySupplier.map Prod.snd).map
      (fun g => 3 + contactLines g.supplier + g.products.length)).sum =
      (r.productsBySupplier.map (fun kg => 3 + contactLines kg.2.supplier)).sum +
        (r.productsBySupplier.map (fun kg => kg.2.products.length)).sum := by
    rw [List.map_map, ← List.sum_map_add]
    rfl
  unfold rowCount
  rw [csvContent_eq, lineBreaks_append, lineBreaks_pieces, hsum, hsplit,
    lineBreaks_csvPreamble r hname hloc hgen, group_sizes_sum _ _ hI, htot]
  omega

/-- C20 amended, on the catalogue: 4 products, 10, and 4, 6 and 3 for the
blocks of Acme (one contact line), Zenith (three) and the sentinel group (none)
make 27 rows. -/
theorem csv_row_count_witness :
    rowCount (csvContent (catalogReport "t")) =
      (catalogReport "t").totalProducts + 10 +
        ((catalogReport "t").productsBySupplier.map
          (fun kg => 3 + contactLines kg.2.supplier)).sum ∧
    ((catalogReport "t").productsBySupplier.map
      (fun kg => 3 + contactLines kg.2.supplier)).sum = 13 :=
  ⟨csv_row_count "t" catalogWarehouses catalogProducts catalogInventory catalogSuppliers
    (JsVal.str "5") (catalogReport "t") rfl
    (by
      refine ⟨by decide, by decide, by decide, ?_⟩
      intro kg hkg
      simp only [catalogReport, List.mem_cons, List.mem_singleton, List.not_mem_nil,
        or_false] at hkg
      rcases hkg with rfl | rfl | rfl
      · refine ⟨⟨by decide, by decide, by decide, by decide⟩, ?_⟩
        intro p hp
        simp only [List.mem_singleton] at hp
        subst hp
        exact ⟨by decide, by decide, by decide, by decide, by decide⟩
      · refine ⟨⟨by decide, by decide, by decide, by decide⟩, ?_⟩
        intro p hp
        simp only [List.mem_cons, List.mem_singleton, List.not_mem_nil, or_false] at hp
        rcases hp with rfl | rfl <;>
          exact ⟨by decide, by decide, by decide, by decide, by decide⟩
      · refine ⟨⟨by decide, by decide, by decide, by decide⟩, ?_⟩
        intro p hp
        simp only [List.mem_singleton] at hp
        subst hp
        exact ⟨by decide, by decide, by decide, by decide, by decide⟩),
   by decide⟩

/-! ## The summary block -/

theorem digitChar_isDigit : ∀ d, d < 10 → (Nat.digitChar d).isDigit = true := by
  decide

theorem toDigitsCore_isDigit (fuel : Nat) :
    ∀ (n : Nat) (ds : List Char), (∀ c ∈ ds, c.isDigit = true) →
      ∀ c ∈ Nat.toDigitsCore 10 fuel n ds, c.isDigit = true := by
  induction fuel with
  | zero => intro n ds h; simpa [Nat.toDigitsCore] using h
  | succ fuel ih =>
    intro n ds h
    have hcons : ∀ c ∈ Nat.digitChar (n % 10) :: ds, c.isDigit = true := by
      intro c hm
      rcases List.mem_cons.mp hm with he | he
      · rw [he]
        exact digitChar_isDigit _ (Nat.mod_lt _ (by decide))
      · exact h c he
    unfold Nat.toDigitsCore
    simp only []
    split
    · exact hcons
    · exact ih _ _ hcons

theorem toDigitsCore_ne_nil (fuel : Nat) :
    ∀ (n : Nat) (ds : List Char), ds ≠ [] → Nat.toDigitsCore 10 fuel n ds ≠ [] := by
  induction fuel with
  | zero => intro n ds h; simpa [Nat.toDigitsCore] using h
  | succ fuel ih =>
    intro n ds _
    unfold Nat.toDigitsCore
    simp only []
    split
    · exact List.cons_ne_nil _ _
    · exact ih _ _ (List.cons_ne_nil _ _)

theorem natText_digits (n : Nat) :
    (toString n).data ≠ [] ∧ ∀ c ∈ (toString n).data, c.isDigit = true := by
  constructor
  · show Nat.toDigits 10 n ≠ []
    unfold Nat.toDigits Nat.toDigitsCore
    simp only []
    split
    · exact List.cons_ne_nil _ _
    · exact toDigitsCore_ne_nil _ _ _ (List.cons_ne_nil _ _)
  · show ∀ c ∈ Nat.toDigits 10 n, c.isDigit = true
    exact toDigitsCore_isDigit _ n [] (by simp)

set_option maxRecDepth 100000 in
theorem two_digit_text : ∀ k, k < 100 →
    ((if k < 10 then "0" else "") ++ toString k).data =
      [Nat.digitChar (k / 10), Nat.digitChar (k % 10)] := by
  decide

theorem twoDecimalPlaces_of_parts (sign : String) (whole : List Char) (d₁ d₂ : Char)
    (hsign : sign = "" ∨ sign = "-") (hne : whole ≠ [])
    (hwhole : ∀ c ∈ whole, c.isDigit = true) (h₁ : d₁.isDigit = true) (h₂ : d₂.isDigit = true)
    (text : String) (htext : text.data = sign.data ++ whole ++ ['.', d₁, d₂]) :
    twoDecimalPlaces text = true := by
  unfold twoDecimalPlaces
  rw [htext]
  have hrev : (sign.data ++ whole ++ ['.', d₁, d₂]).reverse =
      d₂ :: d₁ :: '.' :: (sign.data ++ whole).reverse := by
    simp
  rw [hrev]
  simp only [List.reverse_reverse, h₁, h₂, Bool.true_and]
  have hall : whole.all Char.isDigit = true := List.all_eq_true.mpr hwhole
  have hemp : whole.isEmpty = false := by
    cases whole with
    | nil => exact absurd rfl hne
    | cons c cs => rfl
  rcases hsign with rfl | rfl
  · cases whole with
    | nil => exact absurd rfl hne
    | cons c cs =>
      have hc : c ≠ '-' := by
        intro he
        have := hwhole c (List.mem_cons_self _ _)
        rw [he] at this
        exact absurd this (by decide)
      show (match c :: cs with
        | '-' :: ds => !ds.isEmpty && ds.all Char.isDigit
        | ds => !ds.isEmpty && ds.all Char.isDigit) = true
      split
      · rename_i ds heq
        exact absurd (List.cons.inj heq).1 hc
      · simp [hall]
  · show (match '-' :: whole with
      | '-' :: ds => !ds.isEmpty && ds.all Char.isDigit
      | ds => !ds.isEmpty && ds.all Char.isDigit) = true
    simp [hall, hemp]

theorem twoDecimalPlaces_hundredths (sign : String) (hsign : sign = "" ∨ sign = "-") (n : Nat) :
    twoDecimalPlaces (sign ++ hundredthsText n) = true := by
  have hk := two_digit_text (n % 100) (Nat.mod_lt _ (by decide))
  have hd := natText_digits (n / 100)
  apply twoDecimalPlaces_of_parts sign (toString (n / 100)).data
    (Nat.digitChar (n % 100 / 10)) (Nat.digitChar (n % 100 % 10)) hsign hd.1 hd.2
    (digitChar_isDigit _ (by omega)) (digitChar_isDigit _ (Nat.mod_lt _ (by decide)))
  unfold hundredthsText
  simp only [String.data_append, List.append_assoc] at hk ⊢
  rw [hk]
  rfl

theorem toFixed2_two_decimals (x : JsNumber) (h : x.belowTenPow21 = true) :
    twoDecimalPlaces x.toFixed2 = true := by
  cases x with
  | nan => exact absurd h (by decide)
  | negInf => exact absurd h (by decide)
  | posInf => exact absurd h (by decide)
  | fin m e =>
    have hlow : atLeastTenPow21 m.natAbs e = false := by
      simpa [JsNumber.belowTenPow21] using h
    unfold JsNumber.toFixed2
    simp only [hlow, Bool.false_eq_true, if_false]
    apply twoDecimalPlaces_hundredths
    by_cases hm : m < 0
    · right; simp [hm]
    · left; simp [hm]

theorem csvPreamble_eq (r : Report) :
    csvPreamble r = csvHeader r ++ "SUMMARY\n" ++
      ((summaryLines r).map (fun line => line ++ "\n")).foldr (fun line text => line ++ text) ""
      ++ "\nPRODUCTS BY SUPPLIER\n" := by
  unfold csvPreamble csvHeader summaryLines
  simp only [List.map_cons, List.map_nil, List.foldr_cons, List.foldr_nil, String.append_assoc,
    String.append_empty]
  rfl

theorem toFixed2_exponent_form :
    (JsNumber.fin (10 ^ 21) 0).belowTenPow21 = false ∧
    (JsNumber.fin (10 ^ 21) 0).toFixed2 = "1e+21" ∧
    JsNumber.nan.toFixed2 = "NaN" := by
  refine ⟨by decide, by decide, rfl⟩

/-- C21, amended: in the CSV text the line `SUMMARY` is followed by exactly three
key/value lines, in this order: `Total Products` with the report's
`totalProducts`, `Low Stock Items` with its `lowStockProducts`, and
`Estimated Total Value` with its `totalStockValue` as written by `toFixed(2)`;
an empty line ends the block.  None of the three lines contains a line break,
and the value, when it is a finite number below `10 ^ 21`, is written as an
optional minus sign, digits, a point and exactly two digits. -/
theorem csv_summary_block (r : Report) :
    exportToCSV (some r) = some (csvHeader r ++ "SUMMARY\n" ++
      ((summaryLines r).map (fun line => line ++ "\n")).foldr (fun line text => line ++ text) ""
      ++ "\nPRODUCTS BY SUPPLIER\n" ++
      ((objectValues r.productsBySupplier).map supplierBlock).foldr
        (fun block text => block ++ text) "") ∧
    summaryLines r =
      ["Total Products," ++ toString r.totalProducts,
       "Low Stock Items," ++ toString r.lowStockProducts,
       "Estimated Total Value," ++ r.totalStockValue.toFixed2] ∧
    (∀ line ∈ summaryLines r, lineBreaks line = 0) ∧
    (r.totalStockValue.belowTenPow21 = true →
      twoDecimalPlaces r.totalStockValue.toFixed2 = true) := by
  refine ⟨?_, rfl, ?_, toFixed2_two_decimals _⟩
  · simp only [exportToCSV, Option.map_some', csvContent_eq, csvPreamble_eq]
  · intro line hline
    simp only [summaryLines, List.mem_cons, List.mem_singleton, List.not_mem_nil,
      or_false] at hline
    rcases hline with rfl | rfl | rfl
    · rw [lineBreaks_append, lineBreaks_natText]; rfl
    · rw [lineBreaks_append, lineBreaks_natText]; rfl
    · rw [lineBreaks_append, lineBreaks_toFixed2]; rfl

/-- C21 amended, on the catalogue: 4 products, 1 of them low on stock, a value of
102.00. -/
theorem csv_summary_block_witness :
    (catalogReport "t").totalStockValue.belowTenPow21 = true ∧
    twoDecimalPlaces (catalogReport "t").totalStockValue.toFixed2 = true ∧
    exportToCSV (some (catalogReport "t")) = some (csvHeader (catalogReport "t") ++
      "SUMMARY\n" ++
      ((summaryLines (catalogReport "t")).map (fun line => line ++ "\n")).foldr
        (fun line text => line ++ text) ""
      ++ "\nPRODUCTS BY SUPPLIER\n" ++
      ((objectValues (catalogReport "t").productsBySupplier).map supplierBlock).foldr
        (fun block text => block ++ text) "") ∧
    summaryLines (catalogReport "t") =
      ["Total Products,4", "Low Stock Items,1", "Estimated Total Value,102.00"] :=
  ⟨by decide, (csv_summary_block (catalogReport "t")).2.2.2 (by decide),
    (csv_summary_block (catalogReport "t")).1, by decide⟩

/-! ## Columns of a product row and lines of a supplier block -/

/-- C22: every product row is, in this order, the quoted name, the SKU, the
quoted description, the current stock, the minimum stock and the status, with
commas between them and a line break at the end; the description is empty when
the product has none and the minimum stock is 0 when the product has no
`minStockLevel`.  Every supplier block opens with an empty line and the line
`Supplier: <name>`, followed by the lines of contact person, email and phone,
each written only when the supplier has that field (never for an absent one),
then the column titles and the rows. -/
theorem csv_row_columns_and_supplier_lines :
    (∀ product : JsVal, ∃ description minimum : String,
      productRow product =
        "\"" ++ (product.get "name").toStr ++ "\"," ++ (product.get "sku").toStr ++ ",\"" ++
          description ++ "\"," ++ (product.get "currentStock").toStr ++ "," ++ minimum ++ "," ++
          csvStatus product ++ "\n" ∧
      (product.get "description" = JsVal.undefined → description = "") ∧
      ((product.get "description").truthy = true →
        description = (product.get "description").toStr) ∧
      (product.get "minStockLevel" = JsVal.undefined → minimum = "0") ∧
      ((product.get "minStockLevel").truthy = true →
        minimum = (product.get "minStockLevel").toStr)) ∧
    (∀ (csv : String) (group : SupplierGroup),
      appendSupplierBlock csv group =
        csv ++ ("\nSupplier: " ++ (group.supplier.get "name").toStr ++ "\n") ++
          contactLine "Contact Person: " (group.supplier.get "contactPerson") ++
          contactLine "Email: " (group.supplier.get "email") ++
          contactLine "Phone: " (group.supplier.get "phone") ++
          columnTitles ++
          (group.products.map productRow).foldr (fun row text => row ++ text) "") ∧
    (∀ (label : String) (v : JsVal),
      (v = JsVal.undefined → contactLine label v = "") ∧
      (v.truthy = true → contactLine label v = label ++ v.toStr ++ "\n") ∧
      (contactLine label v ≠ "" → v ≠ JsVal.undefined ∧ v ≠ JsVal.null)) := by
  refine ⟨?_, ?_, ?_⟩
  · intro product
    refine ⟨(if (product.get "description").truthy then product.get "description"
        else JsVal.str "").toStr,
      (if (product.get "minStockLevel").truthy then product.get "minStockLevel"
        else JsVal.num 0).toStr, rfl, ?_, ?_, ?_, ?_⟩
    · intro h
      rw [h]
      rfl
    · intro h
      rw [if_pos h]
    · intro h
      rw [h]
      rfl
    · intro h
      rw [if_pos h]
  · intro csv group
    rw [appendSupplierBlock_eq]
    unfold supplierBlock contactLine
    simp only [String.append_assoc]
  · intro label v
    refine ⟨?_, ?_, ?_⟩
    · intro h
      rw [h]
      rfl
    · intro h
      unfold contactLine
      rw [if_pos h]
    · intro h
      constructor <;>
      · intro hv
        apply h
        rw [hv]
        rfl

/-- C22 on the catalogue: the row of Gear, which has neither a description nor
a `minStockLevel`, the row of Cog, and the block of Acme, which has an email
but neither contact person nor phone. -/
theorem csv_row_columns_and_supplier_lines_witness :
    (∃ description minimum : String,
      productRow catalogGear =
        "\"" ++ (catalogGear.get "name").toStr ++ "\"," ++ (catalogGear.get "sku").toStr ++
          ",\"" ++ description ++ "\"," ++ (catalogGear.get "currentStock").toStr ++ "," ++
          minimum ++ "," ++ csvStatus catalogGear ++ "\n" ∧
      (catalogGear.get "description" = JsVal.undefined → description = "") ∧
      ((catalogGear.get "description").truthy = true →
        description = (catalogGear.get "description").toStr) ∧
      (catalogGear.get "minStockLevel" = JsVal.undefined → minimum = "0") ∧
      ((catalogGear.get "minStockLevel").truthy = true →
        minimum = (catalogGear.get "minStockLevel").toStr)) ∧
    catalogGear.get "description" = JsVal.undefined ∧
    catalogGear.get "minStockLevel" = JsVal.undefined ∧
    productRow catalogGear = "\"Gear\",G-1,\"\",0,0,OK\n" ∧
    productRow catalogCog = "\"Cog\",C-1,\"\",9,5,OK\n" ∧
    appendSupplierBlock "" ⟨catalogAcme, [catalogNut]⟩ =
      "\nSupplier: Acme\nEmail: a@x.io\n" ++ columnTitles ++ "\"Nut\",N-1,\"\",20,0,OK\n" :=
  ⟨csv_row_columns_and_supplier_lines.1 catalogGear, rfl, rfl, by decide, by decide, by decide⟩

/-! ## Low-stock rows and the summary -/

theorem class_counts (groups : List (String × SupplierGroup)) (enriched : List JsVal)
    (hI : GroupsOf groups enriched) (q : JsVal → Bool) :
    (groups.map (fun kg => (kg.2.products.filter q).length)).sum = (enriched.filter q).length := by
  obtain ⟨hnd, hcov, hgrp⟩ := hI
  have hlen : groups.map (fun kg => (kg.2.products.filter q).length) =
      (groups.map Prod.fst).map
        (fun k => ((enriched.filter q).filter (fun e => supplierKey e == k)).length) := by
    rw [List.map_map]
    apply List.map_congr_left
    intro kg hkg
    simp only [Function.comp, (hgrp kg hkg).1, List.filter_filter]
    congr 1
    apply List.filter_congr
    intro x _
    exact Bool.and_comm _ _
  rw [hlen, sum_class_sizes supplierKey _ hnd (enriched.filter q)
    (fun e he => hcov e (List.mem_filter.mp he).1)]

theorem exported_count (r : Report) (enriched : List JsVal)
    (hI : GroupsOf r.productsBySupplier enriched) (q : JsVal → Bool) :
    ((exportedProducts r).filter q).length = (enriched.filter q).length := by
  have hperm := objectValues_perm r.productsBySupplier hI.1
  unfold exportedProducts
  rw [List.filter_flatMap, List.flatMap, List.length_flatten, List.map_map]
  have h := (hperm.map (List.length ∘ fun g : SupplierGroup => g.products.filter q)).sum_eq
  rw [h, List.map_map]
  exact class_counts _ _ hI q

theorem csvStatus_low_iff (p : JsVal) : (csvStatus p == "LOW STOCK") = isLowStock p := by
  unfold csvStatus isLowStock
  cases ((p.get "minStockLevel").gt (JsVal.num 0) &&
    (p.get "currentStock").le (p.get "minStockLevel")) <;> decide

/-! ## Low-stock rows of the CSV text -/

theorem takeWhile_append_cons {α : Type} (p : α → Bool) (l : List α) (a : α) (rest : List α)
    (hl : ∀ x ∈ l, p x = true) (ha : p a = false) :
    (l ++ a :: rest).takeWhile p = l := by
  induction l with
  | nil => simp [List.takeWhile, ha]
  | cons x xs ih =>
    have hx : p x = true := hl x (List.mem_cons_self _ _)
    simp only [List.cons_append, List.takeWhile_cons, hx, if_true]
    rw [ih (fun y hy => hl y (List.mem_cons_of_mem _ hy))]

theorem statusColumn_of_row (cells status : String) (h : ',' ∉ status.data) :
    statusColumn (cells ++ "," ++ status ++ "\n") = status := by
  unfold statusColumn
  have hdata : (cells ++ "," ++ status ++ "\n").data.reverse =
      '\n' :: (status.data.reverse ++ ',' :: cells.data.reverse) := by
    simp [String.data_append]
  rw [hdata, List.drop_one, List.tail_cons,
    takeWhile_append_cons _ _ _ _ (fun x hx => by
      have hx' : x ∈ status.data := List.mem_reverse.mp hx
      have : x ≠ ',' := fun he => h (he ▸ hx')
      simpa using this) (by simp),
    List.reverse_reverse]

theorem statusColumn_productRow (p : JsVal) : statusColumn (productRow p) = csvStatus p := by
  unfold productRow
  apply statusColumn_of_row
  unfold csvStatus
  split <;> decide

theorem supplierBlock_head (g : SupplierGroup) :
    supplierBlock g =
      blockHead g ++ (g.products.map productRow).foldr (fun row text => row ++ text) "" :=
  rfl

theorem csvRows_eq (r : Report) : csvRows r = (exportedProducts r).map productRow := by
  unfold csvRows exportedProducts
  induction objectValues r.productsBySupplier with
  | nil => rfl
  | cons g rest ih =>
    simp only [List.flatMap_cons, List.map_append, ih]

theorem csvRows_flatten (r : Report) :
    csvRows r =
      ((objectValues r.productsBySupplier).map (fun g => g.products.map productRow)).flatten := by
  unfold csvRows
  rfl

theorem csvContent_rows (r : Report) :
    exportToCSV (some r) = some (csvPreamble r ++
      ((objectValues r.productsBySupplier).map
        (fun g => blockHead g ++
          (g.products.map productRow).foldr (fun row text => row ++ text) "")).foldr
        (fun block text => block ++ text) "") := by
  have hfun : (fun g => blockHead g ++
      (g.products.map productRow).foldr (fun row text => row ++ text) "") = supplierBlock := by
    funext g
    exact (supplierBlock_head g).symm
  rw [hfun]
  simp only [exportToCSV, Option.map_some', csvContent_eq]

theorem csvRows_count (r : Report) (enriched : List JsVal)
    (hI : GroupsOf r.productsBySupplier enriched) :
    ((csvRows r).filter (fun row => statusColumn row == "LOW STOCK")).length
      = (lowStockProducts enriched).length ∧
    (csvRows r).length = enriched.length := by
  rw [csvRows_eq]
  constructor
  · rw [List.filter_map, List.length_map]
    have hq : ((fun row => statusColumn row == "LOW STOCK") ∘ productRow) = isLowStock := by
      funext p
      simp only [Function.comp, statusColumn_productRow]
      exact csvStatus_low_iff p
    rw [hq, exported_count r enriched hI]
    rfl
  · rw [List.length_map]
    have h := exported_count r enriched hI (fun _ => true)
    simp only [List.filter_true] at h
    exact h

theorem csvPreamble_low_stock_line (r : Report) :
    ∃ before after : String, csvPreamble r =
      before ++ ("Low Stock Items," ++ toString r.lowStockProducts ++ "\n") ++ after := by
  refine ⟨"data:text/csv;charset=utf-8," ++
      ("Warehouse Report: " ++ (r.warehouse.get "name").toStr ++ " (" ++
        (r.warehouse.get "location").toStr ++ ")\n") ++
      ("Generated on: " ++ r.generatedAt ++ "\n\n") ++
      "SUMMARY\n" ++
      ("Total Products," ++ toString r.totalProducts ++ "\n"),
    ("Estimated Total Value," ++ r.totalStockValue.toFixed2 ++ "\n\n") ++
      "PRODUCTS BY SUPPLIER\n", ?_⟩
  unfold csvPreamble
  simp only [String.append_assoc]

/-- C28: the CSV text of a produced report is the header and summary followed,
group after group, by the head of the block and the rows of the products of the
group; the status column of every row is the status of its product.  Among
these rows the ones whose status column reads `LOW STOCK` are as many as the
report's `lowStockProducts`, the number that the summary line `Low Stock Items`
of the same text prints, and the rows are as many as `totalProducts`. -/
theorem csv_low_stock_rows (generatedAt : String)
    (warehouses products inventory suppliers warehouseId : JsVal) (r : Report)
    (hr : generateReport generatedAt warehouses products inventory suppliers warehouseId
      = .ok (some r)) :
    exportToCSV (some r) = some (csvPreamble r ++
      ((objectValues r.productsBySupplier).map
        (fun g => blockHead g ++
          (g.products.map productRow).foldr (fun row text => row ++ text) "")).foldr
        (fun block text => block ++ text) "") ∧
    csvRows r =
      ((objectValues r.productsBySupplier).map (fun g => g.products.map productRow)).flatten ∧
    (∀ product : JsVal, statusColumn (productRow product) = csvStatus product) ∧
    ((csvRows r).filter (fun row => statusColumn row == "LOW STOCK")).length
      = r.lowStockProducts ∧
    (csvRows r).length = r.totalProducts ∧
    (∃ before after : String, csvPreamble r =
      before ++ ("Low Stock Items," ++ toString r.lowStockProducts ++ "\n") ++ after) := by
  obtain ⟨ws, enriched, _, _, _, _, hg, htot, _, hlow, _⟩ :=
    generateReport_some generatedAt warehouses products inventory suppliers warehouseId r hr
  have hI := productsBySupplier_groupsOf enriched _ hg
  have hcount := csvRows_count r enriched hI
  exact ⟨csvContent_rows r, csvRows_flatten r, statusColumn_productRow,
    hcount.1.trans hlow.symm, hcount.2.trans htot.symm, csvPreamble_low_stock_line r⟩

/-- C28 on the catalogue: four product rows in the text, one of them
`LOW STOCK`, and the summary line `Low Stock Items,1`. -/
theorem csv_low_stock_rows_witness :
    (exportToCSV (some (catalogReport "t")) = some (csvPreamble (catalogReport "t") ++
      ((objectValues (catalogReport "t").productsBySupplier).map
        (fun g => blockHead g ++
          (g.products.map productRow).foldr (fun row text => row ++ text) "")).foldr
        (fun block text => block ++ text) "") ∧
    csvRows (catalogReport "t") =
      ((objectValues (catalogReport "t").productsBySupplier).map
        (fun g => g.products.map productRow)).flatten ∧
    (∀ product : JsVal, statusColumn (productRow product) = csvStatus product) ∧
    ((csvRows (catalogReport "t")).filter (fun row => statusColumn row == "LOW STOCK")).length
      = (catalogReport "t").lowStockProducts ∧
    (csvRows (catalogReport "t")).length = (catalogReport "t").totalProducts ∧
    (∃ before after : String, csvPreamble (catalogReport "t") =
      before ++ ("Low Stock Items," ++ toString (catalogReport "t").lowStockProducts ++ "\n")
        ++ after)) ∧
    csvRows (catalogReport "t") =
      ["\"Nut\",N-1,\"\",20,0,OK\n", "\"Bolt\",B-1,\"Steel, M8\",3,10,LOW STOCK\n",
       "\"Cog\",C-1,\"\",9,5,OK\n", "\"Gear\",G-1,\"\",0,0,OK\n"] ∧
    (csvRows (catalogReport "t")).map statusColumn = ["OK", "LOW STOCK", "OK", "OK"] :=
  ⟨csv_low_stock_rows "t" catalogWarehouses catalogProducts catalogInventory catalogSuppliers
    (JsVal.str "5") (catalogReport "t") rfl, by decide, by decide⟩

/-! ## The stock quantity of an inventory record -/

theorem getProp_of_defined (v : JsVal) (name : String)
    (h₁ : v ≠ JsVal.undefined) (h₂ : v ≠ JsVal.null) : v.getProp name = .ok (v.get name) := by
  cases v <;> first | rfl | exact absurd rfl h₁ | exact absurd rfl h₂

theorem stockLevel_eq (item : JsVal) (h₁ : item ≠ JsVal.undefined) (h₂ : item ≠ JsVal.null) :
    stockLevel item = .ok (stockQuantity item) := by
  unfold stockLevel stockQuantity
  simp only [getProp_of_defined item _ h₁ h₂]
  cases (item.get "stockLevel").truthy <;> cases (item.get "stock_level").truthy <;>
    cases (item.get "quantity").truthy <;> rfl

theorem defined_of_truthy (v : JsVal) (h : v.truthy = true) :
    v ≠ JsVal.undefined ∧ v ≠ JsVal.null := by
  constructor <;> (intro hv; rw [hv] at h; exact absurd h (by decide))

/-- C23, counterexample: a record whose `stockLevel` is present with the value
0 and whose `quantity` is 7 resolves to 7 at every reading site, where the
first field present gives 0. -/
theorem stock_first_present_fails :
    soldOutRecord.get "stockLevel" = JsVal.num 0 ∧
    firstPresentStock soldOutRecord = JsVal.num 0 ∧
    stockQuantity soldOutRecord = JsVal.num 7 ∧
    stockLevel soldOutRecord = .ok (JsVal.num 7) ∧
    getSortValue soldOutRecord "stock" = .ok (JsVal.num 7) ∧
    matchesStockFilter "critical" soldOutRecord = .ok false ∧
    criticalStockItems [soldOutRecord] = .ok [] ∧
    stockLevel soldOutRecord ≠ .ok (firstPresentStock soldOutRecord) := by
  refine ⟨rfl, rfl, rfl, rfl, rfl, rfl, rfl, ?_⟩
  intro h
  have h' : (JsVal.num 7) = JsVal.num 0 := Except.ok.inj h
  exact absurd (JsVal.num.inj h') (by decide)

/-- C23, amended: at every site that reads a stock quantity the resolved value
is the first of `stockLevel`, `stock_level`, `quantity` that is truthy (present
and neither 0 nor empty), and the number 0 when none is; a record with a truthy
`stockLevel` resolves to it whatever its other fields hold.  The dashboard
total reads it from any item; the dashboard filters, the sort value, the stock
filter and the table cell read it from an item that is neither `undefined` nor
`null`. -/
theorem stock_first_truthy (item : JsVal) (h₁ : item ≠ JsVal.undefined)
    (h₂ : item ≠ JsVal.null) :
    stockLevel item = .ok (stockQuantity item) ∧
    getSortValue item "stock" = .ok (stockQuantity item) ∧
    getSortValue item "status" = .ok
      (if (stockQuantity item).ltOp (JsVal.num 5) then JsVal.num 0
       else if (stockQuantity item).ltOp (JsVal.num 10) then JsVal.num 1 else JsVal.num 2) ∧
    matchesStockFilter "critical" item = .ok ((stockQuantity item).ltOp (JsVal.num 5)) ∧
    matchesStockFilter "low" item = .ok
      ((stockQuantity item).ltOp (JsVal.num 10) && (stockQuantity item).ge (JsVal.num 5)) ∧
    matchesStockFilter "ok" item = .ok ((stockQuantity item).ge (JsVal.num 10)) ∧
    (∀ limit : Int, belowLimit limit item =
      .ok (item.truthy && (stockQuantity item).ltOp (JsVal.num limit))) ∧
    ((item.get "stockLevel").truthy = true → stockQuantity item = item.get "stockLevel") ∧
    ((item.get "stockLevel").truthy = false → (item.get "stock_level").truthy = true →
      stockQuantity item = item.get "stock_level") ∧
    ((item.get "stockLevel").truthy = false → (item.get "stock_level").truthy = false →
      (item.get "quantity").truthy = true → stockQuantity item = item.get "quantity") ∧
    ((item.get "stockLevel").truthy = false → (item.get "stock_level").truthy = false →
      (item.get "quantity").truthy = false → stockQuantity item = JsVal.num 0) := by
  have hs := stockLevel_eq item h₁ h₂
  refine ⟨hs, ?_, ?_, ?_, ?_, ?_, ?_, ?_, ?_, ?_, ?_⟩
  · simp only [getSortValue, hs]
    rfl
  · simp only [getSortValue, hs]
    simp only [show ("status" = "warehouse") = False from by decide,
      show ("status" = "stock") = False from by decide, if_false, if_true]
    split <;> [rfl; (split <;> rfl)]
  · simp only [matchesStockFilter, hs]
    rfl
  · simp only [matchesStockFilter, hs]
    rfl
  · simp only [matchesStockFilter, hs]
    rfl
  · intro limit
    unfold belowLimit
    rw [hs]
    cases item.truthy <;> rfl
  · intro h
    unfold stockQuantity
    rw [if_pos h]
  · intro ha hb
    unfold stockQuantity
    simp [ha, hb]
  · intro ha hb hc
    unfold stockQuantity
    simp [ha, hb, hc]
  · intro ha hb hc
    unfold stockQuantity
    simp [ha, hb, hc]

/-- C23 amended, on a record that carries all three names: the truthy
`stockLevel` 12 is the resolved quantity at every site. -/
theorem stock_first_truthy_witness :
    threeNamesRecord ≠ JsVal.undefined ∧ threeNamesRecord ≠ JsVal.null ∧
    (threeNamesRecord.get "stockLevel").truthy = true ∧
    stockLevel threeNamesRecord = .ok (stockQuantity threeNamesRecord) ∧
    getSortValue threeNamesRecord "stock" = .ok (stockQuantity threeNamesRecord) ∧
    stockQuantity threeNamesRecord = threeNamesRecord.get "stockLevel" ∧
    threeNamesRecord.get "stockLevel" = JsVal.num 12 := by
  have hu : threeNamesRecord ≠ JsVal.undefined := fun h => by cases h
  have hn : threeNamesRecord ≠ JsVal.null := fun h => by cases h
  have h := stock_first_truthy threeNamesRecord hu hn
  exact ⟨hu, hn, rfl, h.1, h.2.1, h.2.2.2.2.2.2.2.1 rfl, rfl⟩

/-- C24, the code at a failing input: the inventory record of the product
carries its stock under the name `quantity`.  The dashboard and the inventory
screen resolve the quantity of that record to 3; `generateReport` reads
`stockLevel` alone, so `currentStock` is `undefined` (neither 3 nor a number),
the row prints `undefined`, and the product, 3 in stock for a minimum of 10,
is not counted as low on stock as it is when the field is named `stockLevel`. -/
theorem generateReport_reads_stockLevel_only :
    stockLevel (JsVal.obj [("id", JsVal.num 1), ("product", JsVal.obj [("id", JsVal.num 1)]),
      ("warehouse", JsVal.obj [("id", JsVal.num 5)]), ("quantity", JsVal.num 3)])
      = .ok (JsVal.num 3) ∧
    enrichedProducts exampleProducts legacyInventory (JsVal.arr []) (JsVal.num 5)
      = .ok [legacyEnriched] ∧
    legacyEnriched.get "currentStock" = JsVal.undefined ∧
    generateReport "t" exampleWarehouses exampleProducts legacyInventory (JsVal.arr [])
      (JsVal.num 5) = .ok (some (legacyReport "t")) ∧
    (legacyReport "t").lowStockProducts = 0 ∧
    productRow legacyEnriched = "\"undefined\",undefined,\"\",undefined,10,OK\n" ∧
    generateReport "t" exampleWarehouses exampleProducts exampleInventory (JsVal.arr [])
      (JsVal.num 5) = .ok (some (exampleReport "t")) ∧
    (exampleReport "t").lowStockProducts = 1 :=
  ⟨rfl, rfl, rfl, rfl, rfl, by decide, rfl, rfl⟩

/-! ## The inline unwrapping against extractDataFromResponse -/

theorem inlineUnwrap_within_extract (response : JsVal) (xs : List JsVal)
    (h : inlineUnwrap response = .ok xs) :
    extractDataFromResponse response = .ok xs ∨ xs = [] := by
  unfold inlineUnwrap at h
  unfold extractDataFromResponse
  cases hd : response.getProp "data" with
  | error e => simp [hd] at h
  | ok data =>
    simp only [hd] at h ⊢
    cases ha : data.isArray with
    | true =>
      simp only [ha, if_true] at h ⊢
      exact Or.inl h
    | false =>
      simp only [ha, Bool.false_eq_true, if_false] at h ⊢
      cases hc : data.getProp "content" with
      | error e => simp [hc] at h
      | ok content =>
        simp only [hc] at h
        have hget : content = data.get "content" := getProp_ok data "content" content hc
        subst hget
        cases hca : (data.get "content").isArray with
        | false =>
          simp only [hca, Bool.false_eq_true, if_false, Except.ok.injEq] at h
          exact Or.inr h.symm
        | true =>
          simp only [hca, if_true] at h
          have ht : data.truthy = true := by
            cases data <;> (first | rfl | simp [JsVal.get, JsVal.isArray] at hca)
          left
          simp only [ht, hca, Bool.and_self, if_true]
          exact h

/-- C25, the code at failing inputs: for a body that wraps the list under
`data` (or under any key other than `content`) `extractDataFromResponse`
returns the list and the inline unwrapping returns the empty sequence; for the
body `null` `extractDataFromResponse` returns the empty sequence and the inline
unwrapping raises a TypeError.  On a body wrapped under `content` both return
the list. -/
theorem inlineUnwrap_differs :
    extractDataFromResponse dataEnvelope = .ok [JsVal.obj [("id", JsVal.num 1)]] ∧
    inlineUnwrap dataEnvelope = .ok [] ∧
    extractDataFromResponse productsEnvelope = .ok [JsVal.obj [("id", JsVal.num 1)]] ∧
    inlineUnwrap productsEnvelope = .ok [] ∧
    guardedUnwrap dataEnvelope = .ok [] ∧
    extractDataFromResponse (responseWith JsVal.null) = .ok [] ∧
    inlineUnwrap (responseWith JsVal.null) = .error .typeError ∧
    extractDataFromResponse contentEnvelope = .ok [JsVal.obj [("id", JsVal.num 1)]] ∧
    inlineUnwrap contentEnvelope = .ok [JsVal.obj [("id", JsVal.num 1)]] :=
  ⟨rfl, rfl, rfl, rfl, rfl, rfl, rfl, rfl, rfl⟩

/-! ## The payload of a stock adjustment -/

theorem lookup_replace {β : Type} (props : List (String × β)) (name : String) (v : β)
    (other : String) :
    (props.map (fun p => if p.1 = name then (p.1, v) else p)).lookup other =
      if other = name then (if (props.lookup name).isSome then some v else none)
      else props.lookup other := by
  induction props with
  | nil => simp
  | cons p rest ih =>
    obtain ⟨k, w⟩ := p
    by_cases hk : k = name
    · subst hk
      by_cases ho : other = k
      · subst ho
        simp [lookup_cons_self]
      · simp only [List.map_cons, if_true, ho, if_false] at ih ⊢
        rw [lookup_cons_ne other k v _ ho, lookup_cons_ne other k w rest ho]
        exact ih
    · by_cases ho : other = name
      · subst ho
        simp only [List.map_cons, hk, if_false, if_true] at ih ⊢
        rw [lookup_cons_ne other k w _ (Ne.symm hk), lookup_cons_ne other k w rest (Ne.symm hk)]
        exact ih
      · simp only [List.map_cons, hk, if_false, ho] at ih ⊢
        by_cases hok : other = k
        · subst hok
          rw [lookup_cons_self, lookup_cons_self]
        · rw [lookup_cons_ne other k w _ hok, lookup_cons_ne other k w rest hok]
          exact ih

theorem lookup_append_single {β : Type} (props : List (String × β)) (name : String) (v : β)
    (other : String) :
    (props ++ [(name, v)]).lookup other =
      if (props.lookup other).isSome then props.lookup other
      else if other = name then some v else none := by
  induction props with
  | nil =>
    by_cases ho : other = name
    · subst ho
      simp [lookup_cons_self]
    · simp [lookup_cons_ne other name v [] ho, ho]
  | cons p rest ih =>
    obtain ⟨k, w⟩ := p
    by_cases ho : other = k
    · subst ho
      simp [lookup_cons_self]
    · rw [List.cons_append, lookup_cons_ne other k w _ ho, lookup_cons_ne other k w rest ho]
      exact ih

theorem lookup_definePayloadProp_same (props : List (String × PayloadValue)) (name : String)
    (v : PayloadValue) : (definePayloadProp props name v).lookup name = some v := by
  unfold definePayloadProp
  cases h : (props.lookup name).isSome with
  | true => simp [lookup_replace, h]
  | false => simp [lookup_append_single, h]

theorem lookup_definePayloadProp_other (props : List (String × PayloadValue)) (name : String)
    (v : PayloadValue) (other : String) (hne : other ≠ name) :
    (definePayloadProp props name v).lookup other = props.lookup other := by
  unfold definePayloadProp
  cases h : (props.lookup name).isSome with
  | true => simp [lookup_replace, hne]
  | false =>
    simp only [Bool.false_eq_true, if_false, lookup_append_single, hne]
    cases hl : props.lookup other with
    | none => simp
    | some w => simp

theorem payload_product_id (s : JsVal) :
    (payload s).lookup "product_id"
      = some (PayloadValue.parsed (parseInt (s.get "product_id"))) := by
  unfold payload
  rw [lookup_definePayloadProp_other _ _ _ _ (by decide),
    lookup_definePayloadProp_other _ _ _ _ (by decide), lookup_definePayloadProp_same]

theorem formState_product_id (s : JsVal) (h : FormState s) :
    s.get "product_id" = JsVal.str "" := by
  induction h with
  | initial => rfl
  | warehouse s value _ ih =>
    show JsVal.field (setProp (spreadProps s) "warehouse_id" (JsVal.str value)) "product_id" = _
    rw [field_setProp_other _ _ _ _ (by decide), field_spreadProps, ih]
  | quantity s value _ ih =>
    show JsVal.field (setProp (spreadProps s) "adjustment_quantity" (JsVal.str value))
      "product_id" = _
    rw [field_setProp_other _ _ _ _ (by decide), field_spreadProps, ih]
  | adjustmentType s value _ ih =>
    show JsVal.field (setProp (spreadProps s) "adjustment_type" (JsVal.str value))
      "product_id" = _
    rw [field_setProp_other _ _ _ _ (by decide), field_spreadProps, ih]

/-- C26, the code at a failing input: with warehouse 5 and quantity 3 entered
the payload carries `warehouse_id` 5 and `adjustment_quantity` 3 as numbers and
`adjustment_type` unchanged, but `product_id` is `NaN`: the form has no control
for the product, so in every state it can reach `product_id` is the empty
string, and `parseInt("")` is `NaN`.  A quantity typed as `2.5` is cut to 2. -/
theorem payload_product_id_is_nan :
    FormState filledAdjustmentData ∧
    payload filledAdjustmentData =
      [("product_id", PayloadValue.parsed JsNumber.nan),
       ("warehouse_id", PayloadValue.parsed (JsNumber.fin 5 0)),
       ("adjustment_quantity", PayloadValue.parsed (JsNumber.fin 3 0)),
       ("adjustment_type", PayloadValue.copied (JsVal.str "STOCK_IN"))] ∧
    parseInt (JsVal.str "") = JsNumber.nan ∧
    parseInt (JsVal.str "2.5") = JsNumber.fin 2 0 ∧
    (∀ s : JsVal, FormState s →
      (payload s).lookup "product_id" = some (PayloadValue.parsed JsNumber.nan)) := by
  refine ⟨FormState.quantity _ _ (FormState.warehouse _ _ FormState.initial), rfl, rfl, rfl, ?_⟩
  intro s hs
  rw [payload_product_id, formState_product_id s hs]
  rfl

/-! ## Identifiers of mixed type -/

/-- C27: the selection `"5"` resolves warehouse 5 and keeps the product and
the inventory record of warehouse 5, because those comparisons coerce; the
inventory record whose product id is the string `"1"` is not matched to the
product whose id is the number 1, and the supplier whose id is the number 7 is
not matched to the reference `"7"`, because those comparisons are strict.  The
product is in the report with `currentStock` 0 and `supplier` null, although
its inventory record is in the selected warehouse and its supplier is in the
collection. -/
theorem generateReport_mixed_identifiers :
    generateReport "t" catalogWarehouses mixedIdProducts mixedIdInventory catalogSuppliers
      (JsVal.str "5") = .ok (some (mixedIdReport "t")) ∧
    (JsVal.num 5).looseEq (JsVal.str "5") = true ∧
    (JsVal.num 5).strictEq (JsVal.str "5") = false ∧
    warehouseInventory mixedIdInventory (JsVal.str "5") = .ok [mixedIdRecord] ∧
    ((mixedIdRecord.get "product").get "id").looseEq (JsVal.num 1) = true ∧
    ((mixedIdRecord.get "product").get "id").strictEq (JsVal.num 1) = false ∧
    mixedIdRecord.get "stockLevel" = JsVal.num 4 ∧
    catalogAcme ∈ catalogSuppliers.elems ∧
    (catalogAcme.get "id").looseEq (JsVal.str "7") = true ∧
    (catalogAcme.get "id").strictEq (JsVal.str "7") = false ∧
    enrichedProducts mixedIdProducts mixedIdInventory catalogSuppliers (JsVal.str "5")
      = .ok [mixedIdBolt] ∧
    mixedIdBolt.get "currentStock" = JsVal.num 0 ∧
    mixedIdBolt.get "supplier" = JsVal.null := by
  refine ⟨rfl, rfl, rfl, rfl, rfl, rfl, rfl, ?_, rfl, rfl, rfl, rfl, rfl⟩
  exact List.mem_cons_self _ _

/-! ## Who may modify a user -/

theorem strictEq_str_iff (v : JsVal) (s : String) :
    v.strictEq (JsVal.str s) = true ↔ v = JsVal.str s := by
  constructor
  · exact strictEq_eq v _
  · intro h
    rw [h]
    simp [JsVal.strictEq]

theorem canModifyUser_eq (user targetUser : JsVal)
    (hu₁ : user ≠ JsVal.undefined) (hu₂ : user ≠ JsVal.null)
    (ht₁ : targetUser ≠ JsVal.undefined) (ht₂ : targetUser ≠ JsVal.null) :
    canModifyUser user targetUser = .ok
      (((user.get "role").strictEq (JsVal.str "ADMIN") &&
          !((targetUser.get "id").strictEq (user.get "id"))) ||
        ((user.get "role").strictEq (JsVal.str "MANAGER") &&
          (targetUser.get "role").strictEq (JsVal.str "EMPLOYEE"))) := by
  unfold canModifyUser
  simp only [getProp_of_defined user _ hu₁ hu₂, getProp_of_defined targetUser _ ht₁ ht₂]
  cases (user.get "role").strictEq (JsVal.str "ADMIN") <;>
    cases (targetUser.get "id").strictEq (user.get "id") <;>
    cases (user.get "role").strictEq (JsVal.str "MANAGER") <;>
    cases (targetUser.get "role").strictEq (JsVal.str "EMPLOYEE") <;> rfl

/-- C29: for a session user and a listed user, `canModifyUser` answers, and
answers true exactly when the session user is an ADMIN and the id of the target
differs from the session user's id, or the session user is a MANAGER and the
target is an EMPLOYEE.  So an EMPLOYEE can modify no user, and a user whose
listed record has the session user's id and role cannot modify that record. -/
theorem canModifyUser_iff (user targetUser : JsVal)
    (hu₁ : user ≠ JsVal.undefined) (hu₂ : user ≠ JsVal.null)
    (ht₁ : targetUser ≠ JsVal.undefined) (ht₂ : targetUser ≠ JsVal.null) :
    ∃ answer : Bool, canModifyUser user targetUser = .ok answer ∧
      (answer = true ↔
        (user.get "role" = JsVal.str "ADMIN" ∧
          (targetUser.get "id").strictEq (user.get "id") = false) ∨
        (user.get "role" = JsVal.str "MANAGER" ∧ targetUser.get "role" = JsVal.str "EMPLOYEE")) ∧
      (user.get "role" = JsVal.str "EMPLOYEE" → answer = false) ∧
      ((targetUser.get "id").strictEq (user.get "id") = true →
        targetUser.get "role" = user.get "role" → answer = false) := by
  refine ⟨_, canModifyUser_eq user targetUser hu₁ hu₂ ht₁ ht₂, ?_, ?_, ?_⟩
  · simp only [Bool.or_eq_true, Bool.and_eq_true, Bool.not_eq_true', strictEq_str_iff]
  · intro hrole
    rw [hrole]
    simp [JsVal.strictEq]
  · intro hid hrole
    rw [hid, hrole]
    cases hm : (user.get "role").strictEq (JsVal.str "MANAGER") with
    | false => simp
    | true =>
      have hr := (strictEq_str_iff _ _).mp hm
      rw [hr]
      simp [JsVal.strictEq]

/-- C29 on sample users: an admin and another admin, an admin and their own
record, a manager and an employee, a manager and their own record. -/
theorem canModifyUser_iff_witness :
    (∃ answer : Bool, canModifyUser (userRecord 1 "ADMIN") (userRecord 2 "ADMIN") = .ok answer ∧
      (answer = true ↔
        ((userRecord 1 "ADMIN").get "role" = JsVal.str "ADMIN" ∧
          ((userRecord 2 "ADMIN").get "id").strictEq ((userRecord 1 "ADMIN").get "id") = false) ∨
        ((userRecord 1 "ADMIN").get "role" = JsVal.str "MANAGER" ∧
          (userRecord 2 "ADMIN").get "role" = JsVal.str "EMPLOYEE")) ∧
      ((userRecord 1 "ADMIN").get "role" = JsVal.str "EMPLOYEE" → answer = false) ∧
      (((userRecord 2 "ADMIN").get "id").strictEq ((userRecord 1 "ADMIN").get "id") = true →
        (userRecord 2 "ADMIN").get "role" = (userRecord 1 "ADMIN").get "role" →
        answer = false)) ∧
    canModifyUser (userRecord 1 "ADMIN") (userRecord 2 "ADMIN") = .ok true ∧
    canModifyUser (userRecord 1 "ADMIN") (userRecord 1 "ADMIN") = .ok false ∧
    canModifyUser (userRecord 3 "MANAGER") (userRecord 4 "EMPLOYEE") = .ok true ∧
    canModifyUser (userRecord 3 "MANAGER") (userRecord 3 "MANAGER") = .ok false ∧
    canModifyUser (userRecord 4 "EMPLOYEE") (userRecord 2 "ADMIN") = .ok false :=
  ⟨canModifyUser_iff (userRecord 1 "ADMIN") (userRecord 2 "ADMIN")
    (fun h => by cases h) (fun h => by cases h) (fun h => by cases h) (fun h => by cases h),
   rfl, rfl, rfl, rfl, rfl⟩

/-! ## Pages of the inventory table -/

theorem arraySlice_page {α : Type} (xs : List α) (i n : Nat) :
    arraySlice xs (Int.ofNat i * Int.ofNat n) (Int.ofNat i * Int.ofNat n + Int.ofNat n)
      = (xs.drop (i * n)).take n := by
  unfold arraySlice
  have h₀ : ¬ (Int.ofNat i * Int.ofNat n < 0) := by
    have : (0 : Int) ≤ Int.ofNat i * Int.ofNat n := Int.mul_nonneg (Int.ofNat_nonneg _) (Int.ofNat_nonneg _)
    omega
  have h₁ : ¬ (Int.ofNat i * Int.ofNat n + Int.ofNat n < 0) := by
    have : (0 : Int) ≤ Int.ofNat i * Int.ofNat n := Int.mul_nonneg (Int.ofNat_nonneg _) (Int.ofNat_nonneg _)
    have : (0 : Int) ≤ Int.ofNat n := Int.ofNat_nonneg _
    omega
  simp only [h₀, h₁, if_false]
  have hmul : Int.ofNat i * Int.ofNat n = Int.ofNat (i * n) := rfl
  rw [hmul]
  by_cases hle : i * n ≤ xs.length
  · have hlo : (min (Int.ofNat (i * n)) (Int.ofNat xs.length)).toNat = i * n := by
      simp only [Int.ofNat_eq_coe]
      omega
    have hhi : (min (Int.ofNat (i * n) + Int.ofNat n) (Int.ofNat xs.length) -
        min (Int.ofNat (i * n)) (Int.ofNat xs.length)).toNat = min n (xs.length - i * n) := by
      simp only [Int.ofNat_eq_coe]
      omega
    rw [hlo, hhi]
    apply List.take_eq_take.mpr
    simp only [List.length_drop]
    omega
  · have hlo : (min (Int.ofNat (i * n)) (Int.ofNat xs.length)).toNat = xs.length := by
      simp only [Int.ofNat_eq_coe]
      omega
    rw [hlo, List.drop_of_length_le (Nat.le_refl _), List.drop_of_length_le (by omega)]
    simp

theorem paginatedInventory_eq (sortedInventory : List JsVal) (i itemsPerPage : Nat) :
    paginatedInventory sortedInventory (Int.ofNat i + 1) itemsPerPage
      = (sortedInventory.drop (i * itemsPerPage)).take itemsPerPage := by
  unfold paginatedInventory startIndex
  have h : Int.ofNat i + 1 - 1 = Int.ofNat i := by omega
  rw [h]
  exact arraySlice_page sortedInventory i itemsPerPage

theorem pages_flatten {α : Type} (xs : List α) (n : Nat) :
    ∀ pages : Nat, ((List.range pages).map (fun i => (xs.drop (i * n)).take n)).flatten
      = xs.take (pages * n) := by
  intro pages
  induction pages with
  | zero => simp
  | succ k ih =>
    rw [List.range_succ, List.map_append, List.flatten_append, ih, List.map_singleton,
      List.flatten_singleton, Nat.succ_mul, List.take_add]

theorem totalPages_cover (length itemsPerPage : Nat) (h : 1 ≤ itemsPerPage) :
    length ≤ totalPages length itemsPerPage * itemsPerPage ∧
    ∀ i, i < totalPages length itemsPerPage → i * itemsPerPage < length := by
  unfold totalPages
  have hdm := Nat.div_add_mod (length + itemsPerPage - 1) itemsPerPage
  have hmod := Nat.mod_lt (length + itemsPerPage - 1) (show 0 < itemsPerPage from h)
  have hcomm : itemsPerPage * ((length + itemsPerPage - 1) / itemsPerPage)
      = (length + itemsPerPage - 1) / itemsPerPage * itemsPerPage := Nat.mul_comm _ _
  constructor
  · omega
  · intro i hi
    have hle : (i + 1) * itemsPerPage
        ≤ (length + itemsPerPage - 1) / itemsPerPage * itemsPerPage :=
      Nat.mul_le_mul_right _ hi
    rw [Nat.succ_mul] at hle
    omega

theorem totalPages_eq_ceil (length itemsPerPage : Nat) (h : 1 ≤ itemsPerPage) :
    totalPages length itemsPerPage = ⌈(length : ℚ) / (itemsPerPage : ℚ)⌉₊ := by
  have hpos : (0 : ℚ) < (itemsPerPage : ℚ) := by exact_mod_cast h
  obtain ⟨hup, hlow⟩ := totalPages_cover length itemsPerPage h
  apply le_antisymm
  · by_contra hlt
    push_neg at hlt
    have hlen := hlow _ hlt
    have hc : (length : ℚ) / (itemsPerPage : ℚ) ≤ (⌈(length : ℚ) / (itemsPerPage : ℚ)⌉₊ : ℚ) :=
      Nat.le_ceil _
    rw [div_le_iff₀ hpos] at hc
    have hc' : length ≤ ⌈(length : ℚ) / (itemsPerPage : ℚ)⌉₊ * itemsPerPage := by
      exact_mod_cast hc
    omega
  · apply Nat.ceil_le.mpr
    rw [div_le_iff₀ hpos]
    exact_mod_cast hup

/-- C30: for a page size of at least 1, with `totalPages` the number of items
divided by the page size and rounded up, every page from 1 to `totalPages` is
non-empty and holds at most `itemsPerPage` items, the pages 1, 2, ...,
`totalPages` put one after the other are the sorted list itself, and the
Previous and Next buttons take a current page of that range to a page of that
range. -/
theorem pages_partition (sortedInventory : List JsVal) (itemsPerPage : Nat)
    (hsize : 1 ≤ itemsPerPage) :
    totalPages sortedInventory.length itemsPerPage
      = ⌈(sortedInventory.length : ℚ) / (itemsPerPage : ℚ)⌉₊ ∧
    (∀ i : Nat, i < totalPages sortedInventory.length itemsPerPage →
      paginatedInventory sortedInventory (Int.ofNat i + 1) itemsPerPage ≠ [] ∧
      (paginatedInventory sortedInventory (Int.ofNat i + 1) itemsPerPage).length
        ≤ itemsPerPage) ∧
    ((List.range (totalPages sortedInventory.length itemsPerPage)).map
      (fun i => paginatedInventory sortedInventory (Int.ofNat i + 1) itemsPerPage)).flatten
      = sortedInventory ∧
    (∀ currentPage : Int, 1 ≤ currentPage →
      currentPage ≤ Int.ofNat (totalPages sortedInventory.length itemsPerPage) →
      1 ≤ previousPage currentPage ∧
      previousPage currentPage ≤ Int.ofNat (totalPages sortedInventory.length itemsPerPage) ∧
      1 ≤ nextPage (totalPages sortedInventory.length itemsPerPage) currentPage ∧
      nextPage (totalPages sortedInventory.length itemsPerPage) currentPage
        ≤ Int.ofNat (totalPages sortedInventory.length itemsPerPage)) := by
  obtain ⟨hup, hlow⟩ := totalPages_cover sortedInventory.length itemsPerPage hsize
  refine ⟨totalPages_eq_ceil _ _ hsize, ?_, ?_, ?_⟩
  · intro i hi
    rw [paginatedInventory_eq]
    have hlen : ((sortedInventory.drop (i * itemsPerPage)).take itemsPerPage).length
        = min itemsPerPage (sortedInventory.length - i * itemsPerPage) := by
      simp only [List.length_take, List.length_drop]
    constructor
    · intro hnil
      rw [hnil] at hlen
      have := hlow i hi
      simp only [List.length_nil] at hlen
      omega
    · omega
  · simp only [paginatedInventory_eq]
    rw [pages_flatten]
    exact List.take_of_length_le hup
  · intro currentPage h₁ h₂
    unfold previousPage nextPage
    simp only [Int.ofNat_eq_coe] at h₂ ⊢
    omega

/-- C30 on seven records and a page size of 3: three pages, of 3, 3 and 1. -/
theorem pages_partition_witness :
    (1 ≤ 3) ∧
    (totalPages sevenRecords.length 3 = ⌈(sevenRecords.length : ℚ) / ((3 : Nat) : ℚ)⌉₊ ∧
    (∀ i : Nat, i < totalPages sevenRecords.length 3 →
      paginatedInventory sevenRecords (Int.ofNat i + 1) 3 ≠ [] ∧
      (paginatedInventory sevenRecords (Int.ofNat i + 1) 3).length ≤ 3) ∧
    ((List.range (totalPages sevenRecords.length 3)).map
      (fun i => paginatedInventory sevenRecords (Int.ofNat i + 1) 3)).flatten
      = sevenRecords ∧
    (∀ currentPage : Int, 1 ≤ currentPage →
      currentPage ≤ Int.ofNat (totalPages sevenRecords.length 3) →
      1 ≤ previousPage currentPage ∧
      previousPage currentPage ≤ Int.ofNat (totalPages sevenRecords.length 3) ∧
      1 ≤ nextPage (totalPages sevenRecords.length 3) currentPage ∧
      nextPage (totalPages sevenRecords.length 3) currentPage
        ≤ Int.ofNat (totalPages sevenRecords.length 3))) ∧
    totalPages sevenRecords.length 3 = 3 ∧
    (List.range 3).map (fun i => (paginatedInventory sevenRecords (Int.ofNat i + 1) 3).length)
      = [3, 3, 1] ∧
    previousPage 1 = 1 ∧ nextPage 3 3 = 3 ∧ nextPage 3 1 = 2 :=
  ⟨by decide, pages_partition sevenRecords 3 (by decide), by decide, by rfl, by decide,
    by decide, by decide⟩

/-! ## Labels of groups under ambiguous supplier ids -/

/-- C9, counterexample: with the suppliers 1 (A) and `"1"` (B) the product
resolved to B is filed under the key `"1"` in the group labelled A; with a
supplier whose id is `"no-supplier"` the sentinel group is labelled with that
supplier, which has an id, and holds the product whose supplier is `null`.  In
neither report is every group labelled with the resolved supplier (or the
placeholder) of each of its products. -/
theorem group_label_not_resolved_supplier :
    generateReport "t" exampleWarehouses twinProducts (JsVal.arr []) twinSuppliers (JsVal.num 5)
      = .ok (some (reportOfGroups "t" twinGroups)) ∧
    twinGroups.lookup ((twinSecond.get "supplier").get "id").toStr
      = some ⟨JsVal.obj [("id", JsVal.num 1), ("name", JsVal.str "A")],
          [JsVal.obj [("id", JsVal.num 1), ("name", JsVal.str "P1"),
            ("warehouse", JsVal.obj [("id", JsVal.num 5)]),
            ("supplier", JsVal.obj [("id", JsVal.num 1), ("name", JsVal.str "A")]),
            ("currentStock", JsVal.num 0)],
           twinSecond]⟩ ∧
    twinSecond.get "supplier" = JsVal.obj [("id", JsVal.str "1"), ("name", JsVal.str "B")] ∧
    ¬ (∀ kg ∈ (reportOfGroups "t" twinGroups).productsBySupplier, ∀ e ∈ kg.2.products,
        ((e.get "supplier").truthy = true ∧ kg.2.supplier = e.get "supplier") ∨
        (e.get "supplier" = JsVal.null ∧
          kg.2.supplier = JsVal.obj [("name", JsVal.str "No Supplier")])) ∧
    generateReport "t" exampleWarehouses sentinelProducts (JsVal.arr []) sentinelSuppliers
      (JsVal.num 5) = .ok (some (reportOfGroups "t" sentinelGroups)) ∧
    sentinelSecond.get "supplier" = JsVal.null ∧
    (∃ g, sentinelGroups.lookup "no-supplier" = some g ∧ sentinelSecond ∈ g.products ∧
      g.supplier.get "name" = JsVal.str "Real Ltd" ∧
      g.supplier.get "id" = JsVal.str "no-supplier") ∧
    ¬ (∀ kg ∈ (reportOfGroups "t" sentinelGroups).productsBySupplier, ∀ e ∈ kg.2.products,
        ((e.get "supplier").truthy = true ∧ kg.2.supplier = e.get "supplier") ∨
        (e.get "supplier" = JsVal.null ∧
          kg.2.supplier = JsVal.obj [("name", JsVal.str "No Supplier")])) := by
  refine ⟨rfl, rfl, rfl, ?_, rfl, rfl, ⟨_, rfl, ?_, rfl, rfl⟩, ?_⟩
  · intro hall
    have h := hall _ (List.mem_cons_self _ _) twinSecond
      (List.mem_cons_of_mem _ (List.mem_cons_self _ _))
    rcases h with ⟨_, hlabel⟩ | ⟨hnull, _⟩
    · have hname := congrArg (fun v : JsVal => v.get "name") hlabel
      have hs : "A" = "B" := JsVal.str.inj hname
      exact absurd hs (by decide)
    · exact absurd hnull (fun h => by cases h)
  · exact List.mem_cons_of_mem _ (List.mem_cons_self _ _)
  · intro hall
    have h := hall _ (List.mem_cons_self _ _) sentinelSecond
      (List.mem_cons_of_mem _ (List.mem_cons_self _ _))
    rcases h with ⟨htruthy, _⟩ | ⟨_, hlabel⟩
    · exact absurd htruthy (by decide)
    · have hname := congrArg (fun v : JsVal => v.get "name") hlabel
      have hs : "Real Ltd" = "No Supplier" := JsVal.str.inj hname
      exact absurd hs (by decide)

/-! ## The total value outside the plain decimal range -/

set_option maxRecDepth 100000 in
theorem toFixed2_of_rounded_price :
    (totalStockValue [decimalPriceProduct]).toFixed2 = "1.00" ∧
    (JsNumber.fin 1005 (-3)).toFixed2 = "1.01" := by
  decide

/-- C21, counterexample: for a price of 100000000000 and a stock of
100000000000 the line of the total value reads `1e+22`, and for a price that
is the text `N/A` it reads `NaN`; neither has two digits after a decimal
point. -/
theorem csv_total_value_without_decimals :
    generateReport "t" exampleWarehouses hugeValueProducts hugeValueInventory (JsVal.arr [])
      (JsVal.num 5) = .ok (some (hugeValueReport "t")) ∧
    summaryLines (hugeValueReport "t") =
      ["Total Products,1", "Low Stock Items,0", "Estimated Total Value,1e+22"] ∧
    twoDecimalPlaces (hugeValueReport "t").totalStockValue.toFixed2 = false ∧
    generateReport "t" exampleWarehouses unpricedProducts exampleInventory (JsVal.arr [])
      (JsVal.num 5) = .ok (some (unpricedReport "t")) ∧
    summaryLines (unpricedReport "t") =
      ["Total Products,1", "Low Stock Items,0", "Estimated Total Value,NaN"] ∧
    twoDecimalPlaces (unpricedReport "t").totalStockValue.toFixed2 = false :=
  ⟨rfl, by decide, by decide, rfl, by decide, by decide⟩
